import Mathlib

/-!
Otter Browser mouse-gesture engine (`src/core/GesturesManager.cpp`)

A shallow embedding of the gesture step model, its textual serialization, the
difference (cost) function and the best-match search, followed by the
properties established for them.

Conventions of the embedding:

* `QString` is a list of characters; `QVector<T>` is a `List T`.
* `QHash<GesturesContext, QVector<T>>` read through `operator[]` is a total
  function from contexts to lists (a missing key reads as the empty vector).
* C++ `int` results are integers; the accumulation of step penalties is done
  in unbounded integers (a buffer would need more than eighteen million steps
  to leave the `int` range, where C++ arithmetic is undefined anyway). The
  negation inside `qAbs` is computed in `int` (`wrapInt`), so `qAbs` returns
  the least `int` as it is.
* The static members of `GesturesManager` are the fields of `Session`; a
  member function is a function from sessions to sessions. Calls into Qt, the
  recognizer and `ActionsManager` are parameters (`Environment`) or entries of
  the `effects` log. A function that dereferences a null `m_trackedObject`
  returns `none`.
-/

namespace Otter

/-! ## Qt and MouseGestures value types -/

/-- The `QEvent::Type` values that `GestureStep` distinguishes. `None` is the
type of a default-constructed step. -/
inductive EventType where
  | None
  | MouseButtonPress
  | MouseButtonRelease
  | MouseButtonDblClick
  | MouseMove
  | Wheel
  deriving DecidableEq, Repr

/-- Modelled from the spec: the header of the MouseGestures recognizer is not
among the sources; these are the directions the source names (Up, Down, Left,
Right, Horizontal, Vertical) and the unknown direction. -/
inductive MouseAction where
  | UnknownMouseAction
  | MoveUpMouseAction
  | MoveDownMouseAction
  | MoveLeftMouseAction
  | MoveRightMouseAction
  | MoveHorizontallyMouseAction
  | MoveVerticallyMouseAction
  deriving DecidableEq, Repr

/-- `Qt::MouseButton` is a flag enumeration; a button is its flag value, so that
`Qt::ExtraButton1 << (i - 1)` is a shift of that value. -/
abbrev MouseButton := Nat

namespace Qt

def NoButton : MouseButton := 0x0
def LeftButton : MouseButton := 0x1
def RightButton : MouseButton := 0x2
def MiddleButton : MouseButton := 0x4
def BackButton : MouseButton := 0x8
def ExtraButton1 : MouseButton := 0x8
def ForwardButton : MouseButton := 0x10
def TaskButton : MouseButton := 0x20

end Qt

/-- Modelled from the spec: the `Qt::KeyboardModifiers` flag type is declared
outside the repository; the data model gives the modifiers of a step as a set
over shift, ctrl, alt and meta, which are the four flags the source tests. A
flag set is a record of membership bits. -/
structure KeyboardModifiers where
  shift : Bool
  ctrl : Bool
  alt : Bool
  meta : Bool
  deriving DecidableEq, Repr

namespace KeyboardModifiers

/-- `Qt::NoModifier`. -/
def NoModifier : KeyboardModifiers := ⟨false, false, false, false⟩

/-- Flag union, `operator|`. -/
def union (a b : KeyboardModifiers) : KeyboardModifiers :=
  ⟨a.shift || b.shift, a.ctrl || b.ctrl, a.alt || b.alt, a.meta || b.meta⟩

end KeyboardModifiers

/-- Text is a list of characters. -/
abbrev QString := List Char

/-! ## GestureStep -/

/-- `GesturesManager::GestureStep`. -/
structure GestureStep where
  type : EventType
  button : MouseButton
  modifiers : KeyboardModifiers
  direction : MouseAction
  deriving DecidableEq, Repr

namespace GestureStep

open EventType MouseAction

/-- `GestureStep()`. -/
def default : GestureStep :=
  ⟨EventType.None, Qt.NoButton, KeyboardModifiers.NoModifier, UnknownMouseAction⟩

/-- `GestureStep(QEvent::Type, MouseGestures::MouseAction, Qt::KeyboardModifiers)`. -/
def ofDirection (type : EventType) (direction : MouseAction)
    (modifier : KeyboardModifiers) : GestureStep :=
  ⟨type, Qt.NoButton, modifier, direction⟩

/-- `GestureStep(QEvent::Type, Qt::MouseButton, Qt::KeyboardModifiers)`. -/
def ofButton (type : EventType) (button : MouseButton)
    (modifier : KeyboardModifiers) : GestureStep :=
  ⟨type, button, modifier, UnknownMouseAction⟩

/-- `GestureStep::operator==`. -/
def eq (a other : GestureStep) : Bool :=
  decide (a.type = other.type) && decide (a.button = other.button) &&
    decide (a.direction = other.direction) &&
    (decide (a.modifiers = other.modifiers) || decide (a.type = MouseMove))

/-- `GestureStep::operator!=`. -/
def ne (a other : GestureStep) : Bool := !(a.eq other)

/-- The first `switch` of `toString`: the name of the step kind. -/
def typeName : EventType → QString
  | MouseButtonPress => "press".toList
  | MouseButtonRelease => "release".toList
  | MouseButtonDblClick => "doubleClick".toList
  | Wheel => "scroll".toList
  | MouseMove => "move".toList
  | EventType.None => []

/-- The `switch (direction)` of `toString`. -/
def directionName : MouseAction → QString
  | MoveUpMouseAction => "Up".toList
  | MoveDownMouseAction => "Down".toList
  | MoveLeftMouseAction => "Left".toList
  | MoveRightMouseAction => "Right".toList
  | MoveHorizontallyMouseAction => "Horizontal".toList
  | MoveVerticallyMouseAction => "Vertical".toList
  | UnknownMouseAction => []

/-- The `switch (button)` of `toString`. -/
def buttonName (button : MouseButton) : QString :=
  if button = Qt.LeftButton then "Left".toList
  else if button = Qt.RightButton then "Right".toList
  else if button = Qt.MiddleButton then "Middle".toList
  else if button = Qt.BackButton then "Back".toList
  else if button = Qt.ForwardButton then "Forward".toList
  else if button = Qt.TaskButton then "Task".toList
  else []

/-- The loop `for (int i = 4; i <= 24; ++i)` of `toString`: appends `Extra<i>`
for every `i` with `button == Qt::ExtraButton1 << (i - 1)`. -/
def appendExtraNames (button : MouseButton) (string : QString) : QString :=
  (List.range' 4 21).foldl
    (fun acc i =>
      if button = Qt.ExtraButton1 <<< (i - 1) then acc ++ "Extra".toList ++ (Nat.repr i).toList
      else acc)
    string

/-- `GestureStep::toString`. -/
def toString (s : GestureStep) : QString :=
  let string := typeName s.type
  let string :=
    if s.type = Wheel ∨ s.type = MouseMove then string ++ directionName s.direction
    else appendExtraNames s.button (string ++ buttonName s.button)
  let string := if s.modifiers.shift then string ++ "+shift".toList else string
  let string := if s.modifiers.ctrl then string ++ "+ctrl".toList else string
  let string := if s.modifiers.alt then string ++ "+alt".toList else string
  let string := if s.modifiers.meta then string ++ "+meta".toList else string
  string

end GestureStep

/-! ## deserializeStep -/

/-- `QString::split(sep)` with the default `KeepEmptyParts`: the result is
never empty. -/
def split (sep : Char) : QString → List QString
  | [] => [[]]
  | c :: cs =>
    if c = sep then [] :: split sep cs
    else
      match split sep cs with
      | p :: ps => (c :: p) :: ps
      | [] => [[c]]

/-- `QString::startsWith`. -/
def startsWith (s : QString) (p : String) : Bool := p.toList.isPrefixOf s

/-- `QString::endsWith`. -/
def endsWith (s : QString) (p : String) : Bool := p.toList.isSuffixOf s

/-- `QRegularExpression("Extra(\\d{1,2})$").match(event).captured(1)`: a match
must end at the end of the subject (or just before a final newline), so it is
the final `Extra` followed by one or two ASCII digits; the capture is the
digits, and it is empty when there is no match. -/
def capturedExtra (event : QString) : QString :=
  let subject := if event.getLast? = some '\n' then event.dropLast else event
  let n := subject.length
  if 7 ≤ n ∧ (subject.drop (n - 7)).take 5 = "Extra".toList
      ∧ (subject.drop (n - 2)).all Char.isDigit then
    subject.drop (n - 2)
  else if 6 ≤ n ∧ (subject.drop (n - 6)).take 5 = "Extra".toList
      ∧ (subject.drop (n - 1)).all Char.isDigit then
    subject.drop (n - 1)
  else []

/-- `QString::toInt` on a run of ASCII digits (0 for the empty string, the
result of a failed conversion). -/
def toInt (s : QString) : Nat :=
  if s.isEmpty ∨ ¬ s.all Char.isDigit then 0
  else s.foldl (fun acc c => 10 * acc + (c.toNat - '0'.toNat)) 0

open EventType MouseAction in
/-- The part of `deserializeStep` that reads `parts.first()`: kind, then
direction or button. -/
def deserializeEvent (event : QString) : GestureStep :=
  let step := GestureStep.default
  let step :=
    if startsWith event "press" then { step with type := MouseButtonPress }
    else if startsWith event "release" then { step with type := MouseButtonRelease }
    else if startsWith event "doubleClick" then { step with type := MouseButtonDblClick }
    else if startsWith event "scroll" then { step with type := Wheel }
    else if startsWith event "move" then { step with type := MouseMove }
    else step
  if step.type = Wheel ∨ step.type = MouseMove then
    if endsWith event "Up" then { step with direction := MoveUpMouseAction }
    else if endsWith event "Down" then { step with direction := MoveDownMouseAction }
    else if endsWith event "Left" then { step with direction := MoveLeftMouseAction }
    else if endsWith event "Right" then { step with direction := MoveRightMouseAction }
    else if endsWith event "Horizontal" then
      { step with direction := MoveHorizontallyMouseAction }
    else if endsWith event "Vertical" then { step with direction := MoveVerticallyMouseAction }
    else step
  else
    if endsWith event "Left" then { step with button := Qt.LeftButton }
    else if endsWith event "Right" then { step with button := Qt.RightButton }
    else if endsWith event "Middle" then { step with button := Qt.MiddleButton }
    else if endsWith event "Back" then { step with button := Qt.BackButton }
    else if endsWith event "Forward" then { step with button := Qt.ForwardButton }
    else if endsWith event "Task" then { step with button := Qt.TaskButton }
    else
      let number := toInt (capturedExtra event)
      if 1 ≤ number ∧ number ≤ 24 then { step with button := Qt.ExtraButton1 <<< (number - 1) }
      else step

/-- One iteration of the loop over `parts.at(i)`, `i ≥ 1`, of
`deserializeStep`. -/
def deserializeModifier (step : GestureStep) (part : QString) : GestureStep :=
  if part = "shift".toList then
    { step with modifiers := { step.modifiers with shift := true } }
  else if part = "ctrl".toList then
    { step with modifiers := { step.modifiers with ctrl := true } }
  else if part = "alt".toList then
    { step with modifiers := { step.modifiers with alt := true } }
  else if part = "meta".toList then
    { step with modifiers := { step.modifiers with meta := true } }
  else step

/-- `GesturesManager::deserializeStep`. -/
def deserializeStep (string : QString) : GestureStep :=
  let parts := split '+' string
  let event := parts.headD []
  (parts.drop 1).foldl deserializeModifier (deserializeEvent event)

namespace GestureStep

open EventType MouseAction

/-- The buttons of the data model: none, Left, Right, Middle, Back, Forward,
Task and the extra buttons `Qt::ExtraButton1 << (n - 1)` for `n` in 1..24. -/
def knownButtons : List MouseButton :=
  [Qt.NoButton, Qt.LeftButton, Qt.RightButton, Qt.MiddleButton, Qt.BackButton,
    Qt.ForwardButton, Qt.TaskButton]
    ++ (List.range' 1 24).map (fun n => Qt.ExtraButton1 <<< (n - 1))

/-- The data-model invariant of a step: a real kind, a direction only on
scroll and move steps, a button only on the other kinds, and a known button. -/
def WellFormed (s : GestureStep) : Prop :=
  s.type ≠ EventType.None ∧
    (if s.type = Wheel ∨ s.type = MouseMove then s.button = Qt.NoButton
      else s.direction = UnknownMouseAction) ∧
    s.button ∈ knownButtons

instance (s : GestureStep) : Decidable (WellFormed s) := by
  unfold WellFormed; infer_instance

/-- The text `toString` produces before the modifier suffixes. -/
def eventText (type : EventType) (button : MouseButton) (direction : MouseAction) : QString :=
  if type = Wheel ∨ type = MouseMove then typeName type ++ directionName direction
  else appendExtraNames button (typeName type ++ buttonName button)

/-- The modifier suffixes `toString` appends, in its fixed order. -/
def modifierText (m : KeyboardModifiers) : QString :=
  (if m.shift then "+shift".toList else []) ++ (if m.ctrl then "+ctrl".toList else [])
    ++ (if m.alt then "+alt".toList else []) ++ (if m.meta then "+meta".toList else [])

/-- The parts after the first that `split` finds in `modifierText`. -/
def modifierParts (m : KeyboardModifiers) : List QString :=
  (if m.shift then ["shift".toList] else []) ++ (if m.ctrl then ["ctrl".toList] else [])
    ++ (if m.alt then ["alt".toList] else []) ++ (if m.meta then ["meta".toList] else [])

end GestureStep

/-! ## Input events -/

/-- `QPoint`. -/
structure QPoint where
  x : Int
  y : Int
  deriving DecidableEq, Repr

/-- The fields of a `QInputEvent` (`QMouseEvent` or `QWheelEvent`) that the
engine reads: kind, modifiers, the button that caused the event, the buttons
held, the position and, for wheel events, the angle delta. -/
structure QInputEvent where
  type : EventType
  modifiers : KeyboardModifiers
  button : MouseButton
  buttons : Nat
  pos : QPoint
  angleDelta : QPoint
  deriving DecidableEq, Repr

/-- The values of the C++ type `int`. -/
def isInt (t : Int) : Prop := -2147483648 ≤ t ∧ t ≤ 2147483647

instance (t : Int) : Decidable (isInt t) := by
  unfold isInt; infer_instance

/-- The `int` that holds the result of an `int` operation whose mathematical
value is `t`: `t` reduced modulo `2^32` into the range of `int`, as the
two's-complement targets of Qt compute it. -/
def wrapInt (t : Int) : Int := (t + 2147483648) % 4294967296 - 2147483648

/-- `qAbs` on `int`: `t >= 0 ? t : -t`, the negation computed in `int`, so
that the least `int` is returned as it is. -/
def qAbs (t : Int) : Int := if t ≥ 0 then t else wrapInt (-t)

open EventType MouseAction in
/-- `GestureStep(const QInputEvent *event)`. -/
def GestureStep.ofEvent (event : QInputEvent) : GestureStep :=
  let step : GestureStep :=
    ⟨event.type, Qt.NoButton, event.modifiers, UnknownMouseAction⟩
  match event.type with
  | MouseButtonPress | MouseButtonRelease | MouseButtonDblClick =>
    { step with button := event.button }
  | Wheel =>
    let delta := event.angleDelta
    if qAbs delta.x > qAbs delta.y then
      { step with
        direction := if delta.x > 0 then MoveRightMouseAction else MoveLeftMouseAction }
    else if qAbs delta.y > 0 then
      { step with
        direction := if delta.y > 0 then MoveUpMouseAction else MoveDownMouseAction }
    else step
  | _ => step

/-! ## The gesture table -/

/-- `UNKNOWN_GESTURE`. -/
def UNKNOWN_GESTURE : Int := -1

/-- `NATIVE_GESTURE`. -/
def NATIVE_GESTURE : Int := -2

/-- `std::numeric_limits<int>::max()`. -/
def intMax : Int := 2147483647

/-- Modelled from the spec: the header declaring
`GesturesManager::GesturesContext` is not among the sources; these are the
contexts the source names, between the sentinels `UnknownContext` and
`OtherContext` of the data model. -/
inductive GesturesContext where
  | UnknownContext
  | GenericContext
  | LinkContext
  | ContentEditableContext
  | TabHandleContext
  | OtherContext
  deriving DecidableEq, Repr

/-- `GesturesManager::MouseGesture`. -/
structure MouseGesture where
  steps : List GestureStep
  action : Int
  deriving DecidableEq, Repr

/-- `m_nativeGestures`, read through `operator[]`. -/
abbrev NativeTable := GesturesContext → List (List GestureStep)

/-- `m_gestures`, read through `operator[]`. -/
abbrev GestureTable := GesturesContext → List MouseGesture

open EventType MouseAction GesturesContext in
/-- The native table that `createInstance` installs. -/
def createInstanceNativeGestures : NativeTable
  | GenericContext =>
    [[GestureStep.ofButton MouseButtonDblClick Qt.LeftButton KeyboardModifiers.NoModifier],
      [GestureStep.ofButton MouseButtonPress Qt.LeftButton KeyboardModifiers.NoModifier,
        GestureStep.ofButton MouseButtonRelease Qt.LeftButton KeyboardModifiers.NoModifier],
      [GestureStep.ofButton MouseButtonPress Qt.LeftButton KeyboardModifiers.NoModifier,
        GestureStep.ofDirection MouseMove UnknownMouseAction KeyboardModifiers.NoModifier]]
  | LinkContext =>
    [[GestureStep.ofButton MouseButtonPress Qt.LeftButton KeyboardModifiers.NoModifier,
        GestureStep.ofButton MouseButtonRelease Qt.LeftButton KeyboardModifiers.NoModifier],
      [GestureStep.ofButton MouseButtonPress Qt.LeftButton KeyboardModifiers.NoModifier,
        GestureStep.ofDirection MouseMove UnknownMouseAction KeyboardModifiers.NoModifier]]
  | ContentEditableContext =>
    [[GestureStep.ofButton MouseButtonPress Qt.MiddleButton KeyboardModifiers.NoModifier]]
  | TabHandleContext =>
    [[GestureStep.ofButton MouseButtonPress Qt.LeftButton KeyboardModifiers.NoModifier,
        GestureStep.ofDirection MouseMove UnknownMouseAction KeyboardModifiers.NoModifier]]
  | _ => []

/-! ## calculateGesturesDifference -/

open EventType in
/-- The body of the loop of `calculateGesturesDifference` at index `j`, for a
candidate of `count` steps: `s` is `steps[j]`, `m` is `m_steps[j]`. The result
is `none` when the loop returns `std::numeric_limits<int>::max()` at this
index, and the value of `stepDifference` otherwise. -/
def stepDifference (count j : Nat) (s m : GestureStep) : Option Int :=
  let stepDifference : Int := 0
  let stepDifference :=
    if j = count - 1 ∧ s.type = MouseButtonPress ∧ m.type = MouseButtonDblClick
        ∧ s.button = m.button ∧ s.modifiers = m.modifiers then
      stepDifference + 100
    else stepDifference
  let stepDifference :=
    if m.type = s.type
        ∧ (s.type = MouseButtonPress ∨ s.type = MouseButtonRelease
          ∨ s.type = MouseButtonDblClick)
        ∧ m.button = s.button ∧ m.modifiers.union s.modifiers = m.modifiers then
      let stepDifference :=
        if m.modifiers.ctrl ∧ ¬ s.modifiers.ctrl then stepDifference + 8 else stepDifference
      let stepDifference :=
        if m.modifiers.shift ∧ ¬ s.modifiers.shift then stepDifference + 4 else stepDifference
      let stepDifference :=
        if m.modifiers.alt ∧ ¬ s.modifiers.alt then stepDifference + 2 else stepDifference
      let stepDifference :=
        if m.modifiers.meta ∧ ¬ s.modifiers.meta then stepDifference + 1 else stepDifference
      stepDifference
    else stepDifference
  if stepDifference = 0 ∧ s.ne m then none else some stepDifference

/-- The loop `for (int j = 0; j < steps.count(); ++j)` of
`calculateGesturesDifference`, from index `j` on, over the remaining candidate
steps and the remaining buffer steps. -/
def differenceLoop (count : Nat) :
    Nat → List GestureStep → List GestureStep → Int → Int
  | j, s :: steps, m :: m_steps, difference =>
    match stepDifference count j s m with
    | none => intMax
    | some d => differenceLoop count (j + 1) steps m_steps (difference + d)
  | _, _, _, difference => difference

/-- `GesturesManager::calculateGesturesDifference`: `m_steps` is the step
buffer, `steps` the candidate. -/
def calculateGesturesDifference (m_steps steps : List GestureStep) : Int :=
  if m_steps.length ≠ steps.length then intMax
  else differenceLoop steps.length 0 steps m_steps 0

/-! ## matchGesture -/

/-- The local variables `bestGesture` and `lowestDifference` of `matchGesture`. -/
structure MatchState where
  bestGesture : Int
  lowestDifference : Int
  deriving DecidableEq, Repr

/-- The loop of `matchGesture` over `m_nativeGestures[m_contexts[i]]`; an
`Except.error` carries the value of an early `return`. -/
def matchNativeLoop (m_steps : List GestureStep) :
    List (List GestureStep) → MatchState → Except Int MatchState
  | [], st => .ok st
  | g :: rest, st =>
    let difference := calculateGesturesDifference m_steps g
    if difference = 0 then .error NATIVE_GESTURE
    else
      let st := if difference < st.lowestDifference then ⟨NATIVE_GESTURE, difference⟩ else st
      matchNativeLoop m_steps rest st

/-- The loop of `matchGesture` over `m_gestures[m_contexts[i]]`. -/
def matchBoundLoop (m_steps : List GestureStep) :
    List MouseGesture → MatchState → Except Int MatchState
  | [], st => .ok st
  | g :: rest, st =>
    let difference := calculateGesturesDifference m_steps g.steps
    if difference = 0 then .error g.action
    else
      let st := if difference < st.lowestDifference then ⟨g.action, difference⟩ else st
      matchBoundLoop m_steps rest st

/-- The outer loop of `matchGesture` over `m_contexts`. -/
def matchContextLoop (m_nativeGestures : NativeTable) (m_gestures : GestureTable)
    (m_steps : List GestureStep) : List GesturesContext → MatchState → Except Int MatchState
  | [], st => .ok st
  | c :: rest, st =>
    match matchNativeLoop m_steps (m_nativeGestures c) st with
    | .error r => .error r
    | .ok st =>
      match matchBoundLoop m_steps (m_gestures c) st with
      | .error r => .error r
      | .ok st => matchContextLoop m_nativeGestures m_gestures m_steps rest st

/-- `GesturesManager::matchGesture`. -/
def matchGesture (m_nativeGestures : NativeTable) (m_gestures : GestureTable)
    (m_contexts : List GesturesContext) (m_steps : List GestureStep) : Int :=
  match matchContextLoop m_nativeGestures m_gestures m_steps m_contexts ⟨0, intMax⟩ with
  | .error r => r
  | .ok st => if st.lowestDifference < intMax then st.bestGesture else UNKNOWN_GESTURE

/-! ## Reference definition of the match -/

/-- A candidate of the search: its steps and the resolution it stands for. -/
structure Candidate where
  steps : List GestureStep
  resolution : Int
  deriving DecidableEq, Repr

/-- The candidates in enumeration order: contexts in the order of the active
context list; inside a context the native sequences in table order, then the
bound definitions in table order. -/
def candidates (m_nativeGestures : NativeTable) (m_gestures : GestureTable)
    (m_contexts : List GesturesContext) : List Candidate :=
  m_contexts.flatMap fun c =>
    (m_nativeGestures c).map (fun g => ⟨g, NATIVE_GESTURE⟩)
      ++ (m_gestures c).map (fun d => ⟨d.steps, d.action⟩)

/-- The least element of a non-empty list of costs. -/
def minimumCost : List Int → Option Int
  | [] => none
  | x :: xs => some (xs.foldl min x)

/-- The cost of a candidate against the step buffer. -/
def candidateCost (m_steps : List GestureStep) (c : Candidate) : Int :=
  calculateGesturesDifference m_steps c.steps

/-- The reference result of the match: the resolution of the first candidate
of cost 0 if there is one; otherwise, if some candidate has finite cost, the
resolution of the first candidate attaining the minimum cost; otherwise
`UNKNOWN_GESTURE`. -/
def matchGestureSpec (m_nativeGestures : NativeTable) (m_gestures : GestureTable)
    (m_contexts : List GesturesContext) (m_steps : List GestureStep) : Int :=
  let cs := candidates m_nativeGestures m_gestures m_contexts
  match cs.find? (fun c => candidateCost m_steps c = 0) with
  | some c => c.resolution
  | none =>
    if cs.any (fun c => candidateCost m_steps c < intMax) then
      match minimumCost (cs.map (candidateCost m_steps)) with
      | some least =>
        match cs.find? (fun c => candidateCost m_steps c = least) with
        | some c => c.resolution
        | none => UNKNOWN_GESTURE
      | none => UNKNOWN_GESTURE
    else UNKNOWN_GESTURE

/-- One update of `bestGesture` and `lowestDifference` by a candidate of
non-zero cost. -/
def updateState (m_steps : List GestureStep) (st : MatchState) (c : Candidate) : MatchState :=
  if candidateCost m_steps c < st.lowestDifference then ⟨c.resolution, candidateCost m_steps c⟩
  else st

/-- The two inner loops of `matchGesture` seen as one loop over candidates. -/
def matchCandidateLoop (m_steps : List GestureStep) :
    List Candidate → MatchState → Except Int MatchState
  | [], st => .ok st
  | c :: rest, st =>
    if candidateCost m_steps c = 0 then .error c.resolution
    else matchCandidateLoop m_steps rest (updateState m_steps st c)

/-! ## Reference notions for the modifier tolerance -/

/-- The set `a` of modifiers is contained in the set `b`. -/
def KeyboardModifiers.subset (a b : KeyboardModifiers) : Prop :=
  (a.shift = true → b.shift = true) ∧ (a.ctrl = true → b.ctrl = true)
    ∧ (a.alt = true → b.alt = true) ∧ (a.meta = true → b.meta = true)

instance (a b : KeyboardModifiers) : Decidable (a.subset b) := by
  unfold KeyboardModifiers.subset; infer_instance

/-- The sum of the weights ctrl = 8, shift = 4, alt = 2, meta = 1 over the
modifiers present in `buffer` and absent from `candidate`. -/
def modifierWeight (buffer candidate : KeyboardModifiers) : Int :=
  (if buffer.ctrl = true ∧ candidate.ctrl = false then 8 else 0)
    + (if buffer.shift = true ∧ candidate.shift = false then 4 else 0)
    + (if buffer.alt = true ∧ candidate.alt = false then 2 else 0)
    + (if buffer.meta = true ∧ candidate.meta = false then 1 else 0)

/-- The button kinds: Press, Release and DoubleClick. -/
def EventType.isButtonKind (t : EventType) : Prop :=
  t = EventType.MouseButtonPress ∨ t = EventType.MouseButtonRelease
    ∨ t = EventType.MouseButtonDblClick

instance (t : EventType) : Decidable t.isButtonKind := by
  unfold EventType.isButtonKind; infer_instance

open EventType in
/-- The penalty of the double-click collapse at index `j` of a candidate of
`count` steps: 100 when the candidate's final step `s` is a Press and the
buffer step `m` is a DoubleClick with the same button and modifiers. -/
def collapsePenalty (count j : Nat) (s m : GestureStep) : Int :=
  if j = count - 1 ∧ s.type = MouseButtonPress ∧ m.type = MouseButtonDblClick
      ∧ s.button = m.button ∧ s.modifiers = m.modifiers then 100
  else 0

/-- The penalty of the modifier tolerance: the weight of the modifiers that
only the buffer step `m` has, when both steps are button-kind steps of the same
kind and button and the candidate's modifiers are contained in the buffer's. -/
def tolerancePenalty (s m : GestureStep) : Int :=
  if m.type = s.type ∧ s.type.isButtonKind ∧ m.button = s.button
      ∧ s.modifiers.subset m.modifiers then modifierWeight m.modifiers s.modifiers
  else 0

/-! ## Profiles and loadProfiles -/

/-- A call made on a `MouseGestures::Recognizer`. -/
inductive RecognizerCall where
  | startGesture (x y : Int)
  | addPosition (x y : Int)
  | registerGesture (moves : List MouseAction)
  | endGesture
  deriving DecidableEq, Repr

/-- The collaborators of the engine that are not part of the sources, taken as
parameters: the meta-enumerator lookup of context names (`none` when the key
names no enumerator; such a value is outside the enumeration and no table entry
stored under it is ever read), `ActionsManager::getActionIdentifier`, the
identifier `ActionsManager::ContextMenuAction`,
`QApplication::startDragDistance()`, and the results of
`MouseGestures::Recognizer::registerGesture` and `endGesture` as functions of
the calls made on the recognizer so far, the current call included. -/
structure Environment where
  keyToValue : QString → Option GesturesContext
  getActionIdentifier : QString → Int
  ContextMenuAction : Int
  startDragDistance : Int
  registerGesture : List RecognizerCall → Int
  endGesture : List RecognizerCall → Int

/-- One group of an `IniSettings` profile: its name and its keys with their
values, in the order of `getKeys()`. -/
structure ProfileGroup where
  name : QString
  entries : List (QString × QString)

/-- One profile file: its groups in the order of `getGroups()`. -/
structure Profile where
  groups : List ProfileGroup

/-- `m_gestures` as a hash: the set of keys present and the value read through
`operator[]` (the empty vector for a key that is absent). -/
structure GesturesHash where
  keys : List GesturesContext
  value : GestureTable

namespace GesturesHash

/-- `m_gestures.clear()`. -/
def empty : GesturesHash := ⟨[], fun _ => []⟩

/-- `m_gestures[context] = QVector<MouseGesture>()`. -/
def assignEmpty (h : GesturesHash) (context : GesturesContext) : GesturesHash :=
  ⟨context :: h.keys, Function.update h.value context []⟩

/-- `m_gestures[context].append(definition)`. -/
def append (h : GesturesHash) (context : GesturesContext) (definition : MouseGesture) :
    GesturesHash :=
  ⟨context :: h.keys, Function.update h.value context (h.value context ++ [definition])⟩

end GesturesHash

/-- The numeric order of the enumerators of `GesturesContext`. -/
def GesturesContext.toInt : GesturesContext → Int
  | UnknownContext => 0
  | GenericContext => 1
  | LinkContext => 2
  | ContentEditableContext => 3
  | TabHandleContext => 4
  | OtherContext => 5

/-- A real context lies strictly between `UnknownContext` and `OtherContext`. -/
def GesturesContext.isReal (c : GesturesContext) : Prop :=
  GesturesContext.UnknownContext.toInt < c.toInt ∧ c.toInt < GesturesContext.OtherContext.toInt

instance (c : GesturesContext) : Decidable c.isReal := by
  unfold GesturesContext.isReal; infer_instance

/-- The contexts visited by `for (int i = (UnknownContext + 1); i < OtherContext; ++i)`. -/
def realContexts : List GesturesContext :=
  [GesturesContext.UnknownContext, GesturesContext.GenericContext, GesturesContext.LinkContext,
    GesturesContext.ContentEditableContext, GesturesContext.TabHandleContext,
    GesturesContext.OtherContext].filter
    (fun c => GesturesContext.UnknownContext.toInt + 1 ≤ c.toInt
      ∧ c.toInt < GesturesContext.OtherContext.toInt)

open EventType in
/-- `contextMenuGestureDefinition` of `loadProfiles`. -/
def contextMenuGestureDefinition (env : Environment) : MouseGesture :=
  ⟨[GestureStep.ofButton MouseButtonPress Qt.RightButton KeyboardModifiers.NoModifier,
      GestureStep.ofButton MouseButtonRelease Qt.RightButton KeyboardModifiers.NoModifier],
    env.ContextMenuAction⟩

/-- The loop of `loadProfiles` over `rawMouseActions`: the deserialized steps
and the flag `hasMove`. -/
def deserializeSteps (rawMouseActions : List QString) : List GestureStep × Bool :=
  rawMouseActions.foldl
    (fun (acc : List GestureStep × Bool) raw =>
      let steps := acc.1 ++ [deserializeStep raw]
      let hasMove := if (deserializeStep raw).type = EventType.MouseMove then true else acc.2
      (steps, hasMove))
    ([], false)

/-- The body of the loop of `loadProfiles` over the keys of a group of context
`context`. -/
def loadEntry (env : Environment) (areMouseGesturesEnabled : Bool) (context : GesturesContext)
    (m_gestures : GesturesHash) (entry : QString × QString) : GesturesHash :=
  let rawMouseActions := split ',' entry.1
  let action := env.getActionIdentifier entry.2
  if rawMouseActions.isEmpty then m_gestures
  else
    let resolved : Option Int :=
      if action < 0 then
        if entry.2 = "NoAction".toList then some NATIVE_GESTURE else none
      else some action
    match resolved with
    | none => m_gestures
    | some action =>
      let steps := (deserializeSteps rawMouseActions).1
      let hasMove := (deserializeSteps rawMouseActions).2
      if ¬ steps.isEmpty ∧ (¬ hasMove ∨ areMouseGesturesEnabled) then
        m_gestures.append context ⟨steps, action⟩
      else m_gestures

/-- The body of the loop of `loadProfiles` over the groups of a profile. -/
def loadGroup (env : Environment) (areMouseGesturesEnabled : Bool) (m_gestures : GesturesHash)
    (group : ProfileGroup) : GesturesHash :=
  match env.keyToValue (group.name ++ "Context".toList) with
  | none => m_gestures
  | some context =>
    if context = GesturesContext.UnknownContext then m_gestures
    else group.entries.foldl (loadEntry env areMouseGesturesEnabled context) m_gestures

/-- `GesturesManager::loadProfiles`: the value of `m_gestures` it builds from
the profiles named by `Browser_MouseProfilesOrderOption`, in that order, and
the option `Browser_EnableMouseGesturesOption`. -/
def loadProfiles (env : Environment) (areMouseGesturesEnabled : Bool)
    (gestureProfiles : List Profile) : GesturesHash :=
  let m_gestures := GesturesHash.empty
  let m_gestures :=
    realContexts.foldl
      (fun h context => (h.assignEmpty context).append context (contextMenuGestureDefinition env))
      m_gestures
  gestureProfiles.foldl
    (fun h profile => profile.groups.foldl (loadGroup env areMouseGesturesEnabled) h)
    m_gestures

/-! ## Reference description of the loaded table -/

/-- The definition that a profile entry yields, if any: none when the value is
neither a known action nor `NoAction`, and none when the steps contain a Move
step while mouse gestures are disabled. -/
def entryDefinition (env : Environment) (areMouseGesturesEnabled : Bool)
    (entry : QString × QString) : Option MouseGesture :=
  let steps := (split ',' entry.1).map deserializeStep
  let hasMove := steps.any (fun s => s.type = EventType.MouseMove)
  if 0 ≤ env.getActionIdentifier entry.2 then
    if hasMove = false ∨ areMouseGesturesEnabled = true then
      some ⟨steps, env.getActionIdentifier entry.2⟩
    else none
  else if entry.2 = "NoAction".toList then
    if hasMove = false ∨ areMouseGesturesEnabled = true then some ⟨steps, NATIVE_GESTURE⟩
    else none
  else none

/-- The definitions that a group contributes to the table of `context`, in
the order of its entries. -/
def groupDefinitions (env : Environment) (areMouseGesturesEnabled : Bool)
    (context : GesturesContext) (group : ProfileGroup) : List MouseGesture :=
  if env.keyToValue (group.name ++ "Context".toList) = some context
      ∧ context ≠ GesturesContext.UnknownContext then
    group.entries.filterMap (entryDefinition env areMouseGesturesEnabled)
  else []

/-- The profile-sourced definitions of `context`, in profile order. -/
def profileDefinitions (env : Environment) (areMouseGesturesEnabled : Bool)
    (gestureProfiles : List Profile) (context : GesturesContext) : List MouseGesture :=
  gestureProfiles.flatMap fun profile =>
    profile.groups.flatMap (groupDefinitions env areMouseGesturesEnabled context)

/-! ## An example environment and example profiles -/

/-- An environment for concrete evaluations: the context names of the
enumeration, the action names `GoBack` (1) and `GoForward` (2),
`ContextMenuAction` = 0, a drag distance of 10 and a recognizer that numbers
the registered gestures and reports the first of them. -/
def exampleEnvironment : Environment where
  keyToValue := fun key =>
    if key = "GenericContext".toList then some GesturesContext.GenericContext
    else if key = "LinkContext".toList then some GesturesContext.LinkContext
    else if key = "ContentEditableContext".toList then
      some GesturesContext.ContentEditableContext
    else if key = "TabHandleContext".toList then some GesturesContext.TabHandleContext
    else if key = "OtherContext".toList then some GesturesContext.OtherContext
    else if key = "UnknownContext".toList then some GesturesContext.UnknownContext
    else none
  getActionIdentifier := fun name =>
    if name = "GoBack".toList then 1 else if name = "GoForward".toList then 2 else -1
  ContextMenuAction := 0
  startDragDistance := 10
  registerGesture := fun calls =>
    (calls.filter (fun c => match c with
      | RecognizerCall.registerGesture _ => true
      | _ => false)).length - 1
  endGesture := fun _ => 0

/-- A profile with one group holding one entry. -/
def exampleProfile (group key value : String) : Profile :=
  ⟨[⟨group.toList, [(key.toList, value.toList)]⟩]⟩

/-! ## The session state

The static members of `GesturesManager` form one record. Calls into Qt and into
`ActionsManager` are recorded in `effects` in the order they are made; they are
assumed not to call back into the engine. -/

/-- A `QObject*` that is not null. -/
abbrev QObjectPtr := Nat

/-- `QVariantMap`. -/
abbrev QVariantMap := List (QString × QString)

/-- A `QInputEvent*` that is not null: its address and the event it points to.
`QVector<QInputEvent*>::contains` compares addresses. -/
structure QEventPtr where
  address : Nat
  event : QInputEvent
  deriving DecidableEq, Repr

/-- The calls the engine makes on its collaborators. -/
inductive Effect where
  | installEventFilter (object : QObjectPtr)
  | removeEventFilter (object : QObjectPtr)
  | connectDestroyed (object : QObjectPtr)
  | disconnectDestroyed (object : QObjectPtr)
  | sendEvent (object : QObjectPtr) (event : QEventPtr)
  | sendContextMenuEvent (object : QObjectPtr) (pos : QPoint)
  | triggerAction (identifier : Int) (object : QObjectPtr) (parameters : QVariantMap)
  deriving DecidableEq, Repr

/-- The static members of `GesturesManager`; `m_recognizer` holds the calls
made so far on the recognizer it points to, `none` standing for `nullptr`. -/
structure Session where
  m_recognizer : Option (List RecognizerCall)
  m_trackedObject : Option QObjectPtr
  m_lastClick : QPoint
  m_lastPosition : QPoint
  m_paramaters : QVariantMap
  m_gestures : GesturesHash
  m_nativeGestures : NativeTable
  m_events : List QEventPtr
  m_steps : List GestureStep
  m_contexts : List GesturesContext
  m_isReleasing : Bool
  m_afterScroll : Bool
  effects : List Effect

/-- `QPoint::operator-`. -/
def QPoint.sub (a b : QPoint) : QPoint := ⟨a.x - b.x, a.y - b.y⟩

/-- `QPoint::manhattanLength`. -/
def QPoint.manhattanLength (p : QPoint) : Int := qAbs p.x + qAbs p.y

/-- `GesturesManager::releaseObject`. -/
def releaseObject (s : Session) : Session :=
  match s.m_trackedObject with
  | some object =>
    { s with
      effects := s.effects ++ [Effect.removeEventFilter object, Effect.disconnectDestroyed object]
      m_trackedObject := none }
  | none => { s with m_trackedObject := none }

/-- `GesturesManager::cancelGesture`. -/
def cancelGesture (s : Session) : Session :=
  let s := releaseObject s
  let s := { s with m_steps := [] }
  { s with m_events := [] }

/-- `GesturesManager::endGesture`. -/
def endGesture (s : Session) : Session := cancelGesture s

/-- `GesturesManager::isTracking`. -/
def isTracking (s : Session) : Bool := s.m_trackedObject.isSome

/-- The `for` loop of `calculateLastMoveDistance`, walking back from the event
`current` over the events before it, the nearest first. -/
def moveRunDistance : QInputEvent → List QInputEvent → Int → Int
  | current, previous :: earlier, result =>
    if previous.type = EventType.MouseMove then
      moveRunDistance previous earlier (result + (previous.pos.sub current.pos).manhattanLength)
    else result
  | _, [], result => result

/-- `GesturesManager::calculateLastMoveDistance`. -/
def calculateLastMoveDistance (m_events : List QEventPtr) (measureFinished : Bool) : Int :=
  let backwards := (m_events.map (fun e => e.event)).reverse
  let lastIsMove : Bool :=
    match backwards with
    | [] => false
    | last :: _ => decide (last.type = EventType.MouseMove)
  if ¬ measureFinished ∧ ¬ lastIsMove then 0
  else
    match backwards.dropWhile (fun e => decide (e.type ≠ EventType.MouseMove)) with
    | [] => 0
    | current :: earlier => moveRunDistance current earlier 0

/-- `QVector<GestureStep>::operator==`: equal sizes and elements equal under
`GestureStep::operator==`. -/
def vectorEq (a b : List GestureStep) : Bool :=
  decide (a.length = b.length) && (List.zipWith GestureStep.eq a b).all id

/-- The recognizer and the local `possibleMoves` of `recognizeMoveStep`. -/
structure MoveRegistration where
  recognizer : List RecognizerCall
  possibleMoves : List (Int × List MouseAction)

/-- `QHash<int, MouseGestures::ActionList>::insert`. -/
def possibleMovesInsert (possibleMoves : List (Int × List MouseAction)) (key : Int)
    (moves : List MouseAction) : List (Int × List MouseAction) :=
  (key, moves) :: possibleMoves.filter (fun p => decide (p.1 ≠ key))

/-- `QHash<int, MouseGestures::ActionList>::value`. -/
def possibleMovesValue (possibleMoves : List (Int × List MouseAction)) (key : Int) :
    List MouseAction :=
  match possibleMoves.find? (fun p => decide (p.1 = key)) with
  | some p => p.2
  | none => []

/-- The body of the inner loop of `recognizeMoveStep` for one definition. -/
def registerMoves (env : Environment) (m_steps : List GestureStep) (acc : MoveRegistration)
    (gesture : MouseGesture) : MoveRegistration :=
  let steps := gesture.steps
  if steps.length > m_steps.length
      ∧ (steps.get? m_steps.length).map (fun s => s.type) = some EventType.MouseMove
      ∧ vectorEq (steps.take m_steps.length) m_steps = true then
    let moves :=
      ((steps.drop m_steps.length).takeWhile
        (fun s => decide (s.type = EventType.MouseMove))).map (fun s => s.direction)
    if ¬ moves.isEmpty then
      let recognizer := acc.recognizer ++ [RecognizerCall.registerGesture moves]
      ⟨recognizer, possibleMovesInsert acc.possibleMoves (env.registerGesture recognizer) moves⟩
    else acc
  else acc

/-- `GesturesManager::recognizeMoveStep`. -/
def recognizeMoveStep (env : Environment) (s : Session) (event : QInputEvent) : Session :=
  match s.m_recognizer with
  | none => s
  | some recognizer =>
    let registration :=
      s.m_contexts.foldl
        (fun acc context => (s.m_gestures.value context).foldl (registerMoves env s.m_steps) acc)
        (⟨recognizer, []⟩ : MoveRegistration)
    let m_gestures : GesturesHash := ⟨s.m_gestures.keys ++ s.m_contexts, s.m_gestures.value⟩
    let recognizer := registration.recognizer ++ [RecognizerCall.addPosition event.pos.x event.pos.y]
    let recognizer := recognizer ++ [RecognizerCall.endGesture]
    let gesture := env.endGesture recognizer
    let moves := possibleMovesValue registration.possibleMoves gesture
    let m_steps :=
      s.m_steps ++ moves.map
        (fun direction => GestureStep.ofDirection EventType.MouseMove direction event.modifiers)
    let m_steps :=
      if m_steps.isEmpty ∧ calculateLastMoveDistance s.m_events true ≥ env.startDragDistance then
        m_steps ++ [GestureStep.ofDirection EventType.MouseMove MouseAction.UnknownMouseAction
          event.modifiers]
      else m_steps
    { s with m_recognizer := some recognizer, m_gestures := m_gestures, m_steps := m_steps }

/-- The contexts whose entry of `m_gestures` is read through `operator[]` by
`matchGesture` before it returns; reading inserts the key. -/
def matchGestureKeys (m_nativeGestures : NativeTable) (m_gestures : GestureTable)
    (m_steps : List GestureStep) : List GesturesContext → MatchState → List GesturesContext
  | [], _ => []
  | c :: rest, st =>
    match matchNativeLoop m_steps (m_nativeGestures c) st with
    | .error _ => []
    | .ok st =>
      c :: (match matchBoundLoop m_steps (m_gestures c) st with
        | .error _ => []
        | .ok st => matchGestureKeys m_nativeGestures m_gestures m_steps rest st)

/-- The call `matchGesture()` on the session: the result and the session with
the keys that the call inserted into `m_gestures`. -/
def Session.matchGesture (s : Session) : Int × Session :=
  (Otter.matchGesture s.m_nativeGestures s.m_gestures.value s.m_contexts s.m_steps,
    { s with
      m_gestures :=
        ⟨s.m_gestures.keys
            ++ matchGestureKeys s.m_nativeGestures s.m_gestures.value s.m_steps s.m_contexts
              ⟨0, intMax⟩,
          s.m_gestures.value⟩ })

/-- `GesturesManager::triggerAction`; `none` when `m_trackedObject` is
dereferenced while it is null. -/
def triggerAction (env : Environment) (s : Session) (gestureIdentifier : Int) :
    Option (Session × Bool) :=
  if gestureIdentifier = UNKNOWN_GESTURE then some (s, false)
  else
    match s.m_trackedObject with
    | none => none
    | some object =>
      let s := { s with effects := s.effects ++ [Effect.removeEventFilter object] }
      let s :=
        if gestureIdentifier = NATIVE_GESTURE then
          let s := { s with effects := s.effects ++ s.m_events.map (Effect.sendEvent object) }
          cancelGesture s
        else if gestureIdentifier = env.ContextMenuAction then
          match s.m_trackedObject with
          | some tracked =>
            { s with effects := s.effects ++ [Effect.sendContextMenuEvent tracked s.m_lastPosition] }
          | none => s
        else
          { s with
            effects := s.effects ++ [Effect.triggerAction gestureIdentifier object s.m_paramaters] }
      let s :=
        match s.m_trackedObject with
        | some tracked => { s with effects := s.effects ++ [Effect.installEventFilter tracked] }
        | none => s
      some (s, true)

/-! ## eventFilter, startGesture and continueGesture -/

/-- The loop `for (int i = (m_steps.count() - 1); i >= 0; --i)` of
`eventFilter` that removes the steps of a button; the first argument is
`i + 1`. -/
def removeButtonSteps (button : MouseButton) : Nat → List GestureStep → List GestureStep
  | 0, m_steps => m_steps
  | i + 1, m_steps =>
    let m_steps :=
      if (m_steps.get? i).map (fun s => s.button) = some button then m_steps.eraseIdx i
      else m_steps
    removeButtonSteps button i m_steps

/-- A loop `while (!v.isEmpty() && p(v[v.count() - 1])) v.removeAt(v.count() - 1)`. -/
def removeTrailing {α : Type} (p : α → Bool) (v : List α) : List α :=
  (v.reverse.dropWhile p).reverse

open EventType in
/-- The case of `eventFilter` for press, release and double-click events: the
session and the value of `gesture` at the `break`; `fresh` is the address of
the copy of the event. -/
def eventFilterButton (env : Environment) (s : Session) (event : QInputEvent) (fresh : Nat) :
    Option (Session × Int) :=
  let repeated : Bool :=
    match s.m_events.getLast? with
    | some previous =>
      decide (previous.event.type = event.type) && decide (previous.event.button = event.button)
        && decide (previous.event.modifiers = event.modifiers)
    | none => false
  if repeated then some (s, UNKNOWN_GESTURE)
  else
    let s := { s with m_events := s.m_events ++ [(⟨fresh, event⟩ : QEventPtr)] }
    if s.m_afterScroll = true ∧ event.type = MouseButtonRelease then some (s, UNKNOWN_GESTURE)
    else
      let s := { s with m_lastPosition := event.pos }
      let s := { s with m_lastClick := event.pos }
      let s := recognizeMoveStep env s event
      let s := { s with m_steps := s.m_steps ++ [GestureStep.ofEvent event] }
      let s :=
        if s.m_isReleasing = true ∧ event.type = MouseButtonRelease then
          { s with m_steps := removeButtonSteps event.button s.m_steps.length s.m_steps }
        else { s with m_isReleasing := false }
      let s := { s with m_recognizer := none }
      let gesture := s.matchGesture.1
      let s := s.matchGesture.2
      match triggerAction env s gesture with
      | none => none
      | some (s, triggered) =>
        let s := if triggered then { s with m_isReleasing := true } else s
        some ({ s with m_afterScroll := false }, gesture)

open EventType in
/-- The case of `eventFilter` for pointer-move events. -/
def eventFilterMove (env : Environment) (s : Session) (event : QInputEvent) (fresh : Nat) :
    Option (Session × Int) :=
  let s := { s with m_events := s.m_events ++ [(⟨fresh, event⟩ : QEventPtr)] }
  let s := { s with m_afterScroll := false }
  let s :=
    match s.m_recognizer with
    | none =>
      { s with m_recognizer := some [RecognizerCall.startGesture s.m_lastClick.x s.m_lastClick.y] }
    | some _ => s
  let s := { s with m_lastPosition := event.pos }
  let s :=
    { s with
      m_recognizer :=
        s.m_recognizer.map (fun r => r ++ [RecognizerCall.addPosition event.pos.x event.pos.y]) }
  if calculateLastMoveDistance s.m_events false ≥ env.startDragDistance then
    let s :=
      { s with
        m_steps := s.m_steps ++ [GestureStep.ofDirection MouseMove
          MouseAction.UnknownMouseAction event.modifiers] }
    let gesture := s.matchGesture.1
    let s := s.matchGesture.2
    if gesture ≠ UNKNOWN_GESTURE then
      let s := recognizeMoveStep env s event
      match triggerAction env s gesture with
      | none => none
      | some (s, _) => some (s, gesture)
    else some ({ s with m_steps := s.m_steps.dropLast }, gesture)
  else some (s, UNKNOWN_GESTURE)

open EventType in
/-- The case of `eventFilter` for wheel events. -/
def eventFilterWheel (env : Environment) (s : Session) (event : QInputEvent) (fresh : Nat) :
    Option (Session × Int) :=
  let s := { s with m_events := s.m_events ++ [(⟨fresh, event⟩ : QEventPtr)] }
  let s := recognizeMoveStep env s event
  let s := { s with m_steps := s.m_steps ++ [GestureStep.ofEvent event] }
  let s := { s with m_lastClick := event.pos }
  let s := { s with m_recognizer := none }
  let gesture := s.matchGesture.1
  let s := s.matchGesture.2
  match triggerAction env s gesture with
  | none => none
  | some (s, _) =>
    let s := { s with m_steps := removeTrailing (fun step => decide (step.type = Wheel)) s.m_steps }
    let s :=
      { s with
        m_events := removeTrailing (fun e => decide (e.event.type = Wheel)) s.m_events }
    some ({ s with m_afterScroll := true }, gesture)

/-- The end of `eventFilter`, after the `switch`: `mouseEvent` tells whether
the local `mouseEvent` is set. -/
def eventFilterFinish (event : QInputEvent) (mouseEvent : Bool) (result : Session × Int) :
    Session × Bool :=
  let s := result.1
  let gesture := result.2
  let s :=
    if s.m_trackedObject.isSome = true ∧ mouseEvent = true ∧ event.buttons = Qt.NoButton then
      cancelGesture s
    else s
  (s, !s.m_steps.isEmpty || decide (gesture ≠ UNKNOWN_GESTURE))

open EventType in
/-- `GesturesManager::eventFilter`; `none` when a null `m_trackedObject` is
dereferenced. An event of any other kind goes to `QObject::eventFilter`, which
returns `false`. -/
def eventFilter (env : Environment) (s : Session) (event : QInputEvent) (fresh : Nat) :
    Option (Session × Bool) :=
  match event.type with
  | MouseButtonPress | MouseButtonRelease | MouseButtonDblClick =>
    (eventFilterButton env s event fresh).map (eventFilterFinish event true)
  | MouseMove => (eventFilterMove env s event fresh).map (eventFilterFinish event true)
  | Wheel => (eventFilterWheel env s event fresh).map (eventFilterFinish event false)
  | EventType.None => some (s, false)

/-- `GesturesManager::startGesture`; `object` and `event` may be null. The
instance exists whenever `m_gestures` has a key, so `createInstance()` does
nothing here. -/
def startGesture (env : Environment) (s : Session) (object : Option QObjectPtr)
    (event : Option QEventPtr) (contexts : List GesturesContext) (parameters : QVariantMap)
    (fresh : Nat) : Option (Session × Bool) :=
  match object, event with
  | some object, some inputEvent =>
    if (s.m_gestures.keys.filter (fun c => decide (c ∈ contexts))).isEmpty = true
        ∨ s.m_events.any (fun e => decide (e.address = inputEvent.address)) = true then
      some (s, false)
    else
      let s := { s with m_paramaters := parameters }
      let s :=
        if s.m_trackedObject.isNone then
          { s with m_contexts := contexts, m_isReleasing := false, m_afterScroll := false }
        else s
      let s := releaseObject s
      let s := { s with m_trackedObject := some object }
      let s :=
        { s with
          effects := s.effects
            ++ [Effect.installEventFilter object, Effect.connectDestroyed object] }
      eventFilter env s inputEvent.event fresh
  | _, _ => some (s, false)

/-- `GesturesManager::continueGesture`; `object` may be null. -/
def continueGesture (s : Session) (object : Option QObjectPtr) : Session × Bool :=
  match s.m_trackedObject with
  | none => (s, false)
  | some _ =>
    match object with
    | none => (cancelGesture s, false)
    | some object =>
      let s := releaseObject s
      let s := { s with m_trackedObject := some object }
      let s :=
        { s with
          effects := s.effects
            ++ [Effect.installEventFilter object, Effect.connectDestroyed object] }
      (s, true)

/-- The events that the effects deliver to `object` through
`QCoreApplication::sendEvent`, in order. -/
def deliveredEvents (object : QObjectPtr) (effects : List Effect) : List QEventPtr :=
  effects.filterMap fun e =>
    match e with
    | Effect.sendEvent target event => if target = object then some event else none
    | _ => none

/-- A session for concrete evaluations: idle, with the native table of
`createInstance` and the table that `loadProfiles` builds from one profile
binding `pressLeft,moveLeft` to `GoBack` under Generic. -/
def exampleSession : Session where
  m_recognizer := none
  m_trackedObject := none
  m_lastClick := ⟨0, 0⟩
  m_lastPosition := ⟨0, 0⟩
  m_paramaters := []
  m_gestures :=
    loadProfiles exampleEnvironment true [exampleProfile "Generic" "pressLeft,moveLeft" "GoBack"]
  m_nativeGestures := createInstanceNativeGestures
  m_events := []
  m_steps := []
  m_contexts := []
  m_isReleasing := false
  m_afterScroll := false
  effects := []

/-- A mouse or wheel event without modifiers for concrete evaluations. -/
def exampleEvent (type : EventType) (button : MouseButton) (buttons : Nat) (x y : Int) :
    QInputEvent :=
  ⟨type, KeyboardModifiers.NoModifier, button, buttons, ⟨x, y⟩, ⟨0, 120⟩⟩

/-! ## Reference notions for the double-click collapse -/

/-- The candidate step `s` is a Press and the buffer step `m` a DoubleClick
with the same button and modifiers. -/
def collapseCondition (s m : GestureStep) : Prop :=
  s.type = EventType.MouseButtonPress ∧ m.type = EventType.MouseButtonDblClick
    ∧ s.button = m.button ∧ s.modifiers = m.modifiers

instance (s m : GestureStep) : Decidable (collapseCondition s m) := by
  unfold collapseCondition; infer_instance

/-- The candidate `steps` meets the buffer `m_steps` through the double-click
collapse: its final step is a Press where the buffer's final step is a
DoubleClick with the same button and modifiers. -/
def matchesThroughCollapse (m_steps steps : List GestureStep) : Prop :=
  match steps.getLast?, m_steps.getLast? with
  | some s, some m => collapseCondition s m
  | _, _ => False

instance (m_steps steps : List GestureStep) : Decidable (matchesThroughCollapse m_steps steps) := by
  unfold matchesThroughCollapse
  split <;> infer_instance

/-! ## The press, release and double-click case in parts -/

/-- The test of `eventFilter` for a repeat of the last buffered event: same
kind, button and modifiers. -/
def isRepeatedEvent (s : Session) (event : QInputEvent) : Bool :=
  match s.m_events.getLast? with
  | some previous =>
    decide (previous.event.type = event.type) && decide (previous.event.button = event.button)
      && decide (previous.event.modifiers = event.modifiers)
  | none => false

open EventType in
/-- The session at the call `matchGesture()` of the press, release and
double-click case of `eventFilter`, for an event that is neither a repeat nor a
release after a scroll. -/
def buttonCaseBeforeMatch (env : Environment) (s : Session) (event : QInputEvent)
    (fresh : Nat) : Session :=
  let s := { s with m_events := s.m_events ++ [(⟨fresh, event⟩ : QEventPtr)] }
  let s := { s with m_lastPosition := event.pos }
  let s := { s with m_lastClick := event.pos }
  let s := recognizeMoveStep env s event
  let s := { s with m_steps := s.m_steps ++ [GestureStep.ofEvent event] }
  let s :=
    if s.m_isReleasing = true ∧ event.type = MouseButtonRelease then
      { s with m_steps := removeButtonSteps event.button s.m_steps.length s.m_steps }
    else { s with m_isReleasing := false }
  { s with m_recognizer := none }

/-- The rest of the press, release and double-click case of `eventFilter`
after `triggerAction(gesture)` returned. -/
def buttonCaseAfterTrigger (gesture : Int) (r : Session × Bool) : Session × Int :=
  let s := if r.2 then { r.1 with m_isReleasing := true } else r.1
  ({ s with m_afterScroll := false }, gesture)

/-- The effects that carry out a resolution: the replay of a raw event, the
context-menu request and the call of `ActionsManager::triggerAction`. -/
def Effect.isResolution : Effect → Bool
  | Effect.sendEvent _ _ => true
  | Effect.sendContextMenuEvent _ _ => true
  | Effect.triggerAction _ _ _ => true
  | _ => false

/-! ## Example sessions over other profiles -/

/-- The idle session of `exampleSession` with the table that `loadProfiles`
builds from the given profiles, mouse gestures enabled. -/
def exampleSessionOf (gestureProfiles : List Profile) : Session :=
  { exampleSession with m_gestures := loadProfiles exampleEnvironment true gestureProfiles }

/-! ## recognizeMoveStep in parts -/

/-- The recognizer and the local `possibleMoves` of `recognizeMoveStep` after
its loops over the contexts and their definitions. -/
def moveRegistration (env : Environment) (s : Session) (recognizer : List RecognizerCall) :
    MoveRegistration :=
  s.m_contexts.foldl
    (fun acc context => (s.m_gestures.value context).foldl (registerMoves env s.m_steps) acc)
    (⟨recognizer, []⟩ : MoveRegistration)

/-- The local `moves` of `recognizeMoveStep`: the run registered under the
identifier that `endGesture()` reports, empty when nothing is registered under
it. -/
def recognizedMoves (env : Environment) (s : Session) (recognizer : List RecognizerCall)
    (event : QInputEvent) : List MouseAction :=
  let registration := moveRegistration env s recognizer
  let recognizer := registration.recognizer ++ [RecognizerCall.addPosition event.pos.x event.pos.y]
  let recognizer := recognizer ++ [RecognizerCall.endGesture]
  possibleMovesValue registration.possibleMoves (env.endGesture recognizer)

/-! ## Runs of events -/

/-- The calls of `eventFilter` that deliver the events of a list to the
tracked object one after the other; the copy of the first event gets the
address `fresh`, the next one `fresh + 1`, and so on. The result is `none`
when one of the calls dereferences a null `m_trackedObject`. -/
def eventFilterAll (env : Environment) : Session → List QInputEvent → Nat → Option Session
  | s, [], _ => some s
  | s, event :: rest, fresh =>
    match eventFilter env s event fresh with
    | none => none
    | some r => eventFilterAll env r.1 rest (fresh + 1)

/-- The copies of the events of a list as `eventFilter` appends them to
`m_events`, the first at the address `fresh`. -/
def bufferedCopies : Nat → List QInputEvent → List QEventPtr
  | _, [] => []
  | fresh, event :: rest => ⟨fresh, event⟩ :: bufferedCopies (fresh + 1) rest

/-! ## Serialization round trip -/

namespace GestureStep

open EventType MouseAction

theorem toString_eq (s : GestureStep) :
    s.toString = eventText s.type s.button s.direction ++ modifierText s.modifiers := by
  obtain ⟨t, b, ⟨sh, ct, al, me⟩, d⟩ := s
  cases sh <;> cases ct <;> cases al <;> cases me <;>
    simp [toString, eventText, modifierText, List.append_assoc]

end GestureStep

theorem split_ne_nil (sep : Char) (s : QString) : split sep s ≠ [] := by
  induction s with
  | nil => simp [split]
  | cons c cs ih =>
    unfold split
    split_ifs
    · simp
    · split <;> simp

theorem split_of_not_mem (sep : Char) (s : QString) (h : sep ∉ s) : split sep s = [s] := by
  induction s with
  | nil => rfl
  | cons c cs ih =>
    have hc : c ≠ sep := fun e => h (by simp [e])
    have hcs : sep ∉ cs := fun e => h (List.mem_cons_of_mem _ e)
    simp [split, hc, ih hcs]

theorem split_append_sep (sep : Char) (s rest : QString) (h : sep ∉ s) :
    split sep (s ++ sep :: rest) = s :: split sep rest := by
  induction s with
  | nil => simp [split]
  | cons c cs ih =>
    have hc : c ≠ sep := fun e => h (by simp [e])
    have hcs : sep ∉ cs := fun e => h (List.mem_cons_of_mem _ e)
    simp [split, hc, ih hcs]

namespace GestureStep

open EventType MouseAction

theorem split_modifierText (base : QString) (h : '+' ∉ base) (m : KeyboardModifiers) :
    split '+' (base ++ modifierText m) = base :: modifierParts m := by
  obtain ⟨sh, ct, al, me⟩ := m
  have key : ∀ rest : QString, split '+' (base ++ '+' :: rest) = base :: split '+' rest :=
    fun rest => split_append_sep '+' base rest h
  cases sh <;> cases ct <;> cases al <;> cases me
  case false.false.false.false =>
    simpa [modifierText, modifierParts] using split_of_not_mem '+' base h
  all_goals
    simp only [modifierText, modifierParts, String.toList, if_true, if_false, List.append_nil,
      List.nil_append, List.cons_append, Bool.false_eq_true]
    rw [key]
    refine congrArg (List.cons base) ?_
    decide

theorem foldl_modifierParts (st : GestureStep) (m : KeyboardModifiers) :
    (modifierParts m).foldl deserializeModifier st
      = { st with modifiers := st.modifiers.union m } := by
  obtain ⟨t, b, ⟨sh0, ct0, al0, me0⟩, d⟩ := st
  obtain ⟨sh, ct, al, me⟩ := m
  cases sh <;> cases ct <;> cases al <;> cases me <;>
    simp [modifierParts, deserializeModifier, KeyboardModifiers.union]

theorem deserializeStep_eventText (base : QString) (h : '+' ∉ base) (m : KeyboardModifiers) :
    deserializeStep (base ++ modifierText m)
      = { deserializeEvent base with modifiers := (deserializeEvent base).modifiers.union m } := by
  unfold deserializeStep
  simp only [split_modifierText base h m, List.headD_cons, List.drop_one, List.tail_cons]
  exact foldl_modifierParts _ m

end GestureStep

namespace GestureStep

open EventType MouseAction

theorem eventText_button (b : MouseButton) (hb : b ∈ knownButtons) (t : EventType)
    (ht : t ∈ [MouseButtonPress, MouseButtonRelease, MouseButtonDblClick]) :
    '+' ∉ eventText t b UnknownMouseAction ∧
      deserializeEvent (eventText t b UnknownMouseAction)
        = ⟨t, b, KeyboardModifiers.NoModifier, UnknownMouseAction⟩ := by
  revert t b
  decide

theorem eventText_direction (t : EventType) (ht : t ∈ [Wheel, MouseMove]) (d : MouseAction) :
    '+' ∉ eventText t Qt.NoButton d ∧
      deserializeEvent (eventText t Qt.NoButton d)
        = ⟨t, Qt.NoButton, KeyboardModifiers.NoModifier, d⟩ := by
  revert t
  cases d <;> decide

theorem eventText_wellFormed (s : GestureStep) (h : s.WellFormed) :
    '+' ∉ eventText s.type s.button s.direction ∧
      deserializeEvent (eventText s.type s.button s.direction)
        = { s with modifiers := KeyboardModifiers.NoModifier } := by
  obtain ⟨t, b, m, d⟩ := s
  obtain ⟨hnone, hkind, hb⟩ := h
  simp only at hnone hkind hb
  by_cases hdir : t = Wheel ∨ t = MouseMove
  · rw [if_pos hdir] at hkind
    subst hkind
    exact eventText_direction t (by rcases hdir with rfl | rfl <;> simp) d
  · rw [if_neg hdir] at hkind
    subst hkind
    refine eventText_button b hb t ?_
    cases t <;> simp_all

theorem union_noModifier (m : KeyboardModifiers) : KeyboardModifiers.NoModifier.union m = m := by
  obtain ⟨sh, ct, al, me⟩ := m
  simp [KeyboardModifiers.union, KeyboardModifiers.NoModifier]

theorem eq_self (s : GestureStep) : s.eq s = true := by
  simp [eq]

theorem deserializeStep_toString_structural (s : GestureStep) (h : s.WellFormed) :
    deserializeStep s.toString = s := by
  obtain ⟨hplus, hev⟩ := eventText_wellFormed s h
  rw [toString_eq, deserializeStep_eventText _ hplus, hev]
  simp [union_noModifier]

end GestureStep

/-- C1. Every step that satisfies the data-model invariant survives the
serialization round trip: `deserializeStep (toString s)` is `s` itself, hence
equal to `s` under `operator==`; a step with unknown direction and no button
serializes its kind with an empty suffix. -/
theorem deserializeStep_toString_roundtrip (s : GestureStep) (h : s.WellFormed) :
    (deserializeStep s.toString).eq s = true ∧ deserializeStep s.toString = s ∧
      (s.direction = MouseAction.UnknownMouseAction → s.button = Qt.NoButton →
        s.toString = GestureStep.typeName s.type ++ GestureStep.modifierText s.modifiers) := by
  have hs := GestureStep.deserializeStep_toString_structural s h
  refine ⟨by rw [hs]; exact GestureStep.eq_self s, hs, ?_⟩
  intro hd hb
  rw [GestureStep.toString_eq, hd, hb]
  obtain ⟨t, b, m, d⟩ := s
  cases t <;> rfl

theorem deserializeStep_toString_roundtrip_witness :
    (GestureStep.ofButton EventType.MouseButtonDblClick (Qt.ExtraButton1 <<< 23)
        ⟨true, false, true, true⟩).WellFormed ∧
      (deserializeStep (GestureStep.ofButton EventType.MouseButtonDblClick
        (Qt.ExtraButton1 <<< 23) ⟨true, false, true, true⟩).toString).eq
        (GestureStep.ofButton EventType.MouseButtonDblClick (Qt.ExtraButton1 <<< 23)
          ⟨true, false, true, true⟩) = true :=
  ⟨by decide, (deserializeStep_toString_roundtrip _ (by decide)).1⟩

/-! ## Step equality -/

theorem GestureStep.eq_iff (a b : GestureStep) :
    a.eq b = true ↔ a.type = b.type ∧ a.button = b.button ∧ a.direction = b.direction
      ∧ (a.modifiers = b.modifiers ∨ a.type = EventType.MouseMove) := by
  simp [GestureStep.eq, and_assoc]

theorem GestureStep.eq_comm (a b : GestureStep) : a.eq b = b.eq a := by
  rw [Bool.eq_iff_iff, GestureStep.eq_iff, GestureStep.eq_iff]
  constructor
  · rintro ⟨h1, h2, h3, h4⟩
    exact ⟨h1.symm, h2.symm, h3.symm, h4.imp Eq.symm (fun h => h1 ▸ h)⟩
  · rintro ⟨h1, h2, h3, h4⟩
    exact ⟨h1.symm, h2.symm, h3.symm, h4.imp Eq.symm (fun h => h1 ▸ h)⟩

/-- C2. `operator==`: two Move steps of the data model with the same direction
are equal whatever their modifiers; two Press steps that differ only in their
modifiers are not equal; in general two steps are equal iff kind, button and
direction agree and the modifiers are identical or the kind is Move. -/
theorem step_equality :
    (∀ a b : GestureStep, a.WellFormed → b.WellFormed → a.type = EventType.MouseMove →
      b.type = EventType.MouseMove → a.direction = b.direction → a.eq b = true) ∧
    (∀ a b : GestureStep, a.type = EventType.MouseButtonPress →
      b.type = EventType.MouseButtonPress → a.button = b.button →
      a.direction = b.direction → a.modifiers ≠ b.modifiers → a.eq b = false) ∧
    (∀ a b : GestureStep, a.eq b = true ↔
      a.type = b.type ∧ a.button = b.button ∧ a.direction = b.direction
        ∧ (a.modifiers = b.modifiers ∨ a.type = EventType.MouseMove)) := by
  refine ⟨?_, ?_, GestureStep.eq_iff⟩
  · intro a b ha hb hta htb hd
    have hba : a.button = Qt.NoButton := by
      have := ha.2.1
      rwa [if_pos (Or.inr hta)] at this
    have hbb : b.button = Qt.NoButton := by
      have := hb.2.1
      rwa [if_pos (Or.inr htb)] at this
    rw [GestureStep.eq_iff]
    exact ⟨hta.trans htb.symm, hba.trans hbb.symm, hd, Or.inr hta⟩
  · intro a b hta _ _ _ hm
    rw [Bool.eq_false_iff]
    intro h
    rcases ((GestureStep.eq_iff a b).1 h).2.2.2 with h' | h'
    · exact hm h'
    · rw [hta] at h'
      exact absurd h' (by decide)

theorem step_equality_witness :
    (GestureStep.ofDirection EventType.MouseMove MouseAction.MoveLeftMouseAction
        ⟨true, false, false, false⟩).eq
      (GestureStep.ofDirection EventType.MouseMove MouseAction.MoveLeftMouseAction
        ⟨false, true, false, true⟩) = true ∧
    (GestureStep.ofButton EventType.MouseButtonPress Qt.LeftButton
        ⟨true, false, false, false⟩).eq
      (GestureStep.ofButton EventType.MouseButtonPress Qt.LeftButton
        ⟨false, false, false, false⟩) = false :=
  ⟨step_equality.1 _ _ (by decide) (by decide) rfl rfl rfl,
    step_equality.2.1 _ _ rfl rfl rfl rfl (by decide)⟩

/-! ## Wheel events -/

theorem qAbs_eq_abs (t : Int) (h : -2147483648 < t) : qAbs t = |t| := by
  unfold qAbs wrapInt
  split_ifs with h0
  · exact (abs_of_nonneg h0).symm
  · rw [abs_of_neg (not_le.1 h0)]
    omega

/-- C3, counterexample. For the angle delta `(INT_MIN, 0)` the step built from
a wheel event has direction Unknown although `dx` is negative and
`|dx| > |dy|`, and for `(0, INT_MIN)` it has direction Left although `dy` is
negative and `|dy| > |dx|`: `qAbs` returns the least `int` as it is, which is
below every other `int`. -/
theorem wheel_direction_wrong_at_least_int :
    (GestureStep.ofEvent ⟨EventType.Wheel, KeyboardModifiers.NoModifier, Qt.NoButton, 0,
        ⟨0, 0⟩, ⟨-2147483648, 0⟩⟩).direction = MouseAction.UnknownMouseAction
    ∧ (GestureStep.ofEvent ⟨EventType.Wheel, KeyboardModifiers.NoModifier, Qt.NoButton, 0,
        ⟨0, 0⟩, ⟨0, -2147483648⟩⟩).direction = MouseAction.MoveLeftMouseAction
    ∧ isInt (-2147483648) ∧ isInt 0
    ∧ |(-2147483648 : Int)| > |(0 : Int)| := by
  decide

/-- C3. The step built from a wheel event whose angle delta `(dx, dy)` has
both components in the range of `int` and above the least `int` is a Scroll
step whose direction is Unknown for a zero delta, Right or Left by the sign of
`dx` when `|dx| > |dy|`, Up or Down by the sign of `dy` when `|dy| > |dx|` and
also on a non-zero tie; it is never Horizontal or Vertical. -/
theorem ofEvent_wheel_direction (event : QInputEvent) (h : event.type = EventType.Wheel)
    (hx : isInt event.angleDelta.x) (hy : isInt event.angleDelta.y)
    (hxmin : event.angleDelta.x ≠ -2147483648) (hymin : event.angleDelta.y ≠ -2147483648) :
    (GestureStep.ofEvent event).type = EventType.Wheel ∧
    (event.angleDelta.x = 0 → event.angleDelta.y = 0 →
      (GestureStep.ofEvent event).direction = MouseAction.UnknownMouseAction) ∧
    (|event.angleDelta.x| > |event.angleDelta.y| → event.angleDelta.x > 0 →
      (GestureStep.ofEvent event).direction = MouseAction.MoveRightMouseAction) ∧
    (|event.angleDelta.x| > |event.angleDelta.y| → event.angleDelta.x < 0 →
      (GestureStep.ofEvent event).direction = MouseAction.MoveLeftMouseAction) ∧
    (|event.angleDelta.y| > |event.angleDelta.x| → event.angleDelta.y > 0 →
      (GestureStep.ofEvent event).direction = MouseAction.MoveUpMouseAction) ∧
    (|event.angleDelta.y| > |event.angleDelta.x| → event.angleDelta.y < 0 →
      (GestureStep.ofEvent event).direction = MouseAction.MoveDownMouseAction) ∧
    (|event.angleDelta.x| = |event.angleDelta.y| → event.angleDelta.y > 0 →
      (GestureStep.ofEvent event).direction = MouseAction.MoveUpMouseAction) ∧
    (|event.angleDelta.x| = |event.angleDelta.y| → event.angleDelta.y < 0 →
      (GestureStep.ofEvent event).direction = MouseAction.MoveDownMouseAction) ∧
    (GestureStep.ofEvent event).direction ≠ MouseAction.MoveHorizontallyMouseAction ∧
    (GestureStep.ofEvent event).direction ≠ MouseAction.MoveVerticallyMouseAction := by
  obtain ⟨t, m, b, bs, p, ⟨dx, dy⟩⟩ := event
  simp only at h hx hy hxmin hymin
  subst h
  have hxlt : -2147483648 < dx := lt_of_le_of_ne hx.1 (Ne.symm hxmin)
  have hylt : -2147483648 < dy := lt_of_le_of_ne hy.1 (Ne.symm hymin)
  simp only [GestureStep.ofEvent, qAbs_eq_abs dx hxlt, qAbs_eq_abs dy hylt]
  have hx := abs_nonneg dx
  have hy := abs_nonneg dy
  refine ⟨?_, ?_, ?_, ?_, ?_, ?_, ?_, ?_, ?_, ?_⟩
  · split_ifs <;> rfl
  · rintro rfl rfl
    simp
  · intro h1 h2
    simp [h1, h2]
  · intro h1 h2
    simp [h1, not_lt.2 h2.le]
  · intro h1 h2
    have : |dy| > 0 := by omega
    simp [not_lt.2 h1.le, h2, abs_pos.1 this]
  · intro h1 h2
    have : |dy| > 0 := by omega
    simp [not_lt.2 h1.le, not_lt.2 h2.le, abs_pos.1 this]
  · intro h1 h2
    simp [h1, h2, h2.ne']
  · intro h1 h2
    simp [h1, h2.ne, not_lt.2 h2.le]
  · split_ifs <;> simp
  · split_ifs <;> simp

theorem ofEvent_wheel_direction_witness :
    (GestureStep.ofEvent ⟨EventType.Wheel, KeyboardModifiers.NoModifier, Qt.NoButton, 0,
        ⟨0, 0⟩, ⟨-120, 120⟩⟩).direction = MouseAction.MoveUpMouseAction :=
  (ofEvent_wheel_direction ⟨EventType.Wheel, KeyboardModifiers.NoModifier, Qt.NoButton, 0,
    ⟨0, 0⟩, ⟨-120, 120⟩⟩ rfl (by decide) (by decide) (by decide) (by decide)).2.2.2.2.2.2.1
    (by decide) (by decide)

/-! ## The difference between the buffer and a candidate -/

theorem stepDifference_of_eq (count j : Nat) (s m : GestureStep) (h : s.eq m = true) :
    stepDifference count j s m = some 0 := by
  obtain ⟨ht, hb, hd, hm⟩ := (GestureStep.eq_iff s m).1 h
  obtain ⟨t, b, ⟨sh, ct, al, me⟩, d⟩ := s
  obtain ⟨t', b', ⟨sh', ct', al', me'⟩, d'⟩ := m
  simp only at ht hb hd hm
  subst ht hb hd
  have hne : GestureStep.ne ⟨t, b, ⟨sh, ct, al, me⟩, d⟩ ⟨t, b, ⟨sh', ct', al', me'⟩, d⟩ = false := by
    simp [GestureStep.ne, h]
  rcases hm with hm | hm
  · simp only [KeyboardModifiers.mk.injEq] at hm
    obtain ⟨rfl, rfl, rfl, rfl⟩ := hm
    cases t <;> simp [stepDifference, hne]
  · subst hm
    simp [stepDifference, hne]

theorem stepDifference_nonneg (count j : Nat) (s m : GestureStep) (d : Int)
    (h : stepDifference count j s m = some d) : 0 ≤ d := by
  unfold stepDifference at h
  simp only at h
  split_ifs at h <;> simp only [Option.some.injEq, reduceCtorEq] at h <;> omega

theorem stepDifference_zero (count j : Nat) (s m : GestureStep)
    (h : stepDifference count j s m = some 0) : s.eq m = true := by
  unfold stepDifference at h
  simp only at h
  split_ifs at h with h1 h2 h3 h4 h5 h6 h7 <;>
    simp only [Option.some.injEq, reduceCtorEq] at h <;>
    first
    | omega
    | (simp only [GestureStep.ne, not_and, Bool.not_eq_true, Bool.not_eq_eq_eq_not,
        Bool.not_not, Bool.not_false] at *
       simp_all)

theorem differenceLoop_eq_zero_iff (count : Nat) (steps : List GestureStep) :
    ∀ (m_steps : List GestureStep) (j : Nat) (acc : Int),
      steps.length = m_steps.length → 0 ≤ acc →
      (differenceLoop count j steps m_steps acc = 0 ↔
        acc = 0 ∧ List.Forall₂ (fun m s => m.eq s = true) m_steps steps) := by
  induction steps with
  | nil =>
    intro m_steps j acc hlen _
    have : m_steps = [] := List.length_eq_zero.1 hlen.symm
    subst this
    simp [differenceLoop]
  | cons s steps ih =>
    intro m_steps j acc hlen hacc
    cases m_steps with
    | nil => simp at hlen
    | cons m m_steps =>
      have hlen' : steps.length = m_steps.length := by simpa using hlen
      rw [differenceLoop]
      cases hd : stepDifference count j s m with
      | none =>
        have hne : ¬ (m.eq s = true) := by
          intro he
          rw [stepDifference_of_eq count j s m (by rwa [GestureStep.eq_comm])] at hd
          exact absurd hd (by simp)
        simp [intMax, hne]
      | some d =>
        have hd0 := stepDifference_nonneg count j s m d hd
        simp only
        rw [ih m_steps (j + 1) (acc + d) hlen' (by omega), List.forall₂_cons]
        constructor
        · rintro ⟨hsum, hrest⟩
          have hd' : d = 0 := by omega
          subst hd'
          have := stepDifference_zero count j s m hd
          exact ⟨by omega, by rwa [GestureStep.eq_comm], hrest⟩
        · rintro ⟨hacc0, hms, hrest⟩
          rw [stepDifference_of_eq count j s m (by rwa [GestureStep.eq_comm])] at hd
          have hd' : d = 0 := by simpa using hd.symm
          exact ⟨by omega, hrest⟩

theorem difference_zero_iff_forall₂ (m_steps steps : List GestureStep) :
    calculateGesturesDifference m_steps steps = 0 ↔
      List.Forall₂ (fun m s => m.eq s = true) m_steps steps := by
  unfold calculateGesturesDifference
  split_ifs with h
  · constructor
    · intro h0
      exact absurd h0 (by decide)
    · intro hf
      exact absurd hf.length_eq h
  · have hlen : steps.length = m_steps.length := (not_not.1 h).symm
    rw [differenceLoop_eq_zero_iff _ steps m_steps 0 0 hlen le_rfl]
    simp

/-- C4. `calculateGesturesDifference` returns 0 exactly when the step buffer
and the candidate have the same length and are equal position by position
under `operator==`. -/
theorem calculateGesturesDifference_eq_zero_iff (m_steps steps : List GestureStep) :
    calculateGesturesDifference m_steps steps = 0 ↔
      m_steps.length = steps.length ∧
        ∀ (j : Nat) (h₁ : j < m_steps.length) (h₂ : j < steps.length),
          (m_steps.get ⟨j, h₁⟩).eq (steps.get ⟨j, h₂⟩) = true := by
  rw [difference_zero_iff_forall₂, List.forall₂_iff_get]

theorem calculateGesturesDifference_singleton (m s : GestureStep) :
    calculateGesturesDifference [m] [s]
      = match stepDifference 1 0 s m with
        | none => intMax
        | some d => d := by
  simp only [calculateGesturesDifference, List.length_singleton, ne_eq, not_true_eq_false,
    if_false, differenceLoop]
  cases stepDifference 1 0 s m <;> simp [differenceLoop]

theorem union_eq_iff_subset (m s : KeyboardModifiers) : m.union s = m ↔ s.subset m := by
  obtain ⟨a, b, c, d⟩ := m
  obtain ⟨e, f, g, h⟩ := s
  simp only [KeyboardModifiers.union, KeyboardModifiers.subset, KeyboardModifiers.mk.injEq]
  revert a b c d e f g h
  decide

theorem modifierWeight_eq_zero (m s : KeyboardModifiers) (h : s.subset m)
    (h0 : modifierWeight m s = 0) : s = m := by
  obtain ⟨a, b, c, d⟩ := m
  obtain ⟨e, f, g, h'⟩ := s
  simp only [KeyboardModifiers.subset] at h
  simp only [KeyboardModifiers.mk.injEq]
  revert a b c d e f g h'
  decide

theorem modifierWeight_self (m : KeyboardModifiers) : modifierWeight m m = 0 := by
  obtain ⟨a, b, c, d⟩ := m
  revert a b c d
  decide

theorem modifierWeight_nonneg (m s : KeyboardModifiers) : 0 ≤ modifierWeight m s := by
  unfold modifierWeight
  split_ifs <;> omega

theorem modifierWeight_le (m s : KeyboardModifiers) : modifierWeight m s ≤ 15 := by
  unfold modifierWeight
  split_ifs <;> omega

/-- The value that the loop body of `calculateGesturesDifference` computes, in
closed form: 100 for the double-click collapse plus the modifier weights when
the tolerance applies. -/
theorem stepDifference_closed (count j : Nat) (s m : GestureStep) :
    stepDifference count j s m =
      if collapsePenalty count j s m + tolerancePenalty s m = 0 ∧ s.ne m = true then none
      else some (collapsePenalty count j s m + tolerancePenalty s m) := by
  have chain : ∀ x : Int,
      (let stepDifference := x
       let stepDifference :=
        if m.modifiers.ctrl ∧ ¬ s.modifiers.ctrl then stepDifference + 8 else stepDifference
       let stepDifference :=
        if m.modifiers.shift ∧ ¬ s.modifiers.shift then stepDifference + 4 else stepDifference
       let stepDifference :=
        if m.modifiers.alt ∧ ¬ s.modifiers.alt then stepDifference + 2 else stepDifference
       let stepDifference :=
        if m.modifiers.meta ∧ ¬ s.modifiers.meta then stepDifference + 1 else stepDifference
       stepDifference) = x + modifierWeight m.modifiers s.modifiers := by
    intro x
    simp only [modifierWeight, Bool.not_eq_true]
    split_ifs <;> omega
  unfold stepDifference collapsePenalty tolerancePenalty
  simp only [chain, union_eq_iff_subset, EventType.isButtonKind, zero_add]
  by_cases hc : j = count - 1 ∧ s.type = EventType.MouseButtonPress
      ∧ m.type = EventType.MouseButtonDblClick ∧ s.button = m.button
      ∧ s.modifiers = m.modifiers
  · simp only [hc, and_self, if_true]
    split_ifs <;> simp_all
  · simp only [hc, if_false]
    split_ifs <;> simp_all

theorem collapsePenalty_of_type (count j : Nat) (s m : GestureStep)
    (h : ¬ (s.type = EventType.MouseButtonPress ∧ m.type = EventType.MouseButtonDblClick)) :
    collapsePenalty count j s m = 0 := by
  unfold collapsePenalty
  exact if_neg (fun hc => h ⟨hc.2.1, hc.2.2.1⟩)

theorem stepDifference_tolerant (count j : Nat) (t : EventType) (b : MouseButton)
    (mb mc : KeyboardModifiers) (ht : t.isButtonKind) (hsub : mc.subset mb) :
    stepDifference count j (GestureStep.ofButton t b mc) (GestureStep.ofButton t b mb)
      = some (modifierWeight mb mc) := by
  have hcol : collapsePenalty count j (GestureStep.ofButton t b mc)
      (GestureStep.ofButton t b mb) = 0 := by
    apply collapsePenalty_of_type
    rintro ⟨h1, h2⟩
    simp only [GestureStep.ofButton] at h1 h2
    rw [h1] at h2
    exact absurd h2 (by decide)
  have htol : tolerancePenalty (GestureStep.ofButton t b mc) (GestureStep.ofButton t b mb)
      = modifierWeight mb mc := by
    unfold tolerancePenalty
    exact if_pos ⟨rfl, ht, rfl, hsub⟩
  rw [stepDifference_closed, hcol, htol, zero_add]
  split_ifs with h
  · obtain ⟨h0, hne⟩ := h
    have := modifierWeight_eq_zero mb mc hsub h0
    subst this
    simp [GestureStep.ne, GestureStep.eq] at hne
  · rfl

theorem stepDifference_of_button_ne (count j : Nat) (s m : GestureStep)
    (h : s.button ≠ m.button) : stepDifference count j s m = none := by
  have hcol : collapsePenalty count j s m = 0 := by
    unfold collapsePenalty
    exact if_neg (fun hc => h hc.2.2.2.1)
  have htol : tolerancePenalty s m = 0 := by
    unfold tolerancePenalty
    exact if_neg (fun hc => h hc.2.2.1.symm)
  rw [stepDifference_closed, hcol, htol]
  simp [GestureStep.ne, GestureStep.eq, h]

theorem stepDifference_of_not_subset (count j : Nat) (s m : GestureStep)
    (hs : s.type.isButtonKind) (h : ¬ s.modifiers.subset m.modifiers) :
    stepDifference count j s m = none := by
  have hmod : s.modifiers ≠ m.modifiers := by
    intro e
    apply h
    rw [e]
    exact ⟨id, id, id, id⟩
  have hmove : s.type ≠ EventType.MouseMove := by
    rcases hs with e | e | e <;> rw [e] <;> decide
  have hcol : collapsePenalty count j s m = 0 := by
    unfold collapsePenalty
    exact if_neg (fun hc => hmod hc.2.2.2.2)
  have htol : tolerancePenalty s m = 0 := by
    unfold tolerancePenalty
    exact if_neg (fun hc => h hc.2.2.2)
  rw [stepDifference_closed, hcol, htol]
  simp [GestureStep.ne, GestureStep.eq, hmod, hmove]

/-- C5. Modifier tolerance for a one-step buffer against a one-step candidate,
both button-kind steps: with the same kind and button and the buffer's
modifiers a superset of the candidate's, the cost is the sum of the weights
ctrl = 8, shift = 4, alt = 2, meta = 1 over the modifiers only the buffer has;
with different buttons, or with a candidate modifier that the buffer lacks, the
cost is `std::numeric_limits<int>::max()`. -/
theorem modifier_tolerance :
    (∀ (t : EventType) (b : MouseButton) (mb mc : KeyboardModifiers),
      t.isButtonKind → mc.subset mb →
      calculateGesturesDifference [GestureStep.ofButton t b mb] [GestureStep.ofButton t b mc]
        = modifierWeight mb mc) ∧
    (∀ (tb tc : EventType) (bb bc : MouseButton) (mb mc : KeyboardModifiers),
      tb.isButtonKind → tc.isButtonKind → bb ≠ bc →
      calculateGesturesDifference [GestureStep.ofButton tb bb mb]
        [GestureStep.ofButton tc bc mc] = intMax) ∧
    (∀ (tb tc : EventType) (bb bc : MouseButton) (mb mc : KeyboardModifiers),
      tb.isButtonKind → tc.isButtonKind → ¬ mc.subset mb →
      calculateGesturesDifference [GestureStep.ofButton tb bb mb]
        [GestureStep.ofButton tc bc mc] = intMax) ∧
    calculateGesturesDifference
      [GestureStep.ofButton EventType.MouseButtonPress Qt.LeftButton ⟨false, true, false, false⟩]
      [GestureStep.ofButton EventType.MouseButtonPress Qt.LeftButton
        KeyboardModifiers.NoModifier] = 8 ∧
    calculateGesturesDifference
      [GestureStep.ofButton EventType.MouseButtonPress Qt.LeftButton ⟨false, true, false, false⟩]
      [GestureStep.ofButton EventType.MouseButtonPress Qt.LeftButton
        ⟨false, true, false, false⟩] = 0 ∧
    calculateGesturesDifference
      [GestureStep.ofButton EventType.MouseButtonPress Qt.LeftButton ⟨false, true, false, false⟩]
      [GestureStep.ofButton EventType.MouseButtonPress Qt.RightButton
        KeyboardModifiers.NoModifier] = intMax := by
  refine ⟨?_, ?_, ?_, by decide, by decide, by decide⟩
  · intro t b mb mc ht hsub
    rw [calculateGesturesDifference_singleton, stepDifference_tolerant 1 0 t b mb mc ht hsub]
  · intro tb tc bb bc mb mc _ _ hb
    rw [calculateGesturesDifference_singleton,
      stepDifference_of_button_ne 1 0 _ _ (fun e => hb e.symm)]
  · intro tb tc bb bc mb mc _ htc hsub
    rw [calculateGesturesDifference_singleton,
      stepDifference_of_not_subset 1 0 _ _ htc hsub]

theorem modifier_tolerance_witness :
    calculateGesturesDifference
        [GestureStep.ofButton EventType.MouseButtonRelease Qt.MiddleButton
          ⟨true, true, false, true⟩]
        [GestureStep.ofButton EventType.MouseButtonRelease Qt.MiddleButton
          ⟨false, true, false, false⟩] = 5 ∧
    calculateGesturesDifference
        [GestureStep.ofButton EventType.MouseButtonRelease Qt.MiddleButton
          ⟨true, true, false, true⟩]
        [GestureStep.ofButton EventType.MouseButtonPress Qt.LeftButton
          ⟨false, true, false, false⟩] = intMax ∧
    calculateGesturesDifference
        [GestureStep.ofButton EventType.MouseButtonRelease Qt.MiddleButton
          ⟨true, true, false, true⟩]
        [GestureStep.ofButton EventType.MouseButtonRelease Qt.MiddleButton
          ⟨false, false, true, false⟩] = intMax :=
  ⟨modifier_tolerance.1 EventType.MouseButtonRelease Qt.MiddleButton ⟨true, true, false, true⟩
      ⟨false, true, false, false⟩ (by decide) (by decide),
    modifier_tolerance.2.1 EventType.MouseButtonRelease EventType.MouseButtonPress
      Qt.MiddleButton Qt.LeftButton ⟨true, true, false, true⟩ ⟨false, true, false, false⟩
      (by decide) (by decide) (by decide),
    modifier_tolerance.2.2.1 EventType.MouseButtonRelease EventType.MouseButtonRelease
      Qt.MiddleButton Qt.MiddleButton ⟨true, true, false, true⟩ ⟨false, false, true, false⟩
      (by decide) (by decide) (by decide)⟩

/-! ## Double-click collapse -/

theorem differenceLoop_append_of_eq (count : Nat) (tail_c tail_m : List GestureStep)
    (pre_m pre_c : List GestureStep)
    (h : List.Forall₂ (fun m s => m.eq s = true) pre_m pre_c) :
    ∀ (j : Nat) (acc : Int),
      differenceLoop count j (pre_c ++ tail_c) (pre_m ++ tail_m) acc
        = differenceLoop count (j + pre_c.length) tail_c tail_m acc := by
  induction h with
  | nil => intro j acc; simp
  | @cons m s pre_m pre_c hms _ ih =>
    intro j acc
    simp only [List.cons_append, differenceLoop, List.length_cons]
    rw [stepDifference_of_eq count j s m (by rwa [GestureStep.eq_comm])]
    simp only [add_zero]
    have hstep := ih (j + 1) acc
    rw [show j + (pre_c.length + 1) = j + 1 + pre_c.length by omega]
    exact hstep

theorem stepDifference_collapse (count : Nat) (b : MouseButton) (m : KeyboardModifiers) :
    stepDifference count (count - 1) (GestureStep.ofButton EventType.MouseButtonPress b m)
      (GestureStep.ofButton EventType.MouseButtonDblClick b m) = some 100 := by
  have hcol : collapsePenalty count (count - 1)
      (GestureStep.ofButton EventType.MouseButtonPress b m)
      (GestureStep.ofButton EventType.MouseButtonDblClick b m) = 100 := by
    unfold collapsePenalty
    exact if_pos ⟨rfl, rfl, rfl, rfl, rfl⟩
  have htol : tolerancePenalty (GestureStep.ofButton EventType.MouseButtonPress b m)
      (GestureStep.ofButton EventType.MouseButtonDblClick b m) = 0 := by
    unfold tolerancePenalty
    exact if_neg (fun hc => absurd hc.1 (by simp [GestureStep.ofButton]))
  rw [stepDifference_closed, hcol, htol]
  simp

/-- C6. Double-click collapse: when the buffer and the candidate agree under
`operator==` on all positions before the last, the candidate ends with
`Press(b, m)` and the buffer ends with `DoubleClick(b, m)`, the cost is exactly
100; buffer `[Press(Left), DoubleClick(Left)]` against candidate
`[Press(Left), Press(Left)]` costs 100 and buffer `[Press(Left), Press(Left)]`
against the same candidate costs 0. -/
theorem doubleClick_collapse :
    (∀ (pre_m pre_c : List GestureStep) (b : MouseButton) (m : KeyboardModifiers),
      List.Forall₂ (fun x y => x.eq y = true) pre_m pre_c →
      calculateGesturesDifference
        (pre_m ++ [GestureStep.ofButton EventType.MouseButtonDblClick b m])
        (pre_c ++ [GestureStep.ofButton EventType.MouseButtonPress b m]) = 100) ∧
    calculateGesturesDifference
      [GestureStep.ofButton EventType.MouseButtonPress Qt.LeftButton KeyboardModifiers.NoModifier,
        GestureStep.ofButton EventType.MouseButtonDblClick Qt.LeftButton
          KeyboardModifiers.NoModifier]
      [GestureStep.ofButton EventType.MouseButtonPress Qt.LeftButton KeyboardModifiers.NoModifier,
        GestureStep.ofButton EventType.MouseButtonPress Qt.LeftButton
          KeyboardModifiers.NoModifier] = 100 ∧
    calculateGesturesDifference
      [GestureStep.ofButton EventType.MouseButtonPress Qt.LeftButton KeyboardModifiers.NoModifier,
        GestureStep.ofButton EventType.MouseButtonPress Qt.LeftButton
          KeyboardModifiers.NoModifier]
      [GestureStep.ofButton EventType.MouseButtonPress Qt.LeftButton KeyboardModifiers.NoModifier,
        GestureStep.ofButton EventType.MouseButtonPress Qt.LeftButton
          KeyboardModifiers.NoModifier] = 0 := by
  refine ⟨?_, by decide, by decide⟩
  intro pre_m pre_c b m h
  have hlen : pre_m.length = pre_c.length := h.length_eq
  unfold calculateGesturesDifference
  rw [if_neg (by simp [hlen])]
  rw [differenceLoop_append_of_eq _ _ _ pre_m pre_c h 0 0]
  have hj : 0 + pre_c.length
      = (pre_c ++ [GestureStep.ofButton EventType.MouseButtonPress b m]).length - 1 := by
    simp
  rw [hj, differenceLoop, stepDifference_collapse]
  simp [differenceLoop]

theorem doubleClick_collapse_witness :
    calculateGesturesDifference
      ([GestureStep.ofDirection EventType.MouseMove MouseAction.MoveLeftMouseAction
          ⟨true, false, false, false⟩]
        ++ [GestureStep.ofButton EventType.MouseButtonDblClick Qt.RightButton
          ⟨false, true, false, false⟩])
      ([GestureStep.ofDirection EventType.MouseMove MouseAction.MoveLeftMouseAction
          KeyboardModifiers.NoModifier]
        ++ [GestureStep.ofButton EventType.MouseButtonPress Qt.RightButton
          ⟨false, true, false, false⟩]) = 100 :=
  doubleClick_collapse.1 _ _ Qt.RightButton ⟨false, true, false, false⟩
    (List.Forall₂.cons (by decide) List.Forall₂.nil)

/-- C7, as stated, fails: the buffer `[DoubleClick(Left)]` against the
candidate `[Press(Left)]` does not yield `std::numeric_limits<int>::max()`. -/
theorem doubleClick_against_press_not_infinite :
    calculateGesturesDifference
      [GestureStep.ofButton EventType.MouseButtonDblClick Qt.LeftButton
        KeyboardModifiers.NoModifier]
      [GestureStep.ofButton EventType.MouseButtonPress Qt.LeftButton
        KeyboardModifiers.NoModifier] ≠ intMax := by
  decide

/-- C7, amended: the buffer `[DoubleClick(Left)]` and the candidate
`[Press(Left)]` have the same length 1, so the double-click collapse applies at
the final position and the cost is 100, a finite cost. -/
theorem doubleClick_against_press_cost :
    calculateGesturesDifference
      [GestureStep.ofButton EventType.MouseButtonDblClick Qt.LeftButton
        KeyboardModifiers.NoModifier]
      [GestureStep.ofButton EventType.MouseButtonPress Qt.LeftButton
        KeyboardModifiers.NoModifier] = 100 ∧
    (100 : Int) < intMax := by
  constructor
  · have hlast := stepDifference_collapse 1 Qt.LeftButton KeyboardModifiers.NoModifier
    rw [calculateGesturesDifference_singleton]
    simp only [Nat.sub_self] at hlast
    rw [hlast]
  · decide

/-! ## The best-match search -/

theorem matchNativeLoop_eq (m_steps : List GestureStep) (l : List (List GestureStep)) :
    ∀ st, matchNativeLoop m_steps l st
      = matchCandidateLoop m_steps (l.map (fun g => ⟨g, NATIVE_GESTURE⟩)) st := by
  induction l with
  | nil => intro st; rfl
  | cons g rest ih =>
    intro st
    simp only [matchNativeLoop, List.map_cons, matchCandidateLoop, candidateCost, updateState]
    split_ifs <;> first | rfl | exact ih _

theorem matchBoundLoop_eq (m_steps : List GestureStep) (l : List MouseGesture) :
    ∀ st, matchBoundLoop m_steps l st
      = matchCandidateLoop m_steps (l.map (fun d => ⟨d.steps, d.action⟩)) st := by
  induction l with
  | nil => intro st; rfl
  | cons g rest ih =>
    intro st
    simp only [matchBoundLoop, List.map_cons, matchCandidateLoop, candidateCost, updateState]
    split_ifs <;> first | rfl | exact ih _

theorem matchCandidateLoop_append (m_steps : List GestureStep) (l₁ l₂ : List Candidate) :
    ∀ st, matchCandidateLoop m_steps (l₁ ++ l₂) st
      = match matchCandidateLoop m_steps l₁ st with
        | .error r => .error r
        | .ok st => matchCandidateLoop m_steps l₂ st := by
  induction l₁ with
  | nil => intro st; rfl
  | cons c rest ih =>
    intro st
    simp only [List.cons_append, matchCandidateLoop]
    split_ifs
    · rfl
    · exact ih _

theorem matchContextLoop_eq (m_nativeGestures : NativeTable) (m_gestures : GestureTable)
    (m_steps : List GestureStep) (m_contexts : List GesturesContext) :
    ∀ st, matchContextLoop m_nativeGestures m_gestures m_steps m_contexts st
      = matchCandidateLoop m_steps (candidates m_nativeGestures m_gestures m_contexts) st := by
  induction m_contexts with
  | nil => intro st; rfl
  | cons c rest ih =>
    intro st
    simp only [matchContextLoop, candidates, List.flatMap_cons, matchCandidateLoop_append,
      matchNativeLoop_eq, matchBoundLoop_eq]
    cases matchCandidateLoop m_steps
        (List.map (fun g => ({ steps := g, resolution := NATIVE_GESTURE } : Candidate))
          (m_nativeGestures c)) st with
    | error r => rfl
    | ok st₁ =>
      simp only
      cases matchCandidateLoop m_steps
          (List.map (fun d => ({ steps := d.steps, resolution := d.action } : Candidate))
            (m_gestures c)) st₁ with
      | error r => rfl
      | ok st₂ => exact ih st₂

theorem matchCandidateLoop_eq_find (m_steps : List GestureStep) (l : List Candidate) :
    ∀ st, matchCandidateLoop m_steps l st
      = match l.find? (fun c => candidateCost m_steps c = 0) with
        | some c => .error c.resolution
        | none => .ok (l.foldl (updateState m_steps) st) := by
  induction l with
  | nil => intro st; rfl
  | cons c rest ih =>
    intro st
    by_cases h : candidateCost m_steps c = 0
    · simp [matchCandidateLoop, List.find?_cons, h]
    · simp only [matchCandidateLoop, List.find?_cons, h, if_false, decide_False,
        List.foldl_cons]
      exact ih _

theorem foldl_min_le_init (l : List Int) : ∀ a, l.foldl min a ≤ a := by
  induction l with
  | nil => intro a; exact le_rfl
  | cons x xs ih => intro a; exact (ih _).trans (min_le_left _ _)

theorem foldl_min_le_of_mem (l : List Int) : ∀ a, ∀ x ∈ l, l.foldl min a ≤ x := by
  induction l with
  | nil => intro a x hx; simp at hx
  | cons y ys ih =>
    intro a x hx
    rcases List.mem_cons.1 hx with rfl | hx
    · exact (foldl_min_le_init ys _).trans (min_le_right _ _)
    · exact ih _ x hx

theorem foldl_min_eq_or_mem (l : List Int) : ∀ a, l.foldl min a = a ∨ l.foldl min a ∈ l := by
  induction l with
  | nil => intro a; exact Or.inl rfl
  | cons y ys ih =>
    intro a
    rcases ih (min a y) with h | h
    · rcases min_choice a y with h' | h'
      · left; simp only [List.foldl_cons]; rw [h, h']
      · right; simp only [List.foldl_cons]; rw [h, h']; exact List.mem_cons_self _ _
    · right; exact List.mem_cons_of_mem _ h

theorem foldl_updateState_lowest (m_steps : List GestureStep) (l : List Candidate) :
    ∀ st, (l.foldl (updateState m_steps) st).lowestDifference
      = (l.map (candidateCost m_steps)).foldl min st.lowestDifference := by
  induction l with
  | nil => intro st; rfl
  | cons c rest ih =>
    intro st
    simp only [List.foldl_cons, List.map_cons]
    rw [ih]
    congr 1
    unfold updateState
    split_ifs with h
    · exact (min_eq_right h.le).symm
    · exact (min_eq_left (not_lt.1 h)).symm

theorem foldl_updateState_of_le (m_steps : List GestureStep) (l : List Candidate) :
    ∀ st, (∀ c ∈ l, st.lowestDifference ≤ candidateCost m_steps c) →
      l.foldl (updateState m_steps) st = st := by
  induction l with
  | nil => intro st _; rfl
  | cons c rest ih =>
    intro st h
    have hc : updateState m_steps st c = st := by
      unfold updateState
      exact if_neg (not_lt.2 (h c (List.mem_cons_self _ _)))
    simp only [List.foldl_cons, hc]
    exact ih st (fun x hx => h x (List.mem_cons_of_mem _ hx))

theorem updateState_lowest_le (m_steps : List GestureStep) (st : MatchState) (c : Candidate) :
    (updateState m_steps st c).lowestDifference ≤ candidateCost m_steps c := by
  unfold updateState
  split_ifs with h
  · exact le_rfl
  · exact not_lt.1 h

theorem foldl_updateState_best (m_steps : List GestureStep) (l : List Candidate) :
    ∀ st, (∃ c ∈ l, candidateCost m_steps c < st.lowestDifference) →
      ∃ c, l.find? (fun c => candidateCost m_steps c
              = (l.foldl (updateState m_steps) st).lowestDifference) = some c
        ∧ (l.foldl (updateState m_steps) st).bestGesture = c.resolution := by
  induction l with
  | nil => rintro st ⟨c, hc, _⟩; simp at hc
  | cons c rest ih =>
    intro st hex
    simp only [List.foldl_cons]
    by_cases hrest : ∃ c' ∈ rest,
        candidateCost m_steps c' < (updateState m_steps st c).lowestDifference
    · obtain ⟨c₀, hfind, hbest⟩ := ih _ hrest
      refine ⟨c₀, ?_, hbest⟩
      obtain ⟨c', hc', hlt⟩ := hrest
      have h1 : (rest.foldl (updateState m_steps) (updateState m_steps st c)).lowestDifference
          ≤ candidateCost m_steps c' := by
        rw [foldl_updateState_lowest]
        exact foldl_min_le_of_mem _ _ _ (List.mem_map_of_mem _ hc')
      have h2 := updateState_lowest_le m_steps st c
      have hne : ¬ candidateCost m_steps c
          = (rest.foldl (updateState m_steps) (updateState m_steps st c)).lowestDifference := by
        omega
      rw [List.find?_cons]
      simp only [hne, decide_False]
      exact hfind
    · have hall : ∀ c' ∈ rest,
          (updateState m_steps st c).lowestDifference ≤ candidateCost m_steps c' := by
        intro c' hc'
        by_contra hlt
        exact hrest ⟨c', hc', not_le.1 hlt⟩
      have hfold := foldl_updateState_of_le m_steps rest _ hall
      have hc : candidateCost m_steps c < st.lowestDifference := by
        obtain ⟨c'', hmem, hlt⟩ := hex
        rcases List.mem_cons.1 hmem with rfl | hmem
        · exact hlt
        · by_contra hnot
          have : updateState m_steps st c = st := by
            unfold updateState
            exact if_neg hnot
          rw [this] at hall
          have := hall c'' hmem
          omega
      have hupd : updateState m_steps st c = ⟨c.resolution, candidateCost m_steps c⟩ := by
        unfold updateState
        exact if_pos hc
      rw [hupd] at hfold
      refine ⟨c, ?_, ?_⟩
      · simp only [hupd, hfold, List.find?_cons, decide_True]
      · simp only [hupd, hfold]

theorem minimumCost_eq_foldl (l : List Int) (a : Int) (h : ∃ y ∈ l, y < a) :
    minimumCost l = some (l.foldl min a) := by
  cases l with
  | nil => obtain ⟨y, hy, _⟩ := h; simp at hy
  | cons x xs =>
    simp only [minimumCost, List.foldl_cons, Option.some.injEq]
    obtain ⟨y, hy, hya⟩ := h
    apply le_antisymm
    · rcases foldl_min_eq_or_mem xs (min a x) with hM | hM
      · have hMy : xs.foldl min (min a x) ≤ y := by
          rcases List.mem_cons.1 hy with rfl | hy'
          · exact (foldl_min_le_init xs _).trans (min_le_right _ _)
          · exact foldl_min_le_of_mem xs _ y hy'
        have hx : min a x = x := by
          rcases min_choice a x with h' | h'
          · rw [hM, h'] at hMy
            omega
          · exact h'
        rw [hM, hx]
        exact foldl_min_le_init xs x
      · exact foldl_min_le_of_mem xs x _ hM
    · rcases foldl_min_eq_or_mem xs x with hL | hL
      · rw [hL]
        exact (foldl_min_le_init xs _).trans (min_le_right _ _)
      · exact foldl_min_le_of_mem xs _ _ hL

theorem foldl_updateState_not_finite (m_steps : List GestureStep) (l : List Candidate)
    (h : ∀ c ∈ l, ¬ candidateCost m_steps c < intMax) :
    l.foldl (updateState m_steps) ⟨0, intMax⟩ = ⟨0, intMax⟩ :=
  foldl_updateState_of_le m_steps l ⟨0, intMax⟩ (fun c hc => not_lt.1 (h c hc))

/-- C8. `matchGesture` computes the reference result: over the candidates in
the order of the active contexts (native sequences, then bound definitions,
inside each context), the resolution of the first candidate of cost 0 if there
is one, otherwise the resolution of the first candidate of minimum cost if some
cost is finite, otherwise `UNKNOWN_GESTURE`. -/
theorem matchGesture_eq_matchGestureSpec (m_nativeGestures : NativeTable)
    (m_gestures : GestureTable) (m_contexts : List GesturesContext)
    (m_steps : List GestureStep) :
    matchGesture m_nativeGestures m_gestures m_contexts m_steps
      = matchGestureSpec m_nativeGestures m_gestures m_contexts m_steps := by
  unfold matchGesture matchGestureSpec
  rw [matchContextLoop_eq, matchCandidateLoop_eq_find]
  generalize candidates m_nativeGestures m_gestures m_contexts = cs
  simp only []
  cases hzero : cs.find? (fun c => candidateCost m_steps c = 0) with
  | some c => rfl
  | none =>
    simp only []
    by_cases hany : ∃ c ∈ cs, candidateCost m_steps c < intMax
    · have hany' : cs.any (fun c => candidateCost m_steps c < intMax) = true := by
        simpa using hany
      obtain ⟨c₀, hfind, hbest⟩ := foldl_updateState_best m_steps cs ⟨0, intMax⟩ hany
      have hlow := foldl_updateState_lowest m_steps cs ⟨0, intMax⟩
      simp only at hlow
      have hlt : (cs.foldl (updateState m_steps) ⟨0, intMax⟩).lowestDifference < intMax := by
        obtain ⟨c, hc, hci⟩ := hany
        rw [hlow]
        exact lt_of_le_of_lt
          (foldl_min_le_of_mem _ _ _ (List.mem_map_of_mem _ hc)) hci
      have hmin : minimumCost (cs.map (candidateCost m_steps))
          = some (cs.foldl (updateState m_steps) ⟨0, intMax⟩).lowestDifference := by
        rw [hlow]
        apply minimumCost_eq_foldl
        obtain ⟨c, hc, hci⟩ := hany
        exact ⟨_, List.mem_map_of_mem _ hc, hci⟩
      rw [if_pos hlt, if_pos hany', hmin]
      simp only [hfind, hbest]
    · have hany' : ¬ cs.any (fun c => candidateCost m_steps c < intMax) = true := by
        simpa using hany
      have hall : ∀ c ∈ cs, ¬ candidateCost m_steps c < intMax :=
        fun c hc hlt => hany ⟨c, hc, hlt⟩
      rw [foldl_updateState_not_finite m_steps cs hall, if_neg hany']
      simp

/-! ## Exact matches -/

theorem find?_append_cons_of_first {α : Type} (p : α → Bool) (before after : List α) (x : α)
    (hb : ∀ y ∈ before, p y = false) (hx : p x = true) :
    (before ++ x :: after).find? p = some x := by
  induction before with
  | nil => simp [List.find?_cons, hx]
  | cons y ys ih =>
    have hy : p y = false := hb y (List.mem_cons_self _ _)
    simp only [List.cons_append, List.find?_cons, hy]
    exact ih (fun z hz => hb z (List.mem_cons_of_mem _ hz))

theorem matchGesture_of_first_zero (m_nativeGestures : NativeTable)
    (m_gestures : GestureTable) (m_contexts : List GesturesContext)
    (m_steps : List GestureStep) (before after : List Candidate) (x : Candidate)
    (hcs : candidates m_nativeGestures m_gestures m_contexts = before ++ x :: after)
    (hb : ∀ y ∈ before, candidateCost m_steps y ≠ 0) (hx : candidateCost m_steps x = 0) :
    matchGesture m_nativeGestures m_gestures m_contexts m_steps = x.resolution := by
  unfold matchGesture
  rw [matchContextLoop_eq, matchCandidateLoop_eq_find, hcs,
    find?_append_cons_of_first _ before after x (fun y hy => by simpa using hb y hy)
      (by simpa using hx)]

theorem mem_candidates_of_bound (m_nativeGestures : NativeTable) (m_gestures : GestureTable)
    (m_contexts : List GesturesContext) (c : GesturesContext) (d : MouseGesture)
    (hc : c ∈ m_contexts) (hd : d ∈ m_gestures c) :
    (⟨d.steps, d.action⟩ : Candidate) ∈ candidates m_nativeGestures m_gestures m_contexts := by
  unfold candidates
  rw [List.mem_flatMap]
  exact ⟨c, hc, List.mem_append_right _ (List.mem_map_of_mem _ hd)⟩

theorem exists_first_of_mem {α : Type} (p : α → Bool) (l : List α) (x : α) (hx : x ∈ l)
    (hp : p x = true) :
    ∃ before y after, l = before ++ y :: after ∧ (∀ z ∈ before, p z = false) ∧ p y = true := by
  induction l with
  | nil => simp at hx
  | cons a l ih =>
    by_cases ha : p a = true
    · exact ⟨[], a, l, rfl, by simp, ha⟩
    · rcases List.mem_cons.1 hx with rfl | hx'
      · exact absurd hp ha
      · obtain ⟨before, y, after, hl, hb, hy⟩ := ih hx'
        refine ⟨a :: before, y, after, by rw [hl]; rfl, ?_, hy⟩
        intro z hz
        rcases List.mem_cons.1 hz with rfl | hz'
        · simpa using ha
        · exact hb z hz'

/-- C9, as stated, fails: with the native table of `createInstance`, a
definition `[DoubleClick(Left)] -> 5` bound under Generic and the buffer
`[DoubleClick(Left)]`, the buffer equals the definition's steps element-wise
but `matchGesture` returns `NATIVE_GESTURE`, the resolution of the native
sequence `[DoubleClick(Left)]` that is scanned first. -/
theorem exact_match_not_always_own_action :
    ¬ (∀ (m_nativeGestures : NativeTable) (m_gestures : GestureTable)
        (m_contexts : List GesturesContext) (m_steps : List GestureStep)
        (c : GesturesContext) (d : MouseGesture),
        c ∈ m_contexts → d ∈ m_gestures c →
        List.Forall₂ (fun m s => m.eq s = true) m_steps d.steps →
        matchGesture m_nativeGestures m_gestures m_contexts m_steps = d.action) := by
  intro h
  have h5 := h createInstanceNativeGestures
    (fun c => if c = GesturesContext.GenericContext then
      [⟨[GestureStep.ofButton EventType.MouseButtonDblClick Qt.LeftButton
        KeyboardModifiers.NoModifier], 5⟩] else [])
    [GesturesContext.GenericContext]
    [GestureStep.ofButton EventType.MouseButtonDblClick Qt.LeftButton
      KeyboardModifiers.NoModifier]
    GesturesContext.GenericContext
    ⟨[GestureStep.ofButton EventType.MouseButtonDblClick Qt.LeftButton
      KeyboardModifiers.NoModifier], 5⟩
    (by decide) (by decide) (List.Forall₂.cons (by decide) List.Forall₂.nil)
  revert h5
  decide

/-- C9, amended. When a definition bound under an active context equals the
buffer element-wise, `matchGesture` returns at cost 0 the resolution of the
first candidate in scan order that equals the buffer element-wise; this is the
definition's own action when no candidate scanned before it (a native sequence
of its context or of an earlier active context, or an earlier definition) also
equals the buffer element-wise. -/
theorem exact_match_first_candidate :
    (∀ (m_nativeGestures : NativeTable) (m_gestures : GestureTable)
      (m_contexts : List GesturesContext) (m_steps : List GestureStep)
      (c : GesturesContext) (d : MouseGesture),
      c ∈ m_contexts → d ∈ m_gestures c →
      List.Forall₂ (fun m s => m.eq s = true) m_steps d.steps →
      ∃ before x after,
        candidates m_nativeGestures m_gestures m_contexts = before ++ x :: after
          ∧ (∀ y ∈ before, ¬ List.Forall₂ (fun m s => m.eq s = true) m_steps y.steps)
          ∧ List.Forall₂ (fun m s => m.eq s = true) m_steps x.steps
          ∧ calculateGesturesDifference m_steps x.steps = 0
          ∧ matchGesture m_nativeGestures m_gestures m_contexts m_steps = x.resolution) ∧
    (∀ (m_nativeGestures : NativeTable) (m_gestures : GestureTable)
      (m_contexts : List GesturesContext) (m_steps : List GestureStep)
      (d : MouseGesture) (before after : List Candidate),
      candidates m_nativeGestures m_gestures m_contexts
        = before ++ ⟨d.steps, d.action⟩ :: after →
      (∀ y ∈ before, ¬ List.Forall₂ (fun m s => m.eq s = true) m_steps y.steps) →
      List.Forall₂ (fun m s => m.eq s = true) m_steps d.steps →
      matchGesture m_nativeGestures m_gestures m_contexts m_steps = d.action) := by
  constructor
  · intro N G contexts buf c d hc hd heq
    have hmem := mem_candidates_of_bound N G contexts c d hc hd
    have hcost : (fun x : Candidate => decide (candidateCost buf x = 0))
        ⟨d.steps, d.action⟩ = true := by
      simpa [candidateCost] using (difference_zero_iff_forall₂ buf d.steps).2 heq
    obtain ⟨before, x, after, hl, hb, hx⟩ :=
      exists_first_of_mem (fun x : Candidate => decide (candidateCost buf x = 0)) _ _ hmem hcost
    have hx0 : candidateCost buf x = 0 := by simpa using hx
    have hb0 : ∀ y ∈ before, candidateCost buf y ≠ 0 := fun y hy => by simpa using hb y hy
    refine ⟨before, x, after, hl, ?_, (difference_zero_iff_forall₂ buf x.steps).1 hx0, hx0,
      matchGesture_of_first_zero N G contexts buf before after x hl hb0 hx0⟩
    intro y hy hf
    exact hb0 y hy ((difference_zero_iff_forall₂ buf y.steps).2 hf)
  · intro N G contexts buf d before after hl hb heq
    have hx0 : candidateCost buf ⟨d.steps, d.action⟩ = 0 :=
      (difference_zero_iff_forall₂ buf d.steps).2 heq
    have hb0 : ∀ y ∈ before, candidateCost buf y ≠ 0 :=
      fun y hy h0 => hb y hy ((difference_zero_iff_forall₂ buf y.steps).1 h0)
    exact matchGesture_of_first_zero N G contexts buf before after _ hl hb0 hx0

theorem exact_match_first_candidate_witness :
    matchGesture createInstanceNativeGestures
      (fun c => if c = GesturesContext.GenericContext then
        [⟨[GestureStep.ofButton EventType.MouseButtonPress Qt.RightButton
            KeyboardModifiers.NoModifier,
          GestureStep.ofButton EventType.MouseButtonRelease Qt.RightButton
            KeyboardModifiers.NoModifier], 7⟩,
          ⟨[GestureStep.ofButton EventType.MouseButtonDblClick Qt.RightButton
            KeyboardModifiers.NoModifier], 5⟩] else [])
      [GesturesContext.GenericContext]
      [GestureStep.ofButton EventType.MouseButtonDblClick Qt.RightButton
        KeyboardModifiers.NoModifier] = 5 :=
  exact_match_first_candidate.2 createInstanceNativeGestures
    (fun c => if c = GesturesContext.GenericContext then
      [⟨[GestureStep.ofButton EventType.MouseButtonPress Qt.RightButton
          KeyboardModifiers.NoModifier,
        GestureStep.ofButton EventType.MouseButtonRelease Qt.RightButton
          KeyboardModifiers.NoModifier], 7⟩,
        ⟨[GestureStep.ofButton EventType.MouseButtonDblClick Qt.RightButton
          KeyboardModifiers.NoModifier], 5⟩] else [])
    [GesturesContext.GenericContext]
    [GestureStep.ofButton EventType.MouseButtonDblClick Qt.RightButton
      KeyboardModifiers.NoModifier]
    ⟨[GestureStep.ofButton EventType.MouseButtonDblClick Qt.RightButton
      KeyboardModifiers.NoModifier], 5⟩
    ((createInstanceNativeGestures GesturesContext.GenericContext).map
        (fun g => ⟨g, NATIVE_GESTURE⟩)
      ++ [⟨[GestureStep.ofButton EventType.MouseButtonPress Qt.RightButton
          KeyboardModifiers.NoModifier,
        GestureStep.ofButton EventType.MouseButtonRelease Qt.RightButton
          KeyboardModifiers.NoModifier], 7⟩])
    []
    (by decide)
    (by
      intro y hy hf
      have h0 := (difference_zero_iff_forall₂ _ _).2 hf
      revert y
      decide)
    (List.Forall₂.cons (by decide) List.Forall₂.nil)

/-! ## Context isolation -/

theorem candidates_congr (N₁ N₂ : NativeTable) (G₁ G₂ : GestureTable)
    (m_contexts : List GesturesContext)
    (h : ∀ c ∈ m_contexts, N₁ c = N₂ c ∧ G₁ c = G₂ c) :
    candidates N₁ G₁ m_contexts = candidates N₂ G₂ m_contexts := by
  induction m_contexts with
  | nil => rfl
  | cons c rest ih =>
    obtain ⟨hn, hg⟩ := h c (List.mem_cons_self _ _)
    simp only [candidates, List.flatMap_cons, hn, hg]
    congr 1
    exact ih (fun x hx => h x (List.mem_cons_of_mem _ hx))

theorem matchGesture_congr (N₁ N₂ : NativeTable) (G₁ G₂ : GestureTable)
    (m_contexts : List GesturesContext) (m_steps : List GestureStep)
    (h : ∀ c ∈ m_contexts, N₁ c = N₂ c ∧ G₁ c = G₂ c) :
    matchGesture N₁ G₁ m_contexts m_steps = matchGesture N₂ G₂ m_contexts m_steps := by
  unfold matchGesture
  rw [matchContextLoop_eq, matchContextLoop_eq, candidates_congr N₁ N₂ G₁ G₂ m_contexts h]

/-- C10. Context isolation: `matchGesture` depends only on the native and
bound entries of the active contexts. Two tables that agree on every active
context give the same result for every buffer; adding a definition under Link
does not change the result when the active context list is `[Generic]`; and
with nothing configured under Generic the result is `UNKNOWN_GESTURE` whatever
is bound under Link. -/
theorem context_isolation :
    (∀ (N₁ N₂ : NativeTable) (G₁ G₂ : GestureTable) (m_contexts : List GesturesContext)
      (m_steps : List GestureStep),
      (∀ c ∈ m_contexts, N₁ c = N₂ c ∧ G₁ c = G₂ c) →
      matchGesture N₁ G₁ m_contexts m_steps = matchGesture N₂ G₂ m_contexts m_steps) ∧
    (∀ (N : NativeTable) (G : GestureTable) (d : MouseGesture) (m_steps : List GestureStep),
      matchGesture N
          (Function.update G GesturesContext.LinkContext (G GesturesContext.LinkContext ++ [d]))
          [GesturesContext.GenericContext] m_steps
        = matchGesture N G [GesturesContext.GenericContext] m_steps) ∧
    (∀ (N : NativeTable) (G : GestureTable) (m_steps : List GestureStep),
      N GesturesContext.GenericContext = [] → G GesturesContext.GenericContext = [] →
      matchGesture N G [GesturesContext.GenericContext] m_steps = UNKNOWN_GESTURE) := by
  refine ⟨matchGesture_congr, ?_, ?_⟩
  · intro N G d m_steps
    apply matchGesture_congr
    intro c hc
    have hc' : c = GesturesContext.GenericContext := by simpa using hc
    subst hc'
    exact ⟨rfl, Function.update_noteq (by decide) _ _⟩
  · intro N G m_steps hN hG
    simp [matchGesture, matchContextLoop, hN, hG, matchNativeLoop, matchBoundLoop]

theorem context_isolation_witness :
    matchGesture createInstanceNativeGestures
        (fun c => if c = GesturesContext.LinkContext then
          [⟨[GestureStep.ofButton EventType.MouseButtonPress Qt.MiddleButton
            KeyboardModifiers.NoModifier], 5⟩] else [])
        [GesturesContext.GenericContext]
        [GestureStep.ofButton EventType.MouseButtonPress Qt.MiddleButton
          KeyboardModifiers.NoModifier]
      = matchGesture createInstanceNativeGestures (fun _ => [])
        [GesturesContext.GenericContext]
        [GestureStep.ofButton EventType.MouseButtonPress Qt.MiddleButton
          KeyboardModifiers.NoModifier] ∧
    matchGesture (fun _ => [])
        (fun c => if c = GesturesContext.LinkContext then
          [⟨[GestureStep.ofButton EventType.MouseButtonPress Qt.MiddleButton
            KeyboardModifiers.NoModifier], 5⟩] else [])
        [GesturesContext.GenericContext]
        [GestureStep.ofButton EventType.MouseButtonPress Qt.MiddleButton
          KeyboardModifiers.NoModifier] = UNKNOWN_GESTURE :=
  ⟨context_isolation.1 _ _ _ _ [GesturesContext.GenericContext] _
      (by
        intro c hc
        have hc' : c = GesturesContext.GenericContext := by simpa using hc
        subst hc'
        exact ⟨rfl, rfl⟩),
    context_isolation.2.2 _ _ _ rfl rfl⟩

/-! ## The table built by loadProfiles -/

theorem deserializeSteps_foldl (raws : List QString) :
    ∀ (acc : List GestureStep) (b : Bool),
      raws.foldl
          (fun (acc : List GestureStep × Bool) raw =>
            (acc.1 ++ [deserializeStep raw],
              if (deserializeStep raw).type = EventType.MouseMove then true else acc.2))
          (acc, b)
        = (acc ++ raws.map deserializeStep,
            b || (raws.map deserializeStep).any (fun s => s.type = EventType.MouseMove)) := by
  induction raws with
  | nil => intro acc b; simp
  | cons r rs ih =>
    intro acc b
    simp only [List.foldl_cons, ih, List.map_cons, List.any_cons, List.append_assoc,
      List.singleton_append]
    by_cases h : (deserializeStep r).type = EventType.MouseMove
    · simp [h]
    · simp [h]

theorem deserializeSteps_eq (raws : List QString) :
    deserializeSteps raws
      = (raws.map deserializeStep,
          (raws.map deserializeStep).any (fun s => s.type = EventType.MouseMove)) := by
  unfold deserializeSteps
  rw [deserializeSteps_foldl]
  simp

theorem loadEntry_eq (env : Environment) (enabled : Bool) (context : GesturesContext)
    (h : GesturesHash) (entry : QString × QString) :
    loadEntry env enabled context h entry
      = match entryDefinition env enabled entry with
        | none => h
        | some d => h.append context d := by
  have hsplit : (split ',' entry.1).isEmpty = false := by
    cases hs : split ',' entry.1 with
    | nil => exact absurd hs (split_ne_nil _ _)
    | cons a l => rfl
  have hsteps : ((split ',' entry.1).map deserializeStep).isEmpty = false := by
    cases hs : split ',' entry.1 with
    | nil => exact absurd hs (split_ne_nil _ _)
    | cons a l => rfl
  unfold loadEntry entryDefinition
  simp only [hsplit, deserializeSteps_eq, hsteps, Bool.false_eq_true, if_false, not_false_eq_true,
    true_and, Bool.not_eq_true]
  by_cases hact : env.getActionIdentifier entry.2 < 0
  · have hact' : ¬ 0 ≤ env.getActionIdentifier entry.2 := by omega
    simp only [hact, hact', if_true, if_false]
    by_cases hno : entry.2 = "NoAction".toList
    · simp only [hno, if_true]
      split_ifs <;> rfl
    · simp only [hno, if_false]
  · have hact' : 0 ≤ env.getActionIdentifier entry.2 := by omega
    simp only [hact, hact', if_true, if_false]
    split_ifs <;> rfl

theorem foldl_loadEntry_value (env : Environment) (enabled : Bool) (context : GesturesContext)
    (entries : List (QString × QString)) :
    ∀ (h : GesturesHash) (c : GesturesContext),
      (entries.foldl (loadEntry env enabled context) h).value c
        = h.value c ++ (if c = context then entries.filterMap (entryDefinition env enabled)
            else []) := by
  induction entries with
  | nil => intro h c; simp
  | cons e es ih =>
    intro h c
    rw [List.foldl_cons, ih, loadEntry_eq]
    cases hd : entryDefinition env enabled e with
    | none => simp [List.filterMap_cons, hd]
    | some d =>
      by_cases hc : c = context
      · subst hc
        simp [List.filterMap_cons, hd, GesturesHash.append]
      · simp [hc, GesturesHash.append, Function.update_noteq hc]

theorem loadGroup_value (env : Environment) (enabled : Bool) (h : GesturesHash)
    (group : ProfileGroup) (c : GesturesContext) :
    (loadGroup env enabled h group).value c
      = h.value c ++ groupDefinitions env enabled c group := by
  unfold loadGroup groupDefinitions
  cases hk : env.keyToValue (group.name ++ "Context".toList) with
  | none => simp
  | some context =>
    simp only [Option.some.injEq]
    by_cases hu : context = GesturesContext.UnknownContext
    · subst hu
      simp only [if_true]
      by_cases hc : GesturesContext.UnknownContext = c
      · subst hc
        simp
      · simp [hc]
    · simp only [hu, if_false, foldl_loadEntry_value]
      by_cases hc : c = context
      · subst hc
        simp [hu]
      · have hc' : ¬ context = c := fun e => hc e.symm
        simp [hc, hc']

theorem foldl_loadGroup_value (env : Environment) (enabled : Bool) (groups : List ProfileGroup) :
    ∀ (h : GesturesHash) (c : GesturesContext),
      (groups.foldl (loadGroup env enabled) h).value c
        = h.value c ++ groups.flatMap (groupDefinitions env enabled c) := by
  induction groups with
  | nil => intro h c; simp
  | cons g gs ih =>
    intro h c
    rw [List.foldl_cons, ih, loadGroup_value, List.flatMap_cons, List.append_assoc]

theorem foldl_profiles_value (env : Environment) (enabled : Bool) (profiles : List Profile) :
    ∀ (h : GesturesHash) (c : GesturesContext),
      (profiles.foldl
          (fun h profile => profile.groups.foldl (loadGroup env enabled) h) h).value c
        = h.value c ++ profileDefinitions env enabled profiles c := by
  induction profiles with
  | nil => intro h c; simp [profileDefinitions]
  | cons p ps ih =>
    intro h c
    rw [List.foldl_cons, ih, foldl_loadGroup_value]
    simp [profileDefinitions, List.flatMap_cons, List.append_assoc]

theorem realContexts_eq :
    realContexts = [GesturesContext.GenericContext, GesturesContext.LinkContext,
      GesturesContext.ContentEditableContext, GesturesContext.TabHandleContext] := by
  decide

theorem loadProfiles_value (env : Environment) (enabled : Bool) (profiles : List Profile)
    (c : GesturesContext) :
    (loadProfiles env enabled profiles).value c
      = (if c.isReal then [contextMenuGestureDefinition env] else [])
        ++ profileDefinitions env enabled profiles c := by
  unfold loadProfiles
  simp only [foldl_profiles_value, realContexts_eq, List.foldl_cons, List.foldl_nil]
  congr 1
  cases c <;>
    simp [GesturesHash.append, GesturesHash.assignEmpty, GesturesHash.empty, Function.update,
      GesturesContext.isReal, GesturesContext.toInt]

/-- C11. After `loadProfiles`, the table of every real context (strictly between
`UnknownContext` and `OtherContext`) starts with the built-in binding
`[Press(Right), Release(Right)] -> ContextMenuAction`, followed by the
profile-sourced definitions of that context in profile order. -/
theorem loadProfiles_real_context (env : Environment) (areMouseGesturesEnabled : Bool)
    (gestureProfiles : List Profile) (context : GesturesContext) (h : context.isReal) :
    (loadProfiles env areMouseGesturesEnabled gestureProfiles).value context
        = contextMenuGestureDefinition env
          :: profileDefinitions env areMouseGesturesEnabled gestureProfiles context ∧
      ((loadProfiles env areMouseGesturesEnabled gestureProfiles).value context).head?
        = some ⟨[GestureStep.ofButton EventType.MouseButtonPress Qt.RightButton
              KeyboardModifiers.NoModifier,
            GestureStep.ofButton EventType.MouseButtonRelease Qt.RightButton
              KeyboardModifiers.NoModifier], env.ContextMenuAction⟩ := by
  have hv := loadProfiles_value env areMouseGesturesEnabled gestureProfiles context
  rw [if_pos h] at hv
  constructor
  · rw [hv]
    rfl
  · rw [hv]
    rfl

theorem loadProfiles_real_context_witness :
    (loadProfiles exampleEnvironment true
        [exampleProfile "Generic" "pressLeft,moveLeft" "GoBack"]).value
        GesturesContext.GenericContext
      = [⟨[GestureStep.ofButton EventType.MouseButtonPress Qt.RightButton
              KeyboardModifiers.NoModifier,
            GestureStep.ofButton EventType.MouseButtonRelease Qt.RightButton
              KeyboardModifiers.NoModifier], 0⟩,
          ⟨[GestureStep.ofButton EventType.MouseButtonPress Qt.LeftButton
              KeyboardModifiers.NoModifier,
            GestureStep.ofDirection EventType.MouseMove MouseAction.MoveLeftMouseAction
              KeyboardModifiers.NoModifier], 1⟩] :=
  (loadProfiles_real_context exampleEnvironment true
    [exampleProfile "Generic" "pressLeft,moveLeft" "GoBack"]
    GesturesContext.GenericContext (by decide)).1.trans (by decide)

/-! ## The context-menu binding -/

theorem candidates_append (N : NativeTable) (G : GestureTable)
    (l₁ l₂ : List GesturesContext) :
    candidates N G (l₁ ++ l₂) = candidates N G l₁ ++ candidates N G l₂ := by
  simp [candidates, List.flatMap_append]

theorem profileDefinitions_unknown (env : Environment) (enabled : Bool)
    (profiles : List Profile) :
    profileDefinitions env enabled profiles GesturesContext.UnknownContext = [] := by
  simp [profileDefinitions, groupDefinitions]

theorem candidates_of_unknown (env : Environment) (enabled : Bool) (profiles : List Profile)
    (pre : List GesturesContext) (h : ∀ x ∈ pre, x = GesturesContext.UnknownContext) :
    candidates createInstanceNativeGestures (loadProfiles env enabled profiles).value pre
      = [] := by
  induction pre with
  | nil => rfl
  | cons x xs ih =>
    have hx : x = GesturesContext.UnknownContext := h x (List.mem_cons_self _ _)
    subst hx
    have hxs := ih (fun y hy => h y (List.mem_cons_of_mem _ hy))
    simp only [candidates, List.flatMap_cons] at hxs ⊢
    rw [hxs, loadProfiles_value, profileDefinitions_unknown]
    simp [createInstanceNativeGestures, GesturesContext.isReal, GesturesContext.toInt]

/-- C12, as stated, fails: with a profile whose group `Other` binds
`pressRight,releaseRight` to `GoBack`, and the active context list
`[OtherContext, GenericContext]`, which contains a real context, the buffer
`[Press(Right), Release(Right)]` resolves to `GoBack`, not to
`ContextMenuAction`. -/
theorem context_menu_overridden_through_other :
    ¬ (∀ (env : Environment) (areMouseGesturesEnabled : Bool) (gestureProfiles : List Profile)
        (m_contexts : List GesturesContext),
        (∃ c ∈ m_contexts, c.isReal) →
        matchGesture createInstanceNativeGestures
            (loadProfiles env areMouseGesturesEnabled gestureProfiles).value m_contexts
            [GestureStep.ofButton EventType.MouseButtonPress Qt.RightButton
              KeyboardModifiers.NoModifier,
              GestureStep.ofButton EventType.MouseButtonRelease Qt.RightButton
                KeyboardModifiers.NoModifier]
          = env.ContextMenuAction) := by
  intro h
  have h1 := h exampleEnvironment true
    [exampleProfile "Other" "pressRight,releaseRight" "GoBack"]
    [GesturesContext.OtherContext, GesturesContext.GenericContext]
    ⟨GesturesContext.GenericContext, by decide, by decide⟩
  revert h1
  decide

/-- C12, amended. For every profile configuration loaded by `loadProfiles`,
with the native table of `createInstance`, and every active context list in
which a real context comes first or is preceded only by `UnknownContext`, the
buffer `[Press(Right), Release(Right)]` without modifiers resolves to
`ContextMenuAction`. -/
theorem context_menu_not_overridable (env : Environment) (areMouseGesturesEnabled : Bool)
    (gestureProfiles : List Profile) (pre post : List GesturesContext)
    (context : GesturesContext) (hpre : ∀ x ∈ pre, x = GesturesContext.UnknownContext)
    (hreal : context.isReal) :
    matchGesture createInstanceNativeGestures
        (loadProfiles env areMouseGesturesEnabled gestureProfiles).value
        (pre ++ context :: post)
        [GestureStep.ofButton EventType.MouseButtonPress Qt.RightButton
          KeyboardModifiers.NoModifier,
          GestureStep.ofButton EventType.MouseButtonRelease Qt.RightButton
            KeyboardModifiers.NoModifier]
      = env.ContextMenuAction := by
  have hcs : candidates createInstanceNativeGestures
      (loadProfiles env areMouseGesturesEnabled gestureProfiles).value (pre ++ context :: post)
      = (createInstanceNativeGestures context).map (fun g => ⟨g, NATIVE_GESTURE⟩)
        ++ (⟨(contextMenuGestureDefinition env).steps, (contextMenuGestureDefinition env).action⟩
          :: ((profileDefinitions env areMouseGesturesEnabled gestureProfiles context).map
              (fun d => ⟨d.steps, d.action⟩)
            ++ candidates createInstanceNativeGestures
              (loadProfiles env areMouseGesturesEnabled gestureProfiles).value post)) := by
    rw [candidates_append, candidates_of_unknown env _ _ pre hpre, List.nil_append]
    have hcons : context :: post = [context] ++ post := rfl
    rw [hcons, candidates_append]
    have hvalue := loadProfiles_value env areMouseGesturesEnabled gestureProfiles context
    rw [if_pos hreal] at hvalue
    simp only [candidates, List.flatMap_cons, List.flatMap_nil, List.append_nil, hvalue,
      List.map_cons, List.append_assoc, List.cons_append, List.singleton_append,
      List.nil_append]
  have hres := matchGesture_of_first_zero createInstanceNativeGestures
    (loadProfiles env areMouseGesturesEnabled gestureProfiles).value (pre ++ context :: post)
    [GestureStep.ofButton EventType.MouseButtonPress Qt.RightButton KeyboardModifiers.NoModifier,
      GestureStep.ofButton EventType.MouseButtonRelease Qt.RightButton
        KeyboardModifiers.NoModifier]
    _ _ _ hcs
    (by
      revert hreal
      cases context <;> decide)
    (by
      simp only [candidateCost, contextMenuGestureDefinition]
      decide)
  exact hres

theorem context_menu_not_overridable_witness :
    matchGesture createInstanceNativeGestures
        (loadProfiles exampleEnvironment true
          [exampleProfile "Generic" "pressRight,releaseRight" "GoBack"]).value
        ([GesturesContext.UnknownContext] ++ GesturesContext.GenericContext
          :: [GesturesContext.OtherContext])
        [GestureStep.ofButton EventType.MouseButtonPress Qt.RightButton
          KeyboardModifiers.NoModifier,
          GestureStep.ofButton EventType.MouseButtonRelease Qt.RightButton
            KeyboardModifiers.NoModifier]
      = exampleEnvironment.ContextMenuAction :=
  context_menu_not_overridable exampleEnvironment true
    [exampleProfile "Generic" "pressRight,releaseRight" "GoBack"]
    [GesturesContext.UnknownContext] [GesturesContext.OtherContext]
    GesturesContext.GenericContext (by decide) (by decide)

/-! ## Move steps and action names in loadProfiles -/

theorem entryDefinition_no_move (env : Environment) (entry : QString × QString)
    (d : MouseGesture) (h : entryDefinition env false entry = some d) :
    ∀ s ∈ d.steps, s.type ≠ EventType.MouseMove := by
  unfold entryDefinition at h
  simp only [Bool.false_eq_true, or_false] at h
  split_ifs at h with h1 h2 h3 h4 <;> simp only [Option.some.injEq, reduceCtorEq] at h
  · subst h
    intro s hs
    simp only [List.any_eq_false, decide_eq_true_eq] at h2
    exact h2 s hs
  · subst h
    intro s hs
    simp only [List.any_eq_false, decide_eq_true_eq] at h4
    exact h4 s hs

theorem mem_profileDefinitions (env : Environment) (enabled : Bool) (profiles : List Profile)
    (c : GesturesContext) (d : MouseGesture) :
    d ∈ profileDefinitions env enabled profiles c ↔
      ∃ profile ∈ profiles, ∃ group ∈ profile.groups,
        env.keyToValue (group.name ++ "Context".toList) = some c
          ∧ c ≠ GesturesContext.UnknownContext
          ∧ ∃ entry ∈ group.entries, entryDefinition env enabled entry = some d := by
  simp only [profileDefinitions, List.mem_flatMap, groupDefinitions]
  constructor
  · rintro ⟨profile, hp, group, hg, hd⟩
    split_ifs at hd with hc
    · rw [List.mem_filterMap] at hd
      exact ⟨profile, hp, group, hg, hc.1, hc.2, hd⟩
    · simp at hd
  · rintro ⟨profile, hp, group, hg, hk, hu, hd⟩
    refine ⟨profile, hp, group, hg, ?_⟩
    rw [if_pos ⟨hk, hu⟩, List.mem_filterMap]
    exact hd

/-- C13. With mouse gestures disabled, no definition of the table that
`loadProfiles` builds contains a Move step, for every profile configuration and
every context. -/
theorem loadProfiles_no_move_when_disabled (env : Environment) (gestureProfiles : List Profile)
    (context : GesturesContext) (d : MouseGesture)
    (hd : d ∈ (loadProfiles env false gestureProfiles).value context) :
    ∀ s ∈ d.steps, s.type ≠ EventType.MouseMove := by
  rw [loadProfiles_value, List.mem_append] at hd
  rcases hd with hd | hd
  · split_ifs at hd
    · have hd' : d = contextMenuGestureDefinition env := by simpa using hd
      subst hd'
      intro s hs
      simp only [contextMenuGestureDefinition, List.mem_cons, List.mem_singleton,
        List.not_mem_nil, or_false] at hs
      rcases hs with rfl | rfl <;> decide
    · simp at hd
  · obtain ⟨_, _, _, _, _, _, entry, _, he⟩ :=
      (mem_profileDefinitions env false gestureProfiles context d).1 hd
    exact entryDefinition_no_move env entry d he

theorem loadProfiles_no_move_when_disabled_witness :
    (loadProfiles exampleEnvironment false
        [exampleProfile "Generic" "pressLeft,moveLeft" "GoBack",
          exampleProfile "Generic" "pressLeft,releaseLeft" "GoForward"]).value
        GesturesContext.GenericContext
      = [contextMenuGestureDefinition exampleEnvironment,
          ⟨[GestureStep.ofButton EventType.MouseButtonPress Qt.LeftButton
              KeyboardModifiers.NoModifier,
            GestureStep.ofButton EventType.MouseButtonRelease Qt.LeftButton
              KeyboardModifiers.NoModifier], 2⟩] ∧
      ∀ s ∈ (⟨[GestureStep.ofButton EventType.MouseButtonPress Qt.LeftButton
              KeyboardModifiers.NoModifier,
            GestureStep.ofButton EventType.MouseButtonRelease Qt.LeftButton
              KeyboardModifiers.NoModifier], 2⟩ : MouseGesture).steps,
        s.type ≠ EventType.MouseMove :=
  ⟨by decide,
    loadProfiles_no_move_when_disabled exampleEnvironment
      [exampleProfile "Generic" "pressLeft,moveLeft" "GoBack",
        exampleProfile "Generic" "pressLeft,releaseLeft" "GoForward"]
      GesturesContext.GenericContext _ (by decide)⟩

theorem foldl_loadEntry_remove (env : Environment) (enabled : Bool) (context : GesturesContext)
    (before after : List (QString × QString)) (entry : QString × QString)
    (h : entryDefinition env enabled entry = none) (m_gestures : GesturesHash) :
    (before ++ entry :: after).foldl (loadEntry env enabled context) m_gestures
      = (before ++ after).foldl (loadEntry env enabled context) m_gestures := by
  simp only [List.foldl_append, List.foldl_cons]
  rw [loadEntry_eq env enabled context _ entry, h]

theorem loadGroup_remove (env : Environment) (enabled : Bool) (name : QString)
    (before after : List (QString × QString)) (entry : QString × QString)
    (h : entryDefinition env enabled entry = none) (m_gestures : GesturesHash) :
    loadGroup env enabled m_gestures ⟨name, before ++ entry :: after⟩
      = loadGroup env enabled m_gestures ⟨name, before ++ after⟩ := by
  unfold loadGroup
  simp only
  cases env.keyToValue (name ++ "Context".toList) with
  | none => rfl
  | some context =>
    simp only
    split_ifs
    · rfl
    · exact foldl_loadEntry_remove env enabled context before after entry h m_gestures

/-- C14, as stated, fails: with mouse gestures disabled, the entry
`moveLeft = GoBack` of group `Generic` names a known action, yet the table of
`GenericContext` holds no definition bound to that action. -/
theorem known_action_not_always_bound :
    ¬ (∀ (env : Environment) (areMouseGesturesEnabled : Bool) (gestureProfiles : List Profile)
        (profile : Profile) (group : ProfileGroup) (entry : QString × QString)
        (context : GesturesContext),
        profile ∈ gestureProfiles → group ∈ profile.groups → entry ∈ group.entries →
        env.keyToValue (group.name ++ "Context".toList) = some context →
        context ≠ GesturesContext.UnknownContext →
        0 ≤ env.getActionIdentifier entry.2 →
        ∃ d ∈ (loadProfiles env areMouseGesturesEnabled gestureProfiles).value context,
          d.action = env.getActionIdentifier entry.2) := by
  intro h
  have h1 := h exampleEnvironment false [exampleProfile "Generic" "moveLeft" "GoBack"]
    (exampleProfile "Generic" "moveLeft" "GoBack")
    ⟨"Generic".toList, [("moveLeft".toList, "GoBack".toList)]⟩
    ("moveLeft".toList, "GoBack".toList) GesturesContext.GenericContext
    (by simp) (by simp [exampleProfile]) (by simp) (by decide) (by decide) (by decide)
  revert h1
  decide

/-- C14, amended. In `loadProfiles`, for an entry of a group of a known context
whose steps contain no Move step or with mouse gestures enabled: a value that
names a known action binds the steps to that action identifier; the literal
`NoAction` (not itself an action name) binds them to `NATIVE_GESTURE`. An entry
whose value is neither adds no binding: the table and its keys equal those
built from the same profiles with the entry removed. -/
theorem action_name_resolution :
    (∀ (env : Environment) (areMouseGesturesEnabled : Bool) (gestureProfiles : List Profile)
      (profile : Profile) (group : ProfileGroup) (entry : QString × QString)
      (context : GesturesContext),
      profile ∈ gestureProfiles → group ∈ profile.groups → entry ∈ group.entries →
      env.keyToValue (group.name ++ "Context".toList) = some context →
      context ≠ GesturesContext.UnknownContext →
      (((split ',' entry.1).map deserializeStep).any (fun s => s.type = EventType.MouseMove)
          = false ∨ areMouseGesturesEnabled = true) →
      (0 ≤ env.getActionIdentifier entry.2 →
        (⟨(split ',' entry.1).map deserializeStep, env.getActionIdentifier entry.2⟩
            : MouseGesture)
          ∈ (loadProfiles env areMouseGesturesEnabled gestureProfiles).value context) ∧
      (env.getActionIdentifier entry.2 < 0 → entry.2 = "NoAction".toList →
        (⟨(split ',' entry.1).map deserializeStep, NATIVE_GESTURE⟩ : MouseGesture)
          ∈ (loadProfiles env areMouseGesturesEnabled gestureProfiles).value context)) ∧
    (∀ (env : Environment) (areMouseGesturesEnabled : Bool)
      (profilesBefore profilesAfter : List Profile) (groupsBefore groupsAfter : List ProfileGroup)
      (name : QString) (entriesBefore entriesAfter : List (QString × QString))
      (entry : QString × QString),
      env.getActionIdentifier entry.2 < 0 → entry.2 ≠ "NoAction".toList →
      loadProfiles env areMouseGesturesEnabled
          (profilesBefore
            ++ ⟨groupsBefore ++ ⟨name, entriesBefore ++ entry :: entriesAfter⟩ :: groupsAfter⟩
              :: profilesAfter)
        = loadProfiles env areMouseGesturesEnabled
          (profilesBefore
            ++ ⟨groupsBefore ++ ⟨name, entriesBefore ++ entriesAfter⟩ :: groupsAfter⟩
              :: profilesAfter)) := by
  constructor
  · intro env enabled profiles profile group entry context hp hg he hk hu hmove
    constructor
    · intro hact
      rw [loadProfiles_value]
      apply List.mem_append_right
      rw [mem_profileDefinitions]
      refine ⟨profile, hp, group, hg, hk, hu, entry, he, ?_⟩
      unfold entryDefinition
      simp only [hact, if_true, hmove]
    · intro hact hno
      rw [loadProfiles_value]
      apply List.mem_append_right
      rw [mem_profileDefinitions]
      refine ⟨profile, hp, group, hg, hk, hu, entry, he, ?_⟩
      unfold entryDefinition
      have hact' : ¬ 0 ≤ env.getActionIdentifier entry.2 := by omega
      rw [if_neg hact', if_pos hno, if_pos hmove]
  · intro env enabled ps₁ ps₂ gs₁ gs₂ name es₁ es₂ entry hact hno
    have hnone : entryDefinition env enabled entry = none := by
      unfold entryDefinition
      have hact' : ¬ 0 ≤ env.getActionIdentifier entry.2 := by omega
      simp only [hact', if_false, hno]
    unfold loadProfiles
    simp only [List.foldl_append, List.foldl_cons,
      loadGroup_remove env enabled name es₁ es₂ entry hnone]

theorem action_name_resolution_witness :
    (⟨(split ',' "pressLeft,moveLeft".toList).map deserializeStep, 1⟩ : MouseGesture)
        ∈ (loadProfiles exampleEnvironment true
            [exampleProfile "Link" "pressLeft,moveLeft" "GoBack"]).value
          GesturesContext.LinkContext ∧
      (⟨(split ',' "pressMiddle".toList).map deserializeStep, NATIVE_GESTURE⟩ : MouseGesture)
        ∈ (loadProfiles exampleEnvironment false
            [exampleProfile "Link" "pressMiddle" "NoAction"]).value
          GesturesContext.LinkContext ∧
      loadProfiles exampleEnvironment true
          ([] ++ ⟨[] ++ ⟨"Link".toList,
            [] ++ ("pressMiddle".toList, "Nothing".toList) :: []⟩ :: []⟩ :: [])
        = loadProfiles exampleEnvironment true
          ([] ++ ⟨[] ++ ⟨"Link".toList, [] ++ []⟩ :: []⟩ :: []) :=
  ⟨(action_name_resolution.1 exampleEnvironment true
      [exampleProfile "Link" "pressLeft,moveLeft" "GoBack"]
      (exampleProfile "Link" "pressLeft,moveLeft" "GoBack")
      ⟨"Link".toList, [("pressLeft,moveLeft".toList, "GoBack".toList)]⟩
      ("pressLeft,moveLeft".toList, "GoBack".toList) GesturesContext.LinkContext
      (by simp) (by simp [exampleProfile]) (by simp) (by decide) (by decide)
      (Or.inr rfl)).1 (by decide),
    (action_name_resolution.1 exampleEnvironment false
      [exampleProfile "Link" "pressMiddle" "NoAction"]
      (exampleProfile "Link" "pressMiddle" "NoAction")
      ⟨"Link".toList, [("pressMiddle".toList, "NoAction".toList)]⟩
      ("pressMiddle".toList, "NoAction".toList) GesturesContext.LinkContext
      (by simp) (by simp [exampleProfile]) (by simp) (by decide) (by decide)
      (Or.inl (by decide))).2 (by decide) rfl,
    action_name_resolution.2 exampleEnvironment true [] [] [] [] "Link".toList [] []
      ("pressMiddle".toList, "Nothing".toList) (by decide) (by decide)⟩

/-! ## Cancellation, native replay, start and continuation -/

theorem releaseObject_fields (s : Session) :
    (releaseObject s).m_trackedObject = none ∧ (releaseObject s).m_steps = s.m_steps
      ∧ (releaseObject s).m_events = s.m_events
      ∧ (releaseObject s).m_recognizer = s.m_recognizer
      ∧ (releaseObject s).m_contexts = s.m_contexts := by
  unfold releaseObject
  cases s.m_trackedObject <;> simp

theorem cancelGesture_fields (s : Session) :
    (cancelGesture s).m_steps = [] ∧ (cancelGesture s).m_events = []
      ∧ (cancelGesture s).m_trackedObject = none
      ∧ (cancelGesture s).m_recognizer = s.m_recognizer := by
  obtain ⟨h1, _, _, h4, _⟩ := releaseObject_fields s
  simp [cancelGesture, h1, h4]

theorem triggerAction_of_native (env : Environment) (s : Session) (object : QObjectPtr)
    (h : s.m_trackedObject = some object) :
    triggerAction env s NATIVE_GESTURE
      = some (cancelGesture
          { s with
            effects := s.effects ++ [Effect.removeEventFilter object]
              ++ s.m_events.map (Effect.sendEvent object) }, true) := by
  cases s
  simp only at h
  subst h
  rfl

theorem deliveredEvents_sendEvent (object : QObjectPtr) (l : List QEventPtr) :
    deliveredEvents object (l.map (Effect.sendEvent object)) = l := by
  induction l with
  | nil => rfl
  | cons e es ih =>
    simp only [deliveredEvents, List.map_cons, List.filterMap_cons, if_true] at ih ⊢
    rw [ih]

/-- C17. With a tracked target, `triggerAction(NATIVE_GESTURE)` returns true,
sends to that target exactly the buffered raw events, each once and in buffer
order, and leaves the session cancelled: no steps, no events, no target. -/
theorem triggerAction_native (env : Environment) (s : Session) (object : QObjectPtr)
    (h : s.m_trackedObject = some object) :
    ∃ s', triggerAction env s NATIVE_GESTURE = some (s', true)
      ∧ s'.effects = s.effects ++ [Effect.removeEventFilter object]
          ++ s.m_events.map (Effect.sendEvent object)
          ++ [Effect.removeEventFilter object, Effect.disconnectDestroyed object]
      ∧ deliveredEvents object (s'.effects.drop s.effects.length) = s.m_events
      ∧ s'.m_steps = [] ∧ s'.m_events = [] ∧ s'.m_trackedObject = none := by
  obtain ⟨h1, h2, h3, _⟩ := cancelGesture_fields
    { s with
      effects := s.effects ++ [Effect.removeEventFilter object]
        ++ s.m_events.map (Effect.sendEvent object) }
  have heff : (cancelGesture
      { s with
        effects := s.effects ++ [Effect.removeEventFilter object]
          ++ s.m_events.map (Effect.sendEvent object) }).effects
      = s.effects ++ [Effect.removeEventFilter object]
          ++ s.m_events.map (Effect.sendEvent object)
          ++ [Effect.removeEventFilter object, Effect.disconnectDestroyed object] := by
    simp [cancelGesture, releaseObject, h]
  refine ⟨_, triggerAction_of_native env s object h, heff, ?_, h1, h2, h3⟩
  rw [heff]
  simp only [List.append_assoc, List.drop_left]
  have hdel := deliveredEvents_sendEvent object s.m_events
  simp only [deliveredEvents, List.filterMap_cons, List.filterMap_append, List.filterMap_nil,
    List.nil_append, List.append_nil] at hdel ⊢
  exact hdel

theorem triggerAction_native_witness :
    ∃ s', triggerAction exampleEnvironment
        { exampleSession with
          m_trackedObject := some 7
          m_events := [⟨1, exampleEvent EventType.MouseButtonPress Qt.LeftButton 1 0 0⟩,
            ⟨2, exampleEvent EventType.MouseButtonRelease Qt.LeftButton 0 0 0⟩] }
        NATIVE_GESTURE = some (s', true)
      ∧ s'.effects = ([] : List Effect) ++ [Effect.removeEventFilter 7]
          ++ [Effect.sendEvent 7
                ⟨1, exampleEvent EventType.MouseButtonPress Qt.LeftButton 1 0 0⟩,
              Effect.sendEvent 7
                ⟨2, exampleEvent EventType.MouseButtonRelease Qt.LeftButton 0 0 0⟩]
          ++ [Effect.removeEventFilter 7, Effect.disconnectDestroyed 7] :=
  (triggerAction_native exampleEnvironment
    { exampleSession with
      m_trackedObject := some 7
      m_events := [⟨1, exampleEvent EventType.MouseButtonPress Qt.LeftButton 1 0 0⟩,
        ⟨2, exampleEvent EventType.MouseButtonRelease Qt.LeftButton 0 0 0⟩] }
    7 rfl).imp (fun _ hs => ⟨hs.1, hs.2.1⟩)

/-- C18, as stated, fails: `cancelGesture` does not close the recognizer. A
session that tracks a target and has an open recognizer still has it after
`cancelGesture`; such a session arises when a pointer-move event reports that
no button is held. -/
theorem cancelGesture_keeps_recognizer :
    ¬ (∀ s : Session, (cancelGesture s).m_steps = [] ∧ (cancelGesture s).m_events = []
        ∧ (cancelGesture s).m_trackedObject = none ∧ (cancelGesture s).m_recognizer = none) ∧
    (eventFilter exampleEnvironment { exampleSession with m_trackedObject := some 7 }
        (exampleEvent EventType.MouseMove Qt.NoButton 0 3 4) 1).map
      (fun r => (r.1.m_trackedObject, r.1.m_steps, r.1.m_events, r.1.m_recognizer))
      = some (none, [], [],
          some [RecognizerCall.startGesture 0 0, RecognizerCall.addPosition 3 4]) := by
  constructor
  · intro h
    have h1 := (h { exampleSession with
      m_trackedObject := some 7
      m_recognizer := some [RecognizerCall.startGesture 0 0] }).2.2.2
    rw [(cancelGesture_fields _).2.2.2] at h1
    exact absurd h1 (by simp)
  · decide

/-- C18, amended. After `cancelGesture`, from any session state, the step
buffer is empty, the raw event buffer is empty and no target is tracked; the
recognizer handle is left as it was (it is deleted only when a press, release,
double-click or wheel event is processed). -/
theorem cancelGesture_resets (s : Session) :
    (cancelGesture s).m_steps = [] ∧ (cancelGesture s).m_events = []
      ∧ (cancelGesture s).m_trackedObject = none
      ∧ (cancelGesture s).m_recognizer = s.m_recognizer ∧
    (endGesture s).m_steps = [] ∧ (endGesture s).m_events = []
      ∧ (endGesture s).m_trackedObject = none := by
  obtain ⟨h1, h2, h3, h4⟩ := cancelGesture_fields s
  exact ⟨h1, h2, h3, h4, h1, h2, h3⟩

/-- The guard of `startGesture` as the code evaluates it: it returns false and
leaves the whole session unchanged when the target is null, when no key that
`m_gestures` holds at the time of the call is among the given contexts, or when
the event is already in `m_events`. The keys are not only the configured
contexts: `matchGesture` and `recognizeMoveStep` read `m_gestures` through
`operator[]`, which inserts the contexts they read. -/
theorem startGesture_rejects (env : Environment) (s : Session) (object : Option QObjectPtr)
    (event : Option QEventPtr) (contexts : List GesturesContext) (parameters : QVariantMap)
    (fresh : Nat) :
    (object = none → startGesture env s object event contexts parameters fresh = some (s, false)) ∧
    ((∀ c ∈ s.m_gestures.keys, c ∉ contexts) →
      startGesture env s object event contexts parameters fresh = some (s, false)) ∧
    (∀ e : QEventPtr, event = some e → (∃ b ∈ s.m_events, b.address = e.address) →
      startGesture env s object event contexts parameters fresh = some (s, false)) := by
  refine ⟨?_, ?_, ?_⟩
  · rintro rfl
    rfl
  · intro h
    have hf : (s.m_gestures.keys.filter (fun c => decide (c ∈ contexts))).isEmpty = true := by
      rw [List.isEmpty_iff, List.filter_eq_nil_iff]
      intro c hc
      simpa using h c hc
    cases object <;> cases event <;> simp [startGesture, hf]
  · rintro e rfl ⟨b, hb, hbe⟩
    have ha : s.m_events.any (fun x => decide (x.address = e.address)) = true := by
      rw [List.any_eq_true]
      exact ⟨b, hb, by simpa using hbe⟩
    cases object <;> simp [startGesture, ha]

theorem startGesture_rejects_witness :
    startGesture exampleEnvironment exampleSession none
        (some ⟨100, exampleEvent EventType.MouseButtonPress Qt.LeftButton 1 0 0⟩)
        [GesturesContext.GenericContext] [] 1 = some (exampleSession, false) ∧
    startGesture exampleEnvironment exampleSession (some 7)
        (some ⟨100, exampleEvent EventType.MouseButtonPress Qt.LeftButton 1 0 0⟩)
        [GesturesContext.OtherContext] [] 1 = some (exampleSession, false) ∧
    startGesture exampleEnvironment
        { exampleSession with
          m_events := [⟨100, exampleEvent EventType.MouseButtonPress Qt.LeftButton 1 0 0⟩] }
        (some 7) (some ⟨100, exampleEvent EventType.MouseButtonPress Qt.LeftButton 1 0 0⟩)
        [GesturesContext.GenericContext] [] 1
      = some ({ exampleSession with
          m_events := [⟨100, exampleEvent EventType.MouseButtonPress Qt.LeftButton 1 0 0⟩] },
        false) :=
  ⟨(startGesture_rejects exampleEnvironment exampleSession none _ _ [] 1).1 rfl,
    (startGesture_rejects exampleEnvironment exampleSession (some 7) _
      [GesturesContext.OtherContext] [] 1).2.1 (by decide),
    (startGesture_rejects exampleEnvironment _ (some 7) _ _ [] 1).2.2 _ rfl
      ⟨_, List.mem_singleton_self _, rfl⟩⟩

/-- C19. Nothing is configured under `OtherContext`, and on the engine as
`loadProfiles` leaves it `startGesture` with the contexts `[Other]` returns
false and tracks nothing. After one session over `[Other, Generic]` (a right
press and its release, which requests the context menu and ends the session)
the table of `OtherContext` is still empty, yet the same call returns true,
tracks the target and buffers the press: `matchGesture` read
`m_gestures[OtherContext]` and so inserted the key that the guard of
`startGesture` looks for. -/
theorem startGesture_accepts_context_read_before :
    exampleSession.m_gestures.value GesturesContext.OtherContext = []
    ∧ (startGesture exampleEnvironment exampleSession (some 7)
          (some ⟨4, exampleEvent EventType.MouseButtonPress Qt.LeftButton 1 50 5⟩)
          [GesturesContext.OtherContext] [] 5).map
        (fun r => (r.2, r.1.m_trackedObject, r.1.m_steps))
      = some (false, none, [])
    ∧ ((startGesture exampleEnvironment exampleSession (some 7)
          (some ⟨1, exampleEvent EventType.MouseButtonPress Qt.RightButton 2 50 5⟩)
          [GesturesContext.OtherContext, GesturesContext.GenericContext] [] 2).bind fun r₁ =>
        (eventFilter exampleEnvironment r₁.1
          (exampleEvent EventType.MouseButtonRelease Qt.RightButton 0 50 5) 3).map fun r₂ =>
          (r₂.1.m_trackedObject, r₂.1.m_steps, r₂.1.m_events,
            r₂.1.m_gestures.value GesturesContext.OtherContext))
      = some (none, [], [], [])
    ∧ ((startGesture exampleEnvironment exampleSession (some 7)
          (some ⟨1, exampleEvent EventType.MouseButtonPress Qt.RightButton 2 50 5⟩)
          [GesturesContext.OtherContext, GesturesContext.GenericContext] [] 2).bind fun r₁ =>
        (eventFilter exampleEnvironment r₁.1
          (exampleEvent EventType.MouseButtonRelease Qt.RightButton 0 50 5) 3).bind fun r₂ =>
          (startGesture exampleEnvironment r₂.1 (some 7)
            (some ⟨4, exampleEvent EventType.MouseButtonPress Qt.LeftButton 1 50 5⟩)
            [GesturesContext.OtherContext] [] 5).map fun r₃ =>
            (r₃.2, r₃.1.m_trackedObject, r₃.1.m_steps))
      = some (true, some 7,
          [GestureStep.ofButton EventType.MouseButtonPress Qt.LeftButton
            KeyboardModifiers.NoModifier]) := by
  refine ⟨?_, ?_, ?_, ?_⟩ <;> decide

/-- C20. `continueGesture`: with no tracked target it returns false and changes
nothing; with a tracked target and a null new target it returns false and
cancels the session; with a tracked target and a new target it returns true,
tracks the new target and keeps the step buffer, the event buffer and the
active contexts. -/
theorem continueGesture_cases (s : Session) :
    (s.m_trackedObject = none → ∀ object, continueGesture s object = (s, false)) ∧
    (s.m_trackedObject ≠ none →
      (continueGesture s none).2 = false ∧ (continueGesture s none).1.m_steps = []
        ∧ (continueGesture s none).1.m_events = []
        ∧ (continueGesture s none).1.m_trackedObject = none) ∧
    (s.m_trackedObject ≠ none → ∀ object : QObjectPtr,
      (continueGesture s (some object)).2 = true
        ∧ (continueGesture s (some object)).1.m_trackedObject = some object
        ∧ (continueGesture s (some object)).1.m_steps = s.m_steps
        ∧ (continueGesture s (some object)).1.m_events = s.m_events
        ∧ (continueGesture s (some object)).1.m_contexts = s.m_contexts) := by
  refine ⟨?_, ?_, ?_⟩
  · intro h object
    simp [continueGesture, h]
  · intro h
    obtain ⟨t, ht⟩ := Option.ne_none_iff_exists'.1 h
    obtain ⟨h1, h2, h3, _⟩ := cancelGesture_fields s
    simp only [continueGesture, ht]
    exact ⟨trivial, h1, h2, h3⟩
  · intro h object
    obtain ⟨t, ht⟩ := Option.ne_none_iff_exists'.1 h
    obtain ⟨_, h2, h3, _, h5⟩ := releaseObject_fields s
    simp only [continueGesture, ht]
    exact ⟨trivial, trivial, h2, h3, h5⟩

theorem continueGesture_cases_witness :
    continueGesture exampleSession (some 9) = (exampleSession, false) ∧
    (continueGesture
        { exampleSession with
          m_trackedObject := some 7
          m_steps := [GestureStep.ofButton EventType.MouseButtonPress Qt.LeftButton
            KeyboardModifiers.NoModifier] } none).1.m_steps = [] ∧
    (continueGesture
        { exampleSession with
          m_trackedObject := some 7
          m_steps := [GestureStep.ofButton EventType.MouseButtonPress Qt.LeftButton
            KeyboardModifiers.NoModifier] } (some 9)).1.m_trackedObject = some 9 :=
  ⟨(continueGesture_cases exampleSession).1 rfl (some 9),
    ((continueGesture_cases _).2.1 (by simp)).2.1,
    ((continueGesture_cases _).2.2 (by simp) 9).2.1⟩

/-! ## eventFilter: loss of buttons and wheel isolation -/

theorem recognizeMoveStep_trackedObject (env : Environment) (s : Session) (event : QInputEvent) :
    (recognizeMoveStep env s event).m_trackedObject = s.m_trackedObject := by
  unfold recognizeMoveStep
  cases s.m_recognizer <;> rfl

theorem triggerAction_eq_none (env : Environment) (s : Session) (gesture : Int)
    (h : triggerAction env s gesture = none) : s.m_trackedObject = none := by
  cases ht : s.m_trackedObject with
  | none => rfl
  | some object =>
    exfalso
    unfold triggerAction at h
    rw [ht] at h
    simp only [] at h
    split_ifs at h

theorem triggerAction_eq_some (env : Environment) (s s' : Session) (gesture : Int) (b : Bool)
    (h : triggerAction env s gesture = some (s', b)) :
    s'.m_trackedObject = s.m_trackedObject
      ∨ (s'.m_steps = [] ∧ s'.m_events = [] ∧ s'.m_trackedObject = none) := by
  by_cases hu : gesture = UNKNOWN_GESTURE
  · unfold triggerAction at h
    rw [if_pos hu] at h
    simp only [Option.some.injEq, Prod.mk.injEq] at h
    rw [← h.1]
    exact Or.inl rfl
  · cases ht : s.m_trackedObject with
    | none =>
      unfold triggerAction at h
      rw [if_neg hu, ht] at h
      simp at h
    | some object =>
      by_cases hn : gesture = NATIVE_GESTURE
      · right
        rw [hn, triggerAction_of_native env s object ht] at h
        simp only [Option.some.injEq, Prod.mk.injEq] at h
        rw [← h.1]
        obtain ⟨c1, c2, c3, _⟩ := cancelGesture_fields
          { s with
            effects := s.effects ++ [Effect.removeEventFilter object]
              ++ s.m_events.map (Effect.sendEvent object) }
        exact ⟨c1, c2, c3⟩
      · left
        unfold triggerAction at h
        rw [if_neg hu, ht] at h
        simp only [hn, if_false, ht] at h
        by_cases hc : gesture = env.ContextMenuAction
        · simp only [hc, if_true, Option.some.injEq, Prod.mk.injEq] at h
          rw [← h.1]
        · simp only [hc, if_false, Option.some.injEq, Prod.mk.injEq] at h
          rw [← h.1]

theorem eventFilterFinish_cancelled (event : QInputEvent) (s : Session) (gesture : Int)
    (hb : event.buttons = Qt.NoButton)
    (h : s.m_trackedObject ≠ none
      ∨ (s.m_steps = [] ∧ s.m_events = [] ∧ s.m_trackedObject = none)) :
    (eventFilterFinish event true (s, gesture)).1.m_steps = []
      ∧ (eventFilterFinish event true (s, gesture)).1.m_events = []
      ∧ (eventFilterFinish event true (s, gesture)).1.m_trackedObject = none := by
  unfold eventFilterFinish
  cases ht : s.m_trackedObject with
  | some object =>
    obtain ⟨c1, c2, c3, _⟩ := cancelGesture_fields s
    simp [hb, ht, c1, c2, c3]
  | none =>
    rcases h with h | h
    · exact absurd ht h
    · simp [ht, h.1, h.2.1]

theorem eventFilterButton_tracked (env : Environment) (s : Session) (event : QInputEvent)
    (fresh : Nat) (h : s.m_trackedObject ≠ none) :
    ∃ s' gesture, eventFilterButton env s event fresh = some (s', gesture)
      ∧ (s'.m_trackedObject ≠ none
        ∨ (s'.m_steps = [] ∧ s'.m_events = [] ∧ s'.m_trackedObject = none)) := by
  unfold eventFilterButton
  simp only []
  split_ifs with h1 h2 h3
  · exact ⟨_, _, rfl, Or.inl h⟩
  · exact ⟨_, _, rfl, Or.inl h⟩
  all_goals
    split
    · rename_i hnone
      have := triggerAction_eq_none _ _ _ hnone
      simp only [Session.matchGesture, recognizeMoveStep_trackedObject] at this
      exact absurd this h
    · rename_i s₂ triggered hsome
      have hres := triggerAction_eq_some _ _ _ _ _ hsome
      simp only [Session.matchGesture, recognizeMoveStep_trackedObject] at hres
      refine ⟨_, _, rfl, ?_⟩
      rcases hres with hres | hres
      · left
        cases triggered <;> simpa [hres] using h
      · right
        cases triggered <;> simpa using hres

theorem eventFilterMove_tracked (env : Environment) (s : Session) (event : QInputEvent)
    (fresh : Nat) (h : s.m_trackedObject ≠ none) :
    ∃ s' gesture, eventFilterMove env s event fresh = some (s', gesture)
      ∧ (s'.m_trackedObject ≠ none
        ∨ (s'.m_steps = [] ∧ s'.m_events = [] ∧ s'.m_trackedObject = none)) := by
  have hrec : ∀ r : Option (List RecognizerCall),
      (match r with
        | none =>
          ({ s with
            m_events := s.m_events ++ [(⟨fresh, event⟩ : QEventPtr)]
            m_afterScroll := false
            m_recognizer := some [RecognizerCall.startGesture s.m_lastClick.x s.m_lastClick.y] }
            : Session)
        | some _ =>
          { s with
            m_events := s.m_events ++ [(⟨fresh, event⟩ : QEventPtr)]
            m_afterScroll := false }).m_trackedObject = s.m_trackedObject := by
    intro r
    cases r <;> rfl
  unfold eventFilterMove
  simp only []
  split_ifs with h1 h2
  · split
    · rename_i hnone
      have := triggerAction_eq_none _ _ _ hnone
      simp only [Session.matchGesture, recognizeMoveStep_trackedObject, hrec] at this
      exact absurd this h
    · rename_i s₂ triggered hsome
      have hres := triggerAction_eq_some _ _ _ _ _ hsome
      simp only [Session.matchGesture, recognizeMoveStep_trackedObject, hrec] at hres
      refine ⟨_, _, rfl, ?_⟩
      rcases hres with hres | hres
      · left
        rw [hres]
        exact h
      · right
        exact hres
  · refine ⟨_, _, rfl, Or.inl ?_⟩
    simp only [Session.matchGesture, hrec]
    exact h
  · refine ⟨_, _, rfl, Or.inl ?_⟩
    simp only [hrec]
    exact h

/-- C16. Loss of buttons: from every session state with a tracked target, a
press, release, double-click or pointer-move event that reports no button held
is processed by `eventFilter` to a state with an empty step buffer, an empty
raw event buffer and no tracked target, whatever the match gave. -/
theorem eventFilter_loss_of_buttons (env : Environment) (s : Session) (event : QInputEvent)
    (fresh : Nat) (htracked : s.m_trackedObject ≠ none)
    (htype : event.type = EventType.MouseButtonPress ∨ event.type = EventType.MouseButtonRelease
      ∨ event.type = EventType.MouseButtonDblClick ∨ event.type = EventType.MouseMove)
    (hbuttons : event.buttons = Qt.NoButton) :
    ∃ s' result, eventFilter env s event fresh = some (s', result)
      ∧ s'.m_steps = [] ∧ s'.m_events = [] ∧ s'.m_trackedObject = none := by
  have hbutton := eventFilterButton_tracked env s event fresh htracked
  have hmove := eventFilterMove_tracked env s event fresh htracked
  unfold eventFilter
  rcases htype with ht | ht | ht | ht
  all_goals
    rw [ht]
    simp only []
  · obtain ⟨s₁, g, heq, hprop⟩ := hbutton
    rw [heq]
    exact ⟨_, _, rfl, eventFilterFinish_cancelled event s₁ g hbuttons hprop⟩
  · obtain ⟨s₁, g, heq, hprop⟩ := hbutton
    rw [heq]
    exact ⟨_, _, rfl, eventFilterFinish_cancelled event s₁ g hbuttons hprop⟩
  · obtain ⟨s₁, g, heq, hprop⟩ := hbutton
    rw [heq]
    exact ⟨_, _, rfl, eventFilterFinish_cancelled event s₁ g hbuttons hprop⟩
  · obtain ⟨s₁, g, heq, hprop⟩ := hmove
    rw [heq]
    exact ⟨_, _, rfl, eventFilterFinish_cancelled event s₁ g hbuttons hprop⟩

theorem removeTrailing_getLast? {α : Type} (p : α → Bool) (v : List α) (x : α)
    (h : (removeTrailing p v).getLast? = some x) : p x = false := by
  unfold removeTrailing at h
  rw [List.getLast?_reverse] at h
  have := List.head?_dropWhile_not p v.reverse
  rw [h] at this
  exact this

theorem eventFilterWheel_result (env : Environment) (s s' : Session) (event : QInputEvent)
    (fresh : Nat) (gesture : Int) (h : eventFilterWheel env s event fresh = some (s', gesture)) :
    (∀ step, s'.m_steps.getLast? = some step → step.type ≠ EventType.Wheel)
      ∧ (∀ e, s'.m_events.getLast? = some e → e.event.type ≠ EventType.Wheel)
      ∧ s'.m_afterScroll = true := by
  unfold eventFilterWheel at h
  simp only [] at h
  split at h
  · simp at h
  · rename_i s₂ triggered hsome
    simp only [Option.some.injEq, Prod.mk.injEq] at h
    obtain ⟨h, _⟩ := h
    subst h
    refine ⟨?_, ?_, rfl⟩
    · intro step hstep
      simpa using removeTrailing_getLast? _ _ step hstep
    · intro e he
      simpa using removeTrailing_getLast? _ _ e he

theorem eventFilterWheel_tracked (env : Environment) (s : Session) (event : QInputEvent)
    (fresh : Nat) (h : s.m_trackedObject ≠ none) :
    ∃ s' gesture, eventFilterWheel env s event fresh = some (s', gesture) := by
  unfold eventFilterWheel
  simp only []
  split
  · rename_i hnone
    have := triggerAction_eq_none _ _ _ hnone
    simp only [Session.matchGesture, recognizeMoveStep_trackedObject] at this
    exact absurd this h
  · exact ⟨_, _, rfl⟩

/-- C15. Wheel isolation: `eventFilter` processes a wheel event, from every
session state with a tracked target, to a state whose step buffer is empty or
does not end with a Scroll step, whose raw event buffer is empty or does not
end with a wheel event, and in which `m_afterScroll` is true, whatever the
match gave; and every state that `eventFilter` returns for a wheel event, from
any session state, is of this kind. -/
theorem eventFilter_wheel_isolation (env : Environment) (s : Session) (event : QInputEvent)
    (fresh : Nat) (htype : event.type = EventType.Wheel) :
    (s.m_trackedObject ≠ none →
      ∃ s' result, eventFilter env s event fresh = some (s', result)
        ∧ (∀ step, s'.m_steps.getLast? = some step → step.type ≠ EventType.Wheel)
        ∧ (∀ e, s'.m_events.getLast? = some e → e.event.type ≠ EventType.Wheel)
        ∧ s'.m_afterScroll = true) ∧
    (∀ s' result, eventFilter env s event fresh = some (s', result) →
      (∀ step, s'.m_steps.getLast? = some step → step.type ≠ EventType.Wheel)
        ∧ (∀ e, s'.m_events.getLast? = some e → e.event.type ≠ EventType.Wheel)
        ∧ s'.m_afterScroll = true) := by
  have hfinish : ∀ (s₁ : Session) (g : Int),
      (eventFilterFinish event false (s₁, g)).1 = s₁ := by
    intro s₁ g
    simp [eventFilterFinish]
  have hgeneral : ∀ s' result, eventFilter env s event fresh = some (s', result) →
      (∀ step, s'.m_steps.getLast? = some step → step.type ≠ EventType.Wheel)
        ∧ (∀ e, s'.m_events.getLast? = some e → e.event.type ≠ EventType.Wheel)
        ∧ s'.m_afterScroll = true := by
    intro s' result h
    unfold eventFilter at h
    rw [htype] at h
    simp only [Option.map_eq_some'] at h
    obtain ⟨⟨s₁, g⟩, hw, hf⟩ := h
    have hs : s' = s₁ := by
      rw [← hfinish s₁ g, hf]
    rw [hs]
    exact eventFilterWheel_result env s s₁ event fresh g hw
  refine ⟨?_, hgeneral⟩
  intro htracked
  obtain ⟨s₁, g, hw⟩ := eventFilterWheel_tracked env s event fresh htracked
  have heq : eventFilter env s event fresh = some (eventFilterFinish event false (s₁, g)) := by
    unfold eventFilter
    rw [htype]
    simp only [hw, Option.map_some']
  exact ⟨_, _, heq, hgeneral _ _ heq⟩

theorem eventFilter_wheel_isolation_witness :
    ∃ s' result,
      eventFilter exampleEnvironment
          { exampleSession with
            m_trackedObject := some 7
            m_contexts := [GesturesContext.GenericContext] }
          (exampleEvent EventType.Wheel Qt.NoButton 2 5 5) 1 = some (s', result)
        ∧ (∀ step, s'.m_steps.getLast? = some step → step.type ≠ EventType.Wheel)
        ∧ (∀ e, s'.m_events.getLast? = some e → e.event.type ≠ EventType.Wheel)
        ∧ s'.m_afterScroll = true :=
  (eventFilter_wheel_isolation exampleEnvironment
    { exampleSession with
      m_trackedObject := some 7
      m_contexts := [GesturesContext.GenericContext] }
    (exampleEvent EventType.Wheel Qt.NoButton 2 5 5) 1 rfl).1 (by simp)

theorem eventFilter_loss_of_buttons_witness :
    ∃ s' result,
      eventFilter exampleEnvironment
          { exampleSession with
            m_trackedObject := some 7
            m_contexts := [GesturesContext.GenericContext]
            m_steps := [GestureStep.ofButton EventType.MouseButtonPress Qt.RightButton
              KeyboardModifiers.NoModifier]
            m_events := [⟨1, exampleEvent EventType.MouseButtonPress Qt.RightButton 2 5 5⟩] }
          (exampleEvent EventType.MouseButtonRelease Qt.RightButton Qt.NoButton 5 5) 2
        = some (s', result)
        ∧ s'.m_steps = [] ∧ s'.m_events = [] ∧ s'.m_trackedObject = none :=
  eventFilter_loss_of_buttons exampleEnvironment
    { exampleSession with
      m_trackedObject := some 7
      m_contexts := [GesturesContext.GenericContext]
      m_steps := [GestureStep.ofButton EventType.MouseButtonPress Qt.RightButton
        KeyboardModifiers.NoModifier]
      m_events := [⟨1, exampleEvent EventType.MouseButtonPress Qt.RightButton 2 5 5⟩] }
    (exampleEvent EventType.MouseButtonRelease Qt.RightButton Qt.NoButton 5 5) 2
    (by simp) (Or.inr (Or.inl rfl)) rfl

/-! ## The empty step buffer -/

theorem calculateGesturesDifference_nil_of_ne_nil (steps : List GestureStep) (h : steps ≠ []) :
    calculateGesturesDifference [] steps = intMax := by
  unfold calculateGesturesDifference
  rw [if_pos]
  intro hlen
  exact h (List.length_eq_zero.1 hlen.symm)

theorem matchCandidateLoop_of_infinite (m_steps : List GestureStep) (l : List Candidate)
    (h : ∀ c ∈ l, candidateCost m_steps c = intMax) :
    matchCandidateLoop m_steps l ⟨0, intMax⟩ = .ok ⟨0, intMax⟩ := by
  induction l with
  | nil => rfl
  | cons c rest ih =>
    have hc : candidateCost m_steps c = intMax := h c (List.mem_cons_self _ _)
    have hne : ¬ intMax = 0 := by decide
    simp only [matchCandidateLoop, hc, hne, if_false, updateState, lt_irrefl]
    exact ih (fun x hx => h x (List.mem_cons_of_mem _ hx))

theorem createInstanceNativeGestures_ne_nil (c : GesturesContext) :
    ∀ g ∈ createInstanceNativeGestures c, g ≠ [] := by
  cases c <;> decide

theorem entryDefinition_steps_action (env : Environment) (enabled : Bool)
    (entry : QString × QString) (d : MouseGesture)
    (h : entryDefinition env enabled entry = some d) :
    d.steps ≠ [] ∧ (0 ≤ d.action ∨ d.action = NATIVE_GESTURE) := by
  have hsteps : (split ',' entry.1).map deserializeStep ≠ [] := by
    intro hnil
    exact split_ne_nil ',' entry.1 (List.map_eq_nil_iff.1 hnil)
  unfold entryDefinition at h
  simp only [] at h
  split_ifs at h with h1 h2 h3 h4 <;> simp only [Option.some.injEq, reduceCtorEq] at h
  · subst h
    exact ⟨hsteps, Or.inl h1⟩
  · subst h
    exact ⟨hsteps, Or.inr rfl⟩

/-- C27. An empty step buffer never resolves: every native sequence of
`createInstance` has at least one step; every definition that `loadProfiles`
puts in the table has at least one step and, `ContextMenuAction` being a
non-negative identifier, an action that is a non-negative identifier or
`NATIVE_GESTURE`; hence `matchGesture` on the empty step buffer returns
`UNKNOWN_GESTURE` for every profile configuration and every active context
list. -/
theorem empty_buffer_unresolved (env : Environment) (areMouseGesturesEnabled : Bool)
    (gestureProfiles : List Profile) :
    (∀ c, ∀ g ∈ createInstanceNativeGestures c, g ≠ []) ∧
    (∀ c, ∀ d ∈ (loadProfiles env areMouseGesturesEnabled gestureProfiles).value c,
      d.steps ≠ [] ∧ (0 ≤ env.ContextMenuAction → 0 ≤ d.action ∨ d.action = NATIVE_GESTURE)) ∧
    (∀ m_contexts : List GesturesContext,
      matchGesture createInstanceNativeGestures
        (loadProfiles env areMouseGesturesEnabled gestureProfiles).value m_contexts []
        = UNKNOWN_GESTURE) := by
  have htable : ∀ c, ∀ d ∈ (loadProfiles env areMouseGesturesEnabled gestureProfiles).value c,
      d.steps ≠ [] ∧ (0 ≤ env.ContextMenuAction → 0 ≤ d.action ∨ d.action = NATIVE_GESTURE) := by
    intro c d hd
    rw [loadProfiles_value, List.mem_append] at hd
    rcases hd with hd | hd
    · split_ifs at hd
      · have hd' : d = contextMenuGestureDefinition env := by simpa using hd
        subst hd'
        exact ⟨by simp [contextMenuGestureDefinition], fun h => Or.inl h⟩
      · simp at hd
    · obtain ⟨_, _, _, _, _, _, entry, _, he⟩ :=
        (mem_profileDefinitions env areMouseGesturesEnabled gestureProfiles c d).1 hd
      have := entryDefinition_steps_action env areMouseGesturesEnabled entry d he
      exact ⟨this.1, fun _ => this.2⟩
  refine ⟨createInstanceNativeGestures_ne_nil, htable, ?_⟩
  intro m_contexts
  unfold matchGesture
  rw [matchContextLoop_eq, matchCandidateLoop_of_infinite]
  · decide
  · intro x hx
    unfold candidates at hx
    rw [List.mem_flatMap] at hx
    obtain ⟨c, _, hx⟩ := hx
    rw [List.mem_append, List.mem_map, List.mem_map] at hx
    unfold candidateCost
    apply calculateGesturesDifference_nil_of_ne_nil
    rcases hx with ⟨g, hg, rfl⟩ | ⟨d, hd, rfl⟩
    · exact createInstanceNativeGestures_ne_nil c g hg
    · exact (htable c d hd).1

theorem empty_buffer_unresolved_witness :
    (∀ g ∈ createInstanceNativeGestures GesturesContext.GenericContext, g ≠ []) ∧
    matchGesture createInstanceNativeGestures
        (loadProfiles exampleEnvironment true
          [exampleProfile "Generic" "pressLeft,moveLeft" "GoBack"]).value
        [GesturesContext.GenericContext, GesturesContext.LinkContext] []
      = UNKNOWN_GESTURE :=
  ⟨(empty_buffer_unresolved exampleEnvironment true
      [exampleProfile "Generic" "pressLeft,moveLeft" "GoBack"]).1 GesturesContext.GenericContext,
    (empty_buffer_unresolved exampleEnvironment true
      [exampleProfile "Generic" "pressLeft,moveLeft" "GoBack"]).2.2
      [GesturesContext.GenericContext, GesturesContext.LinkContext]⟩

/-! ## The collapse against the modifier tolerance -/

theorem stepDifference_eq_penalties (count j : Nat) (s m : GestureStep) (d : Int)
    (h : stepDifference count j s m = some d) :
    d = collapsePenalty count j s m + tolerancePenalty s m := by
  rw [stepDifference_closed] at h
  split_ifs at h
  simp only [Option.some.injEq] at h
  exact h.symm

theorem tolerancePenalty_bounds (s m : GestureStep) :
    0 ≤ tolerancePenalty s m ∧ tolerancePenalty s m ≤ 15 := by
  unfold tolerancePenalty
  split_ifs
  · exact ⟨modifierWeight_nonneg _ _, modifierWeight_le _ _⟩
  · exact ⟨by decide, by decide⟩

theorem collapsePenalty_eq (count j : Nat) (s m : GestureStep) :
    collapsePenalty count j s m = if j = count - 1 ∧ collapseCondition s m then 100 else 0 := by
  unfold collapsePenalty collapseCondition
  rfl

theorem matchesThroughCollapse_iff (m_steps steps : List GestureStep) :
    matchesThroughCollapse m_steps steps ↔
      ∃ s m, steps.getLast? = some s ∧ m_steps.getLast? = some m ∧ collapseCondition s m := by
  unfold matchesThroughCollapse
  cases hs : steps.getLast? with
  | none => simp
  | some s =>
    cases hm : m_steps.getLast? with
    | none => simp
    | some m => simp

theorem differenceLoop_le_of_not_collapse (count : Nat) (steps : List GestureStep) :
    ∀ (m_steps : List GestureStep) (j : Nat) (acc : Int),
      steps.length = m_steps.length → count = j + steps.length →
      ¬ matchesThroughCollapse m_steps steps →
      differenceLoop count j steps m_steps acc = intMax
        ∨ differenceLoop count j steps m_steps acc ≤ acc + 15 * steps.length := by
  induction steps with
  | nil =>
    intro m_steps j acc _ _ _
    right
    simp [differenceLoop]
  | cons s steps ih =>
    intro m_steps j acc hlen hcount hnot
    cases m_steps with
    | nil => simp at hlen
    | cons m m_steps =>
      have hlen' : steps.length = m_steps.length := by simpa using hlen
      rw [differenceLoop]
      cases hd : stepDifference count j s m with
      | none => exact Or.inl rfl
      | some d =>
        simp only []
        have hdeq := stepDifference_eq_penalties count j s m d hd
        have htol := tolerancePenalty_bounds s m
        have hcol : collapsePenalty count j s m = 0 := by
          rw [collapsePenalty_eq]
          apply if_neg
          rintro ⟨hj, hc⟩
          apply hnot
          rw [matchesThroughCollapse_iff]
          have hsteps : steps = [] := by
            apply List.length_eq_zero.1
            simp only [List.length_cons] at hcount
            omega
          have hm : m_steps = [] := by
            apply List.length_eq_zero.1
            rw [← hlen', hsteps]
            rfl
          subst hsteps hm
          exact ⟨s, m, rfl, rfl, hc⟩
        have hnot' : ¬ matchesThroughCollapse m_steps steps := by
          rw [matchesThroughCollapse_iff]
          rintro ⟨s', m', h1, h2, h3⟩
          apply hnot
          rw [matchesThroughCollapse_iff]
          refine ⟨s', m', ?_, ?_, h3⟩
          · cases steps with
            | nil => simp at h1
            | cons a l => simpa [List.getLast?_cons_cons] using h1
          · cases m_steps with
            | nil => simp at h2
            | cons a l => simpa [List.getLast?_cons_cons] using h2
        rcases ih m_steps (j + 1) (acc + d) hlen' (by simp only [List.length_cons] at hcount; omega)
          hnot' with h | h
        · exact Or.inl h
        · right
          simp only [List.length_cons, Nat.cast_add, Nat.cast_one]
          omega

theorem differenceLoop_ge_of_collapse (count : Nat) (steps : List GestureStep) :
    ∀ (m_steps : List GestureStep) (j : Nat) (acc : Int),
      steps.length = m_steps.length → count = j + steps.length →
      matchesThroughCollapse m_steps steps →
      differenceLoop count j steps m_steps acc = intMax
        ∨ acc + 100 ≤ differenceLoop count j steps m_steps acc := by
  induction steps with
  | nil =>
    intro m_steps j acc _ _ h
    rw [matchesThroughCollapse_iff] at h
    obtain ⟨s, m, h1, _, _⟩ := h
    simp at h1
  | cons s steps ih =>
    intro m_steps j acc hlen hcount hcollapse
    rw [matchesThroughCollapse_iff] at hcollapse
    cases m_steps with
    | nil => simp at hlen
    | cons m m_steps =>
      have hlen' : steps.length = m_steps.length := by simpa using hlen
      rw [differenceLoop]
      cases hd : stepDifference count j s m with
      | none => exact Or.inl rfl
      | some d =>
        simp only []
        have hdeq := stepDifference_eq_penalties count j s m d hd
        have htol := tolerancePenalty_bounds s m
        cases steps with
        | nil =>
          have hm : m_steps = [] := List.length_eq_zero.1 hlen'.symm
          subst hm
          obtain ⟨s', m', h1, h2, h3⟩ := hcollapse
          simp only [List.getLast?_singleton, Option.some.injEq] at h1 h2
          subst h1 h2
          have hcol : collapsePenalty count j s m = 100 := by
            rw [collapsePenalty_eq]
            apply if_pos
            simp only [List.length_singleton] at hcount
            exact ⟨by omega, h3⟩
          right
          simp only [differenceLoop]
          omega
        | cons a l =>
          cases m_steps with
          | nil => simp at hlen'
          | cons a' l' =>
            have hcollapse' : matchesThroughCollapse (a' :: l') (a :: l) := by
              rw [matchesThroughCollapse_iff]
              obtain ⟨s', m', h1, h2, h3⟩ := hcollapse
              exact ⟨s', m', by simpa [List.getLast?_cons_cons] using h1,
                by simpa [List.getLast?_cons_cons] using h2, h3⟩
            have hcol : 0 ≤ collapsePenalty count j s m := by
              rw [collapsePenalty_eq]
              split_ifs <;> decide
            rcases ih (a' :: l') (j + 1) (acc + d) hlen'
              (by simp only [List.length_cons] at hcount ⊢; omega) hcollapse' with h | h
            · exact Or.inl h
            · right
              omega

/-- C26, as stated, fails: against a buffer of six `Press(Left)` steps and a
final `DoubleClick(Left)`, all with shift, ctrl, alt and meta held, the
candidate without modifiers matches through the modifier tolerance alone at
cost 105, while the candidate that ends with `Press(Left)` and carries the same
modifiers matches through the double-click collapse at cost 100. -/
theorem collapse_can_cost_less :
    ¬ (∀ m_steps tolerant collapsed : List GestureStep,
        calculateGesturesDifference m_steps tolerant < intMax →
        calculateGesturesDifference m_steps collapsed < intMax →
        matchesThroughCollapse m_steps collapsed → ¬ matchesThroughCollapse m_steps tolerant →
        calculateGesturesDifference m_steps tolerant
          < calculateGesturesDifference m_steps collapsed) := by
  intro h
  have h1 := h
    (List.replicate 6 (GestureStep.ofButton EventType.MouseButtonPress Qt.LeftButton
        ⟨true, true, true, true⟩)
      ++ [GestureStep.ofButton EventType.MouseButtonDblClick Qt.LeftButton
        ⟨true, true, true, true⟩])
    (List.replicate 6 (GestureStep.ofButton EventType.MouseButtonPress Qt.LeftButton
        KeyboardModifiers.NoModifier)
      ++ [GestureStep.ofButton EventType.MouseButtonDblClick Qt.LeftButton
        KeyboardModifiers.NoModifier])
    (List.replicate 6 (GestureStep.ofButton EventType.MouseButtonPress Qt.LeftButton
        ⟨true, true, true, true⟩)
      ++ [GestureStep.ofButton EventType.MouseButtonPress Qt.LeftButton
        ⟨true, true, true, true⟩])
    (by decide) (by decide) (by decide) (by decide)
  revert h1
  decide

/-- C26, amended. For every step buffer and every two candidates of finite
cost against it, one matching through the double-click collapse and the other
without it: the collapsed candidate costs at least 100 and the other at most 15
per step, so for a buffer of at most six steps the candidate that does not
collapse has the strictly lower cost. -/
theorem collapse_is_last_resort (m_steps tolerant collapsed : List GestureStep)
    (htolerant : calculateGesturesDifference m_steps tolerant < intMax)
    (hcollapsed : calculateGesturesDifference m_steps collapsed < intMax)
    (hthrough : matchesThroughCollapse m_steps collapsed)
    (hwithout : ¬ matchesThroughCollapse m_steps tolerant) :
    100 ≤ calculateGesturesDifference m_steps collapsed
      ∧ calculateGesturesDifference m_steps tolerant ≤ 15 * m_steps.length
      ∧ (m_steps.length ≤ 6 →
        calculateGesturesDifference m_steps tolerant
          < calculateGesturesDifference m_steps collapsed) := by
  have hlow : 100 ≤ calculateGesturesDifference m_steps collapsed := by
    unfold calculateGesturesDifference at hcollapsed ⊢
    split_ifs at hcollapsed ⊢ with hlen
    · exact absurd hcollapsed (lt_irrefl _)
    · rcases differenceLoop_ge_of_collapse collapsed.length collapsed m_steps 0 0
        (not_not.1 hlen).symm (by omega) hthrough with h | h
      · rw [h] at hcollapsed
        exact absurd hcollapsed (lt_irrefl _)
      · omega
  have hup : calculateGesturesDifference m_steps tolerant ≤ 15 * m_steps.length := by
    unfold calculateGesturesDifference at htolerant ⊢
    split_ifs at htolerant ⊢ with hlen
    · exact absurd htolerant (lt_irrefl _)
    · rcases differenceLoop_le_of_not_collapse tolerant.length tolerant m_steps 0 0
        (not_not.1 hlen).symm (by omega) hwithout with h | h
      · rw [h] at htolerant
        exact absurd htolerant (lt_irrefl _)
      · rw [not_not.1 hlen]
        omega
  refine ⟨hlow, hup, ?_⟩
  intro h6
  have : (15 : Int) * m_steps.length ≤ 90 := by
    have : (m_steps.length : Int) ≤ 6 := by exact_mod_cast h6
    omega
  omega

theorem collapse_is_last_resort_witness :
    calculateGesturesDifference
        [GestureStep.ofButton EventType.MouseButtonDblClick Qt.LeftButton
          ⟨true, true, true, true⟩]
        [GestureStep.ofButton EventType.MouseButtonDblClick Qt.LeftButton
          KeyboardModifiers.NoModifier]
      < calculateGesturesDifference
        [GestureStep.ofButton EventType.MouseButtonDblClick Qt.LeftButton
          ⟨true, true, true, true⟩]
        [GestureStep.ofButton EventType.MouseButtonPress Qt.LeftButton
          ⟨true, true, true, true⟩] :=
  (collapse_is_last_resort
    [GestureStep.ofButton EventType.MouseButtonDblClick Qt.LeftButton ⟨true, true, true, true⟩]
    [GestureStep.ofButton EventType.MouseButtonDblClick Qt.LeftButton
      KeyboardModifiers.NoModifier]
    [GestureStep.ofButton EventType.MouseButtonPress Qt.LeftButton ⟨true, true, true, true⟩]
    (by decide) (by decide) (by decide) (by decide)).2.2 (by decide)

/-! ## Pointer moves that do not resolve -/

theorem eventFilterFinish_of_held (event : QInputEvent) (mouseEvent : Bool) (s : Session)
    (gesture : Int) (h : event.buttons ≠ Qt.NoButton) :
    (eventFilterFinish event mouseEvent (s, gesture)).1 = s := by
  simp [eventFilterFinish, h]

theorem eventFilterMove_no_commit (env : Environment) (s : Session) (event : QInputEvent)
    (fresh : Nat)
    (h : calculateLastMoveDistance (s.m_events ++ [(⟨fresh, event⟩ : QEventPtr)]) false
          < env.startDragDistance
      ∨ matchGesture s.m_nativeGestures s.m_gestures.value s.m_contexts
          (s.m_steps ++ [GestureStep.ofDirection EventType.MouseMove
            MouseAction.UnknownMouseAction event.modifiers]) = UNKNOWN_GESTURE) :
    ∃ s' gesture, eventFilterMove env s event fresh = some (s', gesture)
      ∧ s'.m_steps = s.m_steps
      ∧ s'.m_events = s.m_events ++ [(⟨fresh, event⟩ : QEventPtr)] := by
  unfold eventFilterMove
  simp only []
  cases hr : s.m_recognizer <;>
    simp only [Session.matchGesture] <;>
    split_ifs with h1 h2 <;>
    first
    | exact ⟨_, _, rfl, rfl, rfl⟩
    | exact ⟨_, _, rfl, List.dropLast_concat, rfl⟩
    | (exfalso
       rcases h with h | h
       · omega
       · exact h2 h)

/-- C24. A pointer-move event with a button held that does not resolve commits
no step: when the accumulated movement is below the drag threshold, or
`matchGesture` on the buffer extended by the placeholder Move step returns
`UNKNOWN_GESTURE`, `eventFilter` leaves the step buffer as it was and appends
the raw event to the event buffer. -/
theorem eventFilter_move_commits_no_step (env : Environment) (s : Session)
    (event : QInputEvent) (fresh : Nat) (htype : event.type = EventType.MouseMove)
    (hheld : event.buttons ≠ Qt.NoButton)
    (h : calculateLastMoveDistance (s.m_events ++ [(⟨fresh, event⟩ : QEventPtr)]) false
          < env.startDragDistance
      ∨ matchGesture s.m_nativeGestures s.m_gestures.value s.m_contexts
          (s.m_steps ++ [GestureStep.ofDirection EventType.MouseMove
            MouseAction.UnknownMouseAction event.modifiers]) = UNKNOWN_GESTURE) :
    ∃ s' result, eventFilter env s event fresh = some (s', result)
      ∧ s'.m_steps = s.m_steps
      ∧ s'.m_events = s.m_events ++ [(⟨fresh, event⟩ : QEventPtr)] := by
  obtain ⟨s₁, g, heq, hsteps, hevents⟩ := eventFilterMove_no_commit env s event fresh h
  refine ⟨(eventFilterFinish event true (s₁, g)).1, (eventFilterFinish event true (s₁, g)).2,
    ?_, ?_, ?_⟩
  · unfold eventFilter
    rw [htype]
    simp only [heq, Option.map_some']
  · rw [eventFilterFinish_of_held event true s₁ g hheld, hsteps]
  · rw [eventFilterFinish_of_held event true s₁ g hheld, hevents]

theorem eventFilter_move_commits_no_step_witness :
    ∃ s' result,
      eventFilter exampleEnvironment
          { exampleSession with
            m_trackedObject := some 7
            m_contexts := [GesturesContext.GenericContext]
            m_steps := [GestureStep.ofButton EventType.MouseButtonPress Qt.RightButton
              KeyboardModifiers.NoModifier]
            m_events := [⟨1, exampleEvent EventType.MouseButtonPress Qt.RightButton 2 50 5⟩,
              ⟨2, exampleEvent EventType.MouseMove Qt.NoButton 2 45 5⟩] }
          (exampleEvent EventType.MouseMove Qt.NoButton 2 10 5) 3 = some (s', result)
        ∧ s'.m_steps = [GestureStep.ofButton EventType.MouseButtonPress Qt.RightButton
            KeyboardModifiers.NoModifier]
        ∧ s'.m_events = [⟨1, exampleEvent EventType.MouseButtonPress Qt.RightButton 2 50 5⟩,
              ⟨2, exampleEvent EventType.MouseMove Qt.NoButton 2 45 5⟩]
            ++ [⟨3, exampleEvent EventType.MouseMove Qt.NoButton 2 10 5⟩] :=
  eventFilter_move_commits_no_step exampleEnvironment
    { exampleSession with
      m_trackedObject := some 7
      m_contexts := [GesturesContext.GenericContext]
      m_steps := [GestureStep.ofButton EventType.MouseButtonPress Qt.RightButton
        KeyboardModifiers.NoModifier]
      m_events := [⟨1, exampleEvent EventType.MouseButtonPress Qt.RightButton 2 50 5⟩,
        ⟨2, exampleEvent EventType.MouseMove Qt.NoButton 2 45 5⟩] }
    (exampleEvent EventType.MouseMove Qt.NoButton 2 10 5) 3 rfl (by decide)
    (Or.inr (by decide))

/-! ## Releases while a triggered gesture unwinds -/

theorem eventFilterButton_eq_of_new (env : Environment) (s : Session) (event : QInputEvent)
    (fresh : Nat) (hrep : isRepeatedEvent s event = false)
    (hscroll : ¬ (s.m_afterScroll = true ∧ event.type = EventType.MouseButtonRelease)) :
    eventFilterButton env s event fresh
      = (triggerAction env (buttonCaseBeforeMatch env s event fresh).matchGesture.2
          (buttonCaseBeforeMatch env s event fresh).matchGesture.1).map
        (buttonCaseAfterTrigger (buttonCaseBeforeMatch env s event fresh).matchGesture.1) := by
  unfold isRepeatedEvent at hrep
  unfold eventFilterButton
  simp only [hrep, Bool.false_eq_true, if_false, hscroll]
  unfold buttonCaseBeforeMatch buttonCaseAfterTrigger
  simp only []
  split <;> rename_i heq <;> rw [heq] <;> rfl

theorem eventFilterButton_eq_of_absorbed (env : Environment) (s : Session) (event : QInputEvent)
    (fresh : Nat)
    (h : isRepeatedEvent s event = true
      ∨ (s.m_afterScroll = true ∧ event.type = EventType.MouseButtonRelease)) :
    ∃ s', eventFilterButton env s event fresh = some (s', UNKNOWN_GESTURE)
      ∧ s'.effects = s.effects ∧ s'.m_isReleasing = s.m_isReleasing := by
  unfold isRepeatedEvent at h
  unfold eventFilterButton
  simp only []
  split_ifs with h1 h2 h3
  all_goals
    first
    | exact ⟨_, rfl, rfl, rfl⟩
    | (exfalso
       rcases h with h | h
       · exact h1 h
       · exact h2 h)

theorem removeButtonSteps_append (button : MouseButton) (l₁ : List GestureStep) :
    ∀ l₂ : List GestureStep,
      removeButtonSteps button l₁.length (l₁ ++ l₂)
        = l₁.filter (fun s => decide (s.button ≠ button)) ++ l₂ := by
  induction l₁ using List.reverseRecOn with
  | nil => intro l₂; simp [removeButtonSteps]
  | append_singleton l x ih =>
    intro l₂
    have hget : (l ++ x :: l₂).get? l.length = some x := by
      rw [List.get?_eq_getElem?, List.getElem?_append_right (le_refl _)]
      simp
    have herase : (l ++ x :: l₂).eraseIdx l.length = l ++ l₂ := by
      rw [List.eraseIdx_append_of_length_le (le_refl _)]
      simp
    simp only [List.length_append, List.length_singleton, List.append_assoc,
      List.singleton_append, removeButtonSteps, hget, Option.map_some', Option.some.injEq,
      List.filter_append]
    by_cases hb : x.button = button
    · rw [if_pos hb, herase, ih l₂]
      simp [hb]
    · rw [if_neg hb, ih (x :: l₂)]
      simp [hb]

theorem removeButtonSteps_length (button : MouseButton) (l : List GestureStep) :
    removeButtonSteps button l.length l = l.filter (fun s => decide (s.button ≠ button)) := by
  have h := removeButtonSteps_append button l []
  simpa using h

theorem ofEvent_button_of_release (event : QInputEvent)
    (htype : event.type = EventType.MouseButtonRelease) :
    (GestureStep.ofEvent event).button = event.button := by
  unfold GestureStep.ofEvent
  rw [htype]

theorem recognizeMoveStep_of_closed (env : Environment) (s : Session) (event : QInputEvent)
    (hrec : s.m_recognizer = none) : recognizeMoveStep env s event = s := by
  unfold recognizeMoveStep
  rw [hrec]

theorem recognizeMoveStep_frame (env : Environment) (s : Session) (event : QInputEvent) :
    (recognizeMoveStep env s event).m_isReleasing = s.m_isReleasing
      ∧ (recognizeMoveStep env s event).effects = s.effects
      ∧ (recognizeMoveStep env s event).m_events = s.m_events
      ∧ (recognizeMoveStep env s event).m_nativeGestures = s.m_nativeGestures
      ∧ (recognizeMoveStep env s event).m_gestures.value = s.m_gestures.value
      ∧ (recognizeMoveStep env s event).m_contexts = s.m_contexts := by
  unfold recognizeMoveStep
  cases s.m_recognizer <;> exact ⟨rfl, rfl, rfl, rfl, rfl, rfl⟩

theorem buttonCaseBeforeMatch_of_releasing (env : Environment) (s : Session)
    (event : QInputEvent) (fresh : Nat) (hrel : s.m_isReleasing = true)
    (hrec : s.m_recognizer = none) (htype : event.type = EventType.MouseButtonRelease) :
    buttonCaseBeforeMatch env s event fresh
      = { s with
          m_events := s.m_events ++ [(⟨fresh, event⟩ : QEventPtr)]
          m_lastPosition := event.pos
          m_lastClick := event.pos
          m_steps := s.m_steps.filter (fun step => decide (step.button ≠ event.button))
          m_recognizer := none } := by
  cases s
  simp only at hrel hrec
  subst hrel hrec
  simp only [buttonCaseBeforeMatch, recognizeMoveStep, htype, and_self, if_true,
    removeButtonSteps_length, List.filter_append]
  simp [ofEvent_button_of_release event htype]

theorem cancelGesture_frame (s : Session) :
    (cancelGesture s).m_isReleasing = s.m_isReleasing
      ∧ ∃ added, (cancelGesture s).effects = s.effects ++ added
          ∧ added.any Effect.isResolution = false := by
  unfold cancelGesture releaseObject
  cases s.m_trackedObject with
  | none => exact ⟨rfl, [], by simp, rfl⟩
  | some object =>
    exact ⟨rfl, [Effect.removeEventFilter object, Effect.disconnectDestroyed object], rfl, rfl⟩

theorem eventFilterFinish_frame (event : QInputEvent) (mouseEvent : Bool)
    (r : Session × Int) :
    (eventFilterFinish event mouseEvent r).1.m_isReleasing = r.1.m_isReleasing
      ∧ ∃ added, (eventFilterFinish event mouseEvent r).1.effects = r.1.effects ++ added
          ∧ added.any Effect.isResolution = false := by
  unfold eventFilterFinish
  simp only []
  split_ifs
  · exact cancelGesture_frame r.1
  · exact ⟨rfl, [], by simp, rfl⟩

theorem triggerAction_of_unknown (env : Environment) (s : Session) :
    triggerAction env s UNKNOWN_GESTURE = some (s, false) := by
  simp [triggerAction]

theorem triggerAction_resolves (env : Environment) (s : Session) (object : QObjectPtr)
    (gesture : Int) (ht : s.m_trackedObject = some object) (hg : gesture ≠ UNKNOWN_GESTURE)
    (hev : s.m_events ≠ []) :
    ∃ s' added, triggerAction env s gesture = some (s', true)
      ∧ s'.effects = s.effects ++ added ∧ added.any Effect.isResolution = true := by
  by_cases hn : gesture = NATIVE_GESTURE
  · subst hn
    rw [triggerAction_of_native env s object ht]
    refine ⟨_, [Effect.removeEventFilter object] ++ s.m_events.map (Effect.sendEvent object)
      ++ [Effect.removeEventFilter object, Effect.disconnectDestroyed object], rfl, ?_, ?_⟩
    · simp [cancelGesture, releaseObject, ht]
    · obtain ⟨e, es, he⟩ := List.exists_cons_of_ne_nil hev
      simp [he, Effect.isResolution]
  · unfold triggerAction
    rw [if_neg hg, ht]
    simp only [hn, if_false, ht]
    by_cases hc : gesture = env.ContextMenuAction
    · rw [if_pos hc]
      exact ⟨_, [Effect.removeEventFilter object,
        Effect.sendContextMenuEvent object s.m_lastPosition,
        Effect.installEventFilter object], rfl, by simp, by simp [Effect.isResolution]⟩
    · rw [if_neg hc]
      exact ⟨_, [Effect.removeEventFilter object,
        Effect.triggerAction gesture object s.m_paramaters,
        Effect.installEventFilter object], rfl, by simp, by simp [Effect.isResolution]⟩

theorem buttonCaseBeforeMatch_frame (env : Environment) (s : Session) (event : QInputEvent)
    (fresh : Nat) :
    (buttonCaseBeforeMatch env s event fresh).effects = s.effects
      ∧ (buttonCaseBeforeMatch env s event fresh).m_events
          = s.m_events ++ [(⟨fresh, event⟩ : QEventPtr)]
      ∧ (buttonCaseBeforeMatch env s event fresh).m_trackedObject = s.m_trackedObject
      ∧ (buttonCaseBeforeMatch env s event fresh).m_nativeGestures = s.m_nativeGestures
      ∧ (buttonCaseBeforeMatch env s event fresh).m_gestures.value = s.m_gestures.value
      ∧ (buttonCaseBeforeMatch env s event fresh).m_contexts = s.m_contexts := by
  unfold buttonCaseBeforeMatch
  simp only []
  split_ifs <;>
    simp only [(recognizeMoveStep_frame env _ event).2.1, (recognizeMoveStep_frame env _ event).2.2.1,
      (recognizeMoveStep_frame env _ event).2.2.2.1, (recognizeMoveStep_frame env _ event).2.2.2.2.1,
      (recognizeMoveStep_frame env _ event).2.2.2.2.2, recognizeMoveStep_trackedObject,
      and_self]

theorem buttonCaseBeforeMatch_isReleasing (env : Environment) (s : Session)
    (event : QInputEvent) (fresh : Nat) (hrel : s.m_isReleasing = true)
    (htype : event.type = EventType.MouseButtonRelease) :
    (buttonCaseBeforeMatch env s event fresh).m_isReleasing = true
      ∧ ∀ step ∈ (buttonCaseBeforeMatch env s event fresh).m_steps,
          step.button ≠ event.button := by
  unfold buttonCaseBeforeMatch
  simp only []
  rw [if_pos ⟨by rw [(recognizeMoveStep_frame env _ event).1]; exact hrel, htype⟩]
  refine ⟨by rw [(recognizeMoveStep_frame env _ event).1]; exact hrel, ?_⟩
  intro step hstep
  simp only [removeButtonSteps_length, List.mem_filter, decide_eq_true_eq] at hstep
  exact hstep.2

theorem triggerAction_isReleasing (env : Environment) (s s' : Session) (gesture : Int)
    (b : Bool) (h : triggerAction env s gesture = some (s', b)) :
    s'.m_isReleasing = s.m_isReleasing := by
  by_cases hu : gesture = UNKNOWN_GESTURE
  · unfold triggerAction at h
    rw [if_pos hu] at h
    simp only [Option.some.injEq, Prod.mk.injEq] at h
    rw [← h.1]
  · cases ht : s.m_trackedObject with
    | none =>
      unfold triggerAction at h
      rw [if_neg hu, ht] at h
      simp at h
    | some object =>
      by_cases hn : gesture = NATIVE_GESTURE
      · rw [hn, triggerAction_of_native env s object ht] at h
        simp only [Option.some.injEq, Prod.mk.injEq] at h
        rw [← h.1]
        exact (cancelGesture_frame _).1
      · unfold triggerAction at h
        rw [if_neg hu, ht] at h
        simp only [hn, if_false, ht] at h
        by_cases hc : gesture = env.ContextMenuAction
        · simp only [hc, if_true, Option.some.injEq, Prod.mk.injEq] at h
          rw [← h.1]
        · simp only [hc, if_false, Option.some.injEq, Prod.mk.injEq] at h
          rw [← h.1]

theorem buttonCaseAfterTrigger_isReleasing (gesture : Int) (r : Session × Bool)
    (h : r.1.m_isReleasing = true) :
    (buttonCaseAfterTrigger gesture r).1.m_isReleasing = true := by
  unfold buttonCaseAfterTrigger
  cases hr : r.2 <;> simp [h]

/-- C23. Unwinding: when `m_isReleasing` is set, no recognizer is open,
`m_afterScroll` is clear and a release event for a button is processed that
does not repeat the last buffered event, the step buffer at the call of
`matchGesture()` is the previous step buffer without the steps of that button,
the other steps in their order and the release step itself not kept; the
gesture that `eventFilter` passes to `triggerAction` is the match on that
buffer; and `m_isReleasing` is set at the call and in the session that
`eventFilter` returns, which it does whenever a target is tracked. -/
theorem release_unwinds_button (env : Environment) (s : Session) (event : QInputEvent)
    (fresh : Nat) (hrel : s.m_isReleasing = true) (hrec : s.m_recognizer = none)
    (htype : event.type = EventType.MouseButtonRelease)
    (hnew : isRepeatedEvent s event = false) (hscroll : s.m_afterScroll = false) :
    (buttonCaseBeforeMatch env s event fresh).m_steps
        = s.m_steps.filter (fun step => decide (step.button ≠ event.button))
      ∧ (buttonCaseBeforeMatch env s event fresh).m_isReleasing = true
      ∧ eventFilterButton env s event fresh
          = (triggerAction env (buttonCaseBeforeMatch env s event fresh).matchGesture.2
              (matchGesture s.m_nativeGestures s.m_gestures.value s.m_contexts
                (s.m_steps.filter (fun step => decide (step.button ≠ event.button))))).map
            (buttonCaseAfterTrigger
              (matchGesture s.m_nativeGestures s.m_gestures.value s.m_contexts
                (s.m_steps.filter (fun step => decide (step.button ≠ event.button)))))
      ∧ (∀ s' result, eventFilter env s event fresh = some (s', result)
          → s'.m_isReleasing = true)
      ∧ (s.m_trackedObject ≠ none
          → ∃ s' result, eventFilter env s event fresh = some (s', result)) := by
  have hB := buttonCaseBeforeMatch_of_releasing env s event fresh hrel hrec htype
  have hbtn := eventFilterButton_eq_of_new env s event fresh hnew (by simp [hscroll])
  have hg : (buttonCaseBeforeMatch env s event fresh).matchGesture.1
      = matchGesture s.m_nativeGestures s.m_gestures.value s.m_contexts
          (s.m_steps.filter (fun step => decide (step.button ≠ event.button))) := by
    rw [hB]
    rfl
  have hfilter : eventFilter env s event fresh
      = (eventFilterButton env s event fresh).map (eventFilterFinish event true) := by
    unfold eventFilter
    rw [htype]
  refine ⟨by rw [hB], by rw [hB]; exact hrel, by rw [hbtn, hg], ?_, ?_⟩
  · intro s' result h
    rw [hfilter, hbtn] at h
    cases htr : triggerAction env (buttonCaseBeforeMatch env s event fresh).matchGesture.2
        (buttonCaseBeforeMatch env s event fresh).matchGesture.1 with
    | none =>
      rw [htr] at h
      simp at h
    | some r =>
      rw [htr] at h
      simp only [Option.map_some', Option.some.injEq] at h
      have hs : s' = (eventFilterFinish event true
          (buttonCaseAfterTrigger (buttonCaseBeforeMatch env s event fresh).matchGesture.1 r)).1 := by
        rw [h]
      rw [hs, (eventFilterFinish_frame event true _).1]
      apply buttonCaseAfterTrigger_isReleasing
      rw [triggerAction_isReleasing env _ r.1 _ r.2 htr]
      exact (buttonCaseBeforeMatch_isReleasing env s event fresh hrel htype).1
  · intro htracked
    obtain ⟨s₁, g, heq, _⟩ := eventFilterButton_tracked env s event fresh htracked
    rw [hfilter, heq]
    exact ⟨_, _, rfl⟩

theorem release_unwinds_button_witness :
    (buttonCaseBeforeMatch exampleEnvironment
        { exampleSession with
          m_trackedObject := some 7
          m_contexts := [GesturesContext.GenericContext]
          m_isReleasing := true
          m_steps := [GestureStep.ofButton EventType.MouseButtonPress Qt.RightButton
              KeyboardModifiers.NoModifier,
            GestureStep.ofButton EventType.MouseButtonPress Qt.LeftButton
              KeyboardModifiers.NoModifier,
            GestureStep.ofButton EventType.MouseButtonPress Qt.MiddleButton
              KeyboardModifiers.NoModifier,
            GestureStep.ofButton EventType.MouseButtonDblClick Qt.LeftButton
              KeyboardModifiers.NoModifier]
          m_events := [⟨1, exampleEvent EventType.MouseButtonPress Qt.RightButton 2 50 5⟩,
            ⟨2, exampleEvent EventType.MouseButtonDblClick Qt.LeftButton 7 50 5⟩] }
        (exampleEvent EventType.MouseButtonRelease Qt.LeftButton 6 50 5) 3).m_steps
      = [GestureStep.ofButton EventType.MouseButtonPress Qt.RightButton
            KeyboardModifiers.NoModifier,
          GestureStep.ofButton EventType.MouseButtonPress Qt.MiddleButton
            KeyboardModifiers.NoModifier] :=
  (release_unwinds_button exampleEnvironment
    { exampleSession with
      m_trackedObject := some 7
      m_contexts := [GesturesContext.GenericContext]
      m_isReleasing := true
      m_steps := [GestureStep.ofButton EventType.MouseButtonPress Qt.RightButton
          KeyboardModifiers.NoModifier,
        GestureStep.ofButton EventType.MouseButtonPress Qt.LeftButton
          KeyboardModifiers.NoModifier,
        GestureStep.ofButton EventType.MouseButtonPress Qt.MiddleButton
          KeyboardModifiers.NoModifier,
        GestureStep.ofButton EventType.MouseButtonDblClick Qt.LeftButton
          KeyboardModifiers.NoModifier]
      m_events := [⟨1, exampleEvent EventType.MouseButtonPress Qt.RightButton 2 50 5⟩,
        ⟨2, exampleEvent EventType.MouseButtonDblClick Qt.LeftButton 7 50 5⟩] }
    (exampleEvent EventType.MouseButtonRelease Qt.LeftButton 6 50 5) 3 rfl rfl rfl
    (by decide) rfl).1

theorem buttonCaseAfterTrigger_effects (gesture : Int) (r : Session × Bool) :
    (buttonCaseAfterTrigger gesture r).1.effects = r.1.effects := by
  unfold buttonCaseAfterTrigger
  cases hr : r.2 <;> simp

theorem eventFilter_eq_of_release (env : Environment) (s : Session) (event : QInputEvent)
    (fresh : Nat) (htype : event.type = EventType.MouseButtonRelease) :
    eventFilter env s event fresh
      = (eventFilterButton env s event fresh).map (eventFilterFinish event true) := by
  unfold eventFilter
  rw [htype]

/-- C22. A release processed while `m_isReleasing` is set triggers no
resolution when it is absorbed (it repeats the last buffered event, or
`m_afterScroll` is set) or when `matchGesture()` on the buffer left after the
steps of the released button were removed returns `UNKNOWN_GESTURE`; in these
cases `eventFilter` adds no replay, no context-menu request and no action call,
and `m_isReleasing` stays set. Otherwise, with a tracked target, the match on
the remaining buffer is triggered again: `eventFilter` adds a resolution
effect. The buffer that is matched holds no step of the released button. -/
theorem release_while_releasing (env : Environment) (s : Session) (event : QInputEvent)
    (fresh : Nat) (hrel : s.m_isReleasing = true)
    (htype : event.type = EventType.MouseButtonRelease) :
    ((isRepeatedEvent s event = true ∨ s.m_afterScroll = true
        ∨ (buttonCaseBeforeMatch env s event fresh).matchGesture.1 = UNKNOWN_GESTURE)
      → ∃ s' result added, eventFilter env s event fresh = some (s', result)
          ∧ s'.effects = s.effects ++ added ∧ added.any Effect.isResolution = false
          ∧ s'.m_isReleasing = true)
    ∧ (∀ object, s.m_trackedObject = some object → isRepeatedEvent s event = false
        → s.m_afterScroll = false
        → (buttonCaseBeforeMatch env s event fresh).matchGesture.1 ≠ UNKNOWN_GESTURE
        → ∃ s' result added, eventFilter env s event fresh = some (s', result)
            ∧ s'.effects = s.effects ++ added ∧ added.any Effect.isResolution = true)
    ∧ (∀ step ∈ (buttonCaseBeforeMatch env s event fresh).m_steps,
        step.button ≠ event.button)
    ∧ (isRepeatedEvent s event = false → s.m_afterScroll = false
        → eventFilterButton env s event fresh
          = (triggerAction env (buttonCaseBeforeMatch env s event fresh).matchGesture.2
              (buttonCaseBeforeMatch env s event fresh).matchGesture.1).map
            (buttonCaseAfterTrigger
              (buttonCaseBeforeMatch env s event fresh).matchGesture.1)) := by
  have hfilter := eventFilter_eq_of_release env s event fresh htype
  obtain ⟨heff, hev, htr, _⟩ := buttonCaseBeforeMatch_frame env s event fresh
  have hBrel := buttonCaseBeforeMatch_isReleasing env s event fresh hrel htype
  refine ⟨?_, ?_, hBrel.2, ?_⟩
  · intro h
    by_cases habs : isRepeatedEvent s event = true
        ∨ (s.m_afterScroll = true ∧ event.type = EventType.MouseButtonRelease)
    · obtain ⟨s₁, heq, heff₁, hr⟩ := eventFilterButton_eq_of_absorbed env s event fresh habs
      obtain ⟨hf1, added, hf2, hf3⟩ := eventFilterFinish_frame event true (s₁, UNKNOWN_GESTURE)
      refine ⟨(eventFilterFinish event true (s₁, UNKNOWN_GESTURE)).1,
        (eventFilterFinish event true (s₁, UNKNOWN_GESTURE)).2, added,
        by rw [hfilter, heq]; rfl, hf2.trans (congrArg (fun l => l ++ added) heff₁), hf3,
        hf1.trans (hr.trans hrel)⟩
    · have hrep : isRepeatedEvent s event = false := by
        cases hc : isRepeatedEvent s event
        · rfl
        · exact absurd (Or.inl hc) habs
      have hsc : ¬ (s.m_afterScroll = true ∧ event.type = EventType.MouseButtonRelease) :=
        fun hc => habs (Or.inr hc)
      have hm : (buttonCaseBeforeMatch env s event fresh).matchGesture.1 = UNKNOWN_GESTURE := by
        rcases h with h | h | h
        · rw [hrep] at h
          cases h
        · exact absurd ⟨h, htype⟩ hsc
        · exact h
      have hbtn := eventFilterButton_eq_of_new env s event fresh hrep hsc
      rw [hm, triggerAction_of_unknown] at hbtn
      simp only [Option.map_some'] at hbtn
      obtain ⟨hf1, added, hf2, hf3⟩ := eventFilterFinish_frame event true
        (buttonCaseAfterTrigger UNKNOWN_GESTURE
          ((buttonCaseBeforeMatch env s event fresh).matchGesture.2, false))
      refine ⟨(eventFilterFinish event true
          (buttonCaseAfterTrigger UNKNOWN_GESTURE
            ((buttonCaseBeforeMatch env s event fresh).matchGesture.2, false))).1,
        (eventFilterFinish event true
          (buttonCaseAfterTrigger UNKNOWN_GESTURE
            ((buttonCaseBeforeMatch env s event fresh).matchGesture.2, false))).2, added,
        by rw [hfilter, hbtn]; rfl, ?_, hf3, ?_⟩
      · rw [hf2, buttonCaseAfterTrigger_effects]
        exact congrArg (fun l => l ++ added) heff
      · rw [hf1]
        apply buttonCaseAfterTrigger_isReleasing
        exact hBrel.1
  · intro object htracked hrep hscroll hm
    have hsc : ¬ (s.m_afterScroll = true ∧ event.type = EventType.MouseButtonRelease) := by
      simp [hscroll]
    have hbtn := eventFilterButton_eq_of_new env s event fresh hrep hsc
    obtain ⟨s₂, added₁, htrig, he₁, hany₁⟩ := triggerAction_resolves env
      (buttonCaseBeforeMatch env s event fresh).matchGesture.2 object
      (buttonCaseBeforeMatch env s event fresh).matchGesture.1
      (htr.trans htracked) hm (by
        show (buttonCaseBeforeMatch env s event fresh).m_events ≠ []
        rw [hev]
        simp)
    rw [htrig] at hbtn
    simp only [Option.map_some'] at hbtn
    obtain ⟨_, added₂, hf2, _⟩ := eventFilterFinish_frame event true
      (buttonCaseAfterTrigger (buttonCaseBeforeMatch env s event fresh).matchGesture.1
        (s₂, true))
    refine ⟨(eventFilterFinish event true
        (buttonCaseAfterTrigger (buttonCaseBeforeMatch env s event fresh).matchGesture.1
          (s₂, true))).1,
      (eventFilterFinish event true
        (buttonCaseAfterTrigger (buttonCaseBeforeMatch env s event fresh).matchGesture.1
          (s₂, true))).2, added₁ ++ added₂, by rw [hfilter, hbtn]; rfl, ?_, ?_⟩
    · rw [hf2, buttonCaseAfterTrigger_effects, he₁]
      show (buttonCaseBeforeMatch env s event fresh).effects ++ added₁ ++ added₂ = _
      rw [heff, List.append_assoc]
    · rw [List.any_append, hany₁]
      rfl
  · intro hrep hscroll
    exact eventFilterButton_eq_of_new env s event fresh hrep (by simp [hscroll])

/-- C22, counterexample. Under Generic, `pressRight` is bound to GoBack (1) and
`pressRight,pressLeft` to GoForward (2). A session is started by a right press,
which triggers GoBack; a left press follows, which triggers GoForward and
leaves `m_isReleasing` set. The release of the left button then removes the
steps of the left button, the buffer left is the right press alone, and
`eventFilter` triggers GoBack again. -/
theorem release_retriggers_remaining_match :
    ((startGesture exampleEnvironment
        (exampleSessionOf [exampleProfile "Generic" "pressRight" "GoBack",
          exampleProfile "Generic" "pressRight,pressLeft" "GoForward"])
        (some 7) (some ⟨1, exampleEvent EventType.MouseButtonPress Qt.RightButton 2 50 5⟩)
        [GesturesContext.GenericContext] [] 2).bind fun r₁ =>
      (eventFilter exampleEnvironment r₁.1
        (exampleEvent EventType.MouseButtonPress Qt.LeftButton 3 50 5) 3).bind fun r₂ =>
        (eventFilter exampleEnvironment r₂.1
          (exampleEvent EventType.MouseButtonRelease Qt.LeftButton 2 50 5) 4).map fun r₃ =>
          (r₂.1.m_isReleasing, r₂.1.m_steps, r₃.1.effects.drop r₂.1.effects.length,
            r₃.1.m_steps))
      = some (true,
          [GestureStep.ofButton EventType.MouseButtonPress Qt.RightButton
              KeyboardModifiers.NoModifier,
            GestureStep.ofButton EventType.MouseButtonPress Qt.LeftButton
              KeyboardModifiers.NoModifier],
          [Effect.removeEventFilter 7, Effect.triggerAction 1 7 [],
            Effect.installEventFilter 7],
          [GestureStep.ofButton EventType.MouseButtonPress Qt.RightButton
              KeyboardModifiers.NoModifier]) := by
  decide

theorem release_while_releasing_witness :
    ∃ s' result added,
      eventFilter exampleEnvironment
          { exampleSessionOf [exampleProfile "Generic" "pressRight" "GoBack",
              exampleProfile "Generic" "pressRight,pressLeft" "GoForward"] with
            m_trackedObject := some 7
            m_contexts := [GesturesContext.GenericContext]
            m_isReleasing := true
            m_steps := [GestureStep.ofButton EventType.MouseButtonPress Qt.RightButton
                KeyboardModifiers.NoModifier,
              GestureStep.ofButton EventType.MouseButtonPress Qt.LeftButton
                KeyboardModifiers.NoModifier]
            m_events := [⟨2, exampleEvent EventType.MouseButtonPress Qt.RightButton 2 50 5⟩,
              ⟨3, exampleEvent EventType.MouseButtonPress Qt.LeftButton 3 50 5⟩] }
          (exampleEvent EventType.MouseButtonRelease Qt.LeftButton 2 50 5) 4
          = some (s', result)
        ∧ s'.effects = [] ++ added ∧ added.any Effect.isResolution = true :=
  (release_while_releasing exampleEnvironment
    { exampleSessionOf [exampleProfile "Generic" "pressRight" "GoBack",
        exampleProfile "Generic" "pressRight,pressLeft" "GoForward"] with
      m_trackedObject := some 7
      m_contexts := [GesturesContext.GenericContext]
      m_isReleasing := true
      m_steps := [GestureStep.ofButton EventType.MouseButtonPress Qt.RightButton
          KeyboardModifiers.NoModifier,
        GestureStep.ofButton EventType.MouseButtonPress Qt.LeftButton
          KeyboardModifiers.NoModifier]
      m_events := [⟨2, exampleEvent EventType.MouseButtonPress Qt.RightButton 2 50 5⟩,
        ⟨3, exampleEvent EventType.MouseButtonPress Qt.LeftButton 3 50 5⟩] }
    (exampleEvent EventType.MouseButtonRelease Qt.LeftButton 2 50 5) 4 rfl rfl).2.1
    7 rfl (by decide) rfl (by decide)

/-! ## The fallback of recognizeMoveStep -/

theorem recognizeMoveStep_steps (env : Environment) (s : Session) (event : QInputEvent)
    (recognizer : List RecognizerCall) (hrec : s.m_recognizer = some recognizer) :
    (recognizeMoveStep env s event).m_steps
      = if (s.m_steps ++ (recognizedMoves env s recognizer event).map
            (fun direction =>
              GestureStep.ofDirection EventType.MouseMove direction event.modifiers)).isEmpty
          ∧ calculateLastMoveDistance s.m_events true ≥ env.startDragDistance then
        (s.m_steps ++ (recognizedMoves env s recognizer event).map
            (fun direction =>
              GestureStep.ofDirection EventType.MouseMove direction event.modifiers))
          ++ [GestureStep.ofDirection EventType.MouseMove MouseAction.UnknownMouseAction
            event.modifiers]
      else
        s.m_steps ++ (recognizedMoves env s recognizer event).map
          (fun direction =>
            GestureStep.ofDirection EventType.MouseMove direction event.modifiers) := by
  unfold recognizeMoveStep
  rw [hrec]
  rfl

theorem recognizedMoves_of_none_registered (env : Environment) (s : Session)
    (recognizer : List RecognizerCall) (event : QInputEvent)
    (h : (moveRegistration env s recognizer).possibleMoves = []) :
    recognizedMoves env s recognizer event = [] := by
  unfold recognizedMoves
  simp only [h]
  rfl

/-- C25, counterexample. A session is started by a right press and two
pointer moves follow, the second 15 pixels from the first; no definition
matches, so the step buffer holds the press alone and the recognizer stays
open. In `recognizeMoveStep` no candidate registers and the last run of moves
reaches the drag distance of 10, but no step is appended. -/
theorem fallback_skipped_on_nonempty_buffer :
    ((startGesture exampleEnvironment exampleSession (some 7)
        (some ⟨1, exampleEvent EventType.MouseButtonPress Qt.RightButton 2 50 5⟩)
        [GesturesContext.GenericContext] [] 2).bind fun r₁ =>
      (eventFilter exampleEnvironment r₁.1
        (exampleEvent EventType.MouseMove Qt.NoButton 2 45 5) 3).bind fun r₂ =>
        (eventFilter exampleEnvironment r₂.1
          (exampleEvent EventType.MouseMove Qt.NoButton 2 30 5) 4).map fun r₃ =>
          (r₃.1.m_recognizer.map
              (fun recognizer =>
                (moveRegistration exampleEnvironment r₃.1 recognizer).possibleMoves),
            decide (calculateLastMoveDistance r₃.1.m_events true
              ≥ exampleEnvironment.startDragDistance),
            r₃.1.m_steps,
            (recognizeMoveStep exampleEnvironment r₃.1
              (exampleEvent EventType.MouseButtonRelease Qt.RightButton 0 30 5)).m_steps))
      = some (some [], true,
          [GestureStep.ofButton EventType.MouseButtonPress Qt.RightButton
            KeyboardModifiers.NoModifier],
          [GestureStep.ofButton EventType.MouseButtonPress Qt.RightButton
            KeyboardModifiers.NoModifier]) := by
  decide

/-- C25. Move-run fallback: when a recognizer is open, no candidate was
registered or nothing is registered under the identifier the recognizer
reports, and the movement of the last run of pointer moves reaches the drag
distance, `recognizeMoveStep` appends one `Move(Unknown)` step carrying the
modifiers of the event if the step buffer is empty, and leaves the step buffer
as it is if the buffer holds any step. -/
theorem recognizeMoveStep_fallback (env : Environment) (s : Session) (event : QInputEvent)
    (recognizer : List RecognizerCall) (hrec : s.m_recognizer = some recognizer)
    (hmoves : (moveRegistration env s recognizer).possibleMoves = []
      ∨ recognizedMoves env s recognizer event = [])
    (hdist : calculateLastMoveDistance s.m_events true ≥ env.startDragDistance) :
    (recognizeMoveStep env s event).m_steps
      = if s.m_steps = [] then
          [GestureStep.ofDirection EventType.MouseMove MouseAction.UnknownMouseAction
            event.modifiers]
        else s.m_steps := by
  have hnone : recognizedMoves env s recognizer event = [] := by
    rcases hmoves with h | h
    · exact recognizedMoves_of_none_registered env s recognizer event h
    · exact h
  rw [recognizeMoveStep_steps env s event recognizer hrec, hnone]
  simp only [List.map_nil, List.append_nil, List.isEmpty_iff]
  by_cases hs : s.m_steps = []
  · rw [if_pos ⟨hs, hdist⟩, if_pos hs, hs]
    rfl
  · rw [if_neg (fun h => hs h.1), if_neg hs]

theorem recognizeMoveStep_fallback_witness :
    (recognizeMoveStep exampleEnvironment
        { exampleSession with
          m_recognizer := some [RecognizerCall.startGesture 50 5,
            RecognizerCall.addPosition 45 5, RecognizerCall.addPosition 30 5]
          m_trackedObject := some 7
          m_contexts := [GesturesContext.GenericContext]
          m_events := [⟨1, exampleEvent EventType.MouseMove Qt.NoButton 2 45 5⟩,
            ⟨2, exampleEvent EventType.MouseMove Qt.NoButton 2 30 5⟩] }
        (exampleEvent EventType.MouseButtonPress Qt.LeftButton 3 30 5)).m_steps
      = [GestureStep.ofDirection EventType.MouseMove MouseAction.UnknownMouseAction
          KeyboardModifiers.NoModifier] :=
  recognizeMoveStep_fallback exampleEnvironment
    { exampleSession with
      m_recognizer := some [RecognizerCall.startGesture 50 5,
        RecognizerCall.addPosition 45 5, RecognizerCall.addPosition 30 5]
      m_trackedObject := some 7
      m_contexts := [GesturesContext.GenericContext]
      m_events := [⟨1, exampleEvent EventType.MouseMove Qt.NoButton 2 45 5⟩,
        ⟨2, exampleEvent EventType.MouseMove Qt.NoButton 2 30 5⟩] }
    (exampleEvent EventType.MouseButtonPress Qt.LeftButton 3 30 5)
    [RecognizerCall.startGesture 50 5, RecognizerCall.addPosition 45 5,
      RecognizerCall.addPosition 30 5]
    rfl (Or.inl (by decide)) (by decide)

/-! ## A left press followed by a drag -/

theorem matchNativeLoop_press_drag (modifiers : KeyboardModifiers) (st : MatchState) :
    matchNativeLoop
        [GestureStep.ofButton EventType.MouseButtonPress Qt.LeftButton
            KeyboardModifiers.NoModifier,
          GestureStep.ofDirection EventType.MouseMove MouseAction.UnknownMouseAction modifiers]
        (createInstanceNativeGestures GesturesContext.GenericContext) st
      = .error NATIVE_GESTURE := by
  rcases modifiers with ⟨a, b, c, d⟩
  cases a <;> cases b <;> cases c <;> cases d <;> rfl

theorem matchGesture_press_drag (m_gestures : GestureTable) (rest : List GesturesContext)
    (modifiers : KeyboardModifiers) :
    matchGesture createInstanceNativeGestures m_gestures
        (GesturesContext.GenericContext :: rest)
        [GestureStep.ofButton EventType.MouseButtonPress Qt.LeftButton
            KeyboardModifiers.NoModifier,
          GestureStep.ofDirection EventType.MouseMove MouseAction.UnknownMouseAction modifiers]
      = NATIVE_GESTURE := by
  unfold matchGesture matchContextLoop
  rw [matchNativeLoop_press_drag]

theorem native_replay_after_recognizeMoveStep (env : Environment) (s : Session)
    (object : QObjectPtr) (event : QInputEvent) (ht : s.m_trackedObject = some object) :
    ∃ s', triggerAction env (recognizeMoveStep env s event) NATIVE_GESTURE = some (s', true)
      ∧ s'.effects = s.effects ++ [Effect.removeEventFilter object]
          ++ s.m_events.map (Effect.sendEvent object)
          ++ [Effect.removeEventFilter object, Effect.disconnectDestroyed object]
      ∧ s'.m_steps = [] ∧ s'.m_events = [] ∧ s'.m_trackedObject = none := by
  have ht' : (recognizeMoveStep env s event).m_trackedObject = some object :=
    (recognizeMoveStep_trackedObject env s event).trans ht
  obtain ⟨_, heff, hev, _⟩ := recognizeMoveStep_frame env s event
  obtain ⟨c1, c2, c3, _⟩ := cancelGesture_fields
    { recognizeMoveStep env s event with
      effects := (recognizeMoveStep env s event).effects ++ [Effect.removeEventFilter object]
        ++ (recognizeMoveStep env s event).m_events.map (Effect.sendEvent object) }
  refine ⟨_, triggerAction_of_native env _ object ht', ?_, c1, c2, c3⟩
  simp [cancelGesture, releaseObject, ht', heff, hev]

theorem eventFilterMove_of_press_drag (env : Environment) (s : Session) (object : QObjectPtr)
    (event : QInputEvent) (fresh : Nat)
    (hnative : s.m_nativeGestures = createInstanceNativeGestures)
    (hctx : s.m_contexts = [GesturesContext.GenericContext])
    (hsteps : s.m_steps = [GestureStep.ofButton EventType.MouseButtonPress Qt.LeftButton
      KeyboardModifiers.NoModifier])
    (htracked : s.m_trackedObject = some object)
    (hdist : calculateLastMoveDistance (s.m_events ++ [(⟨fresh, event⟩ : QEventPtr)]) false
      ≥ env.startDragDistance) :
    ∃ s', eventFilterMove env s event fresh = some (s', NATIVE_GESTURE)
      ∧ s'.effects = s.effects ++ [Effect.removeEventFilter object]
          ++ (s.m_events ++ [(⟨fresh, event⟩ : QEventPtr)]).map (Effect.sendEvent object)
          ++ [Effect.removeEventFilter object, Effect.disconnectDestroyed object]
      ∧ s'.m_steps = [] ∧ s'.m_events = [] ∧ s'.m_trackedObject = none := by
  have hm := matchGesture_press_drag s.m_gestures.value [] event.modifiers
  have hne : NATIVE_GESTURE ≠ UNKNOWN_GESTURE := by decide
  cases s with
  | mk recognizer tracked lastClick lastPosition paramaters gestures native events steps
      contexts releasing scroll effects =>
    simp only at hnative hctx hsteps htracked hdist hm
    subst hnative hctx hsteps htracked
    cases recognizer with
    | none =>
      simp only [eventFilterMove, hdist, if_true, Session.matchGesture, List.singleton_append,
        hm, hne, ne_eq, not_false_eq_true, Option.map_some']
      obtain ⟨s', h, h1, h2, h3, h4⟩ := native_replay_after_recognizeMoveStep env
        { m_recognizer :=
            some [RecognizerCall.startGesture lastClick.x lastClick.y,
              RecognizerCall.addPosition event.pos.x event.pos.y]
          m_trackedObject := some object
          m_lastClick := lastClick
          m_lastPosition := event.pos
          m_paramaters := paramaters
          m_gestures :=
            ⟨gestures.keys ++
                matchGestureKeys createInstanceNativeGestures gestures.value
                  [GestureStep.ofButton EventType.MouseButtonPress Qt.LeftButton
                      KeyboardModifiers.NoModifier,
                    GestureStep.ofDirection EventType.MouseMove MouseAction.UnknownMouseAction
                      event.modifiers]
                  [GesturesContext.GenericContext] ⟨0, intMax⟩,
              gestures.value⟩
          m_nativeGestures := createInstanceNativeGestures
          m_events := events ++ [(⟨fresh, event⟩ : QEventPtr)]
          m_steps :=
            [GestureStep.ofButton EventType.MouseButtonPress Qt.LeftButton
                KeyboardModifiers.NoModifier,
              GestureStep.ofDirection EventType.MouseMove MouseAction.UnknownMouseAction
                event.modifiers]
          m_contexts := [GesturesContext.GenericContext]
          m_isReleasing := releasing
          m_afterScroll := false
          effects := effects } object event rfl
      rw [h]
      exact ⟨s', rfl, h1, h2, h3, h4⟩
    | some r =>
      simp only [eventFilterMove, hdist, if_true, Session.matchGesture, List.singleton_append,
        hm, hne, ne_eq, not_false_eq_true, Option.map_some']
      obtain ⟨s', h, h1, h2, h3, h4⟩ := native_replay_after_recognizeMoveStep env
        { m_recognizer := some (r ++ [RecognizerCall.addPosition event.pos.x event.pos.y])
          m_trackedObject := some object
          m_lastClick := lastClick
          m_lastPosition := event.pos
          m_paramaters := paramaters
          m_gestures :=
            ⟨gestures.keys ++
                matchGestureKeys createInstanceNativeGestures gestures.value
                  [GestureStep.ofButton EventType.MouseButtonPress Qt.LeftButton
                      KeyboardModifiers.NoModifier,
                    GestureStep.ofDirection EventType.MouseMove MouseAction.UnknownMouseAction
                      event.modifiers]
                  [GesturesContext.GenericContext] ⟨0, intMax⟩,
              gestures.value⟩
          m_nativeGestures := createInstanceNativeGestures
          m_events := events ++ [(⟨fresh, event⟩ : QEventPtr)]
          m_steps :=
            [GestureStep.ofButton EventType.MouseButtonPress Qt.LeftButton
                KeyboardModifiers.NoModifier,
              GestureStep.ofDirection EventType.MouseMove MouseAction.UnknownMouseAction
                event.modifiers]
          m_contexts := [GesturesContext.GenericContext]
          m_isReleasing := releasing
          m_afterScroll := false
          effects := effects } object event rfl
      rw [h]
      exact ⟨s', rfl, h1, h2, h3, h4⟩

theorem eventFilterMove_below_distance (env : Environment) (s : Session) (event : QInputEvent)
    (fresh : Nat)
    (h : calculateLastMoveDistance (s.m_events ++ [(⟨fresh, event⟩ : QEventPtr)]) false
      < env.startDragDistance) :
    ∃ s', eventFilterMove env s event fresh = some (s', UNKNOWN_GESTURE)
      ∧ s'.m_steps = s.m_steps ∧ s'.effects = s.effects
      ∧ s'.m_trackedObject = s.m_trackedObject ∧ s'.m_contexts = s.m_contexts
      ∧ s'.m_nativeGestures = s.m_nativeGestures
      ∧ s'.m_events = s.m_events ++ [(⟨fresh, event⟩ : QEventPtr)] := by
  unfold eventFilterMove
  simp only []
  cases hr : s.m_recognizer <;>
    simp only [Session.matchGesture] <;>
    split_ifs with h1 h2 <;>
    first
    | exact ⟨_, rfl, rfl, rfl, rfl, rfl, rfl, rfl⟩
    | (exfalso
       omega)

/-- C21, counterexample. Mouse gestures are enabled and the profile binds
`moveLeft` to GoBack (1) under Generic, so the table of Generic holds the
one-step definition `[Move(Left)]`. A session is started in context Generic
by a left press at (50, 5); pointer moves to (45, 5) and (30, 5) follow with
the left button held, the second 15 pixels from the first with a drag distance
of 10. The step buffer is the press alone until the second move; that move
resolves to the native sequence press, move: the three buffered events are sent
to the target, the session is cancelled, and `ActionsManager::triggerAction` is
not called. -/
theorem moveLeft_binding_not_reached_after_press :
    (exampleSessionOf [exampleProfile "Generic" "moveLeft" "GoBack"]).m_gestures.value
        GesturesContext.GenericContext
      = [contextMenuGestureDefinition exampleEnvironment,
          ⟨[GestureStep.ofDirection EventType.MouseMove MouseAction.MoveLeftMouseAction
            KeyboardModifiers.NoModifier], 1⟩]
    ∧ ((startGesture exampleEnvironment
        (exampleSessionOf [exampleProfile "Generic" "moveLeft" "GoBack"])
        (some 7) (some ⟨1, exampleEvent EventType.MouseButtonPress Qt.LeftButton 1 50 5⟩)
        [GesturesContext.GenericContext] [] 2).bind fun r₁ =>
      (eventFilter exampleEnvironment r₁.1
        (exampleEvent EventType.MouseMove Qt.NoButton 1 45 5) 3).bind fun r₂ =>
        (eventFilter exampleEnvironment r₂.1
          (exampleEvent EventType.MouseMove Qt.NoButton 1 30 5) 4).map fun r₃ =>
          (r₁.1.m_steps, r₂.1.m_steps, r₃.1.effects, r₃.1.m_steps, r₃.2))
      = some
          ([GestureStep.ofButton EventType.MouseButtonPress Qt.LeftButton
              KeyboardModifiers.NoModifier],
            [GestureStep.ofButton EventType.MouseButtonPress Qt.LeftButton
              KeyboardModifiers.NoModifier],
            [Effect.installEventFilter 7, Effect.connectDestroyed 7,
              Effect.removeEventFilter 7,
              Effect.sendEvent 7
                ⟨2, exampleEvent EventType.MouseButtonPress Qt.LeftButton 1 50 5⟩,
              Effect.sendEvent 7 ⟨3, exampleEvent EventType.MouseMove Qt.NoButton 1 45 5⟩,
              Effect.sendEvent 7 ⟨4, exampleEvent EventType.MouseMove Qt.NoButton 1 30 5⟩,
              Effect.removeEventFilter 7, Effect.disconnectDestroyed 7],
            [], true) := by
  decide

/-! ## A whole run: left press, then a drag -/

theorem foldl_keys_mono {α : Type} (f : GesturesHash → α → GesturesHash)
    (hf : ∀ h a c, c ∈ h.keys → c ∈ (f h a).keys) :
    ∀ (l : List α) (h : GesturesHash) (c : GesturesContext),
      c ∈ h.keys → c ∈ (l.foldl f h).keys := by
  intro l
  induction l with
  | nil => intro h c hc; exact hc
  | cons a l ih =>
    intro h c hc
    rw [List.foldl_cons]
    exact ih _ c (hf h a c hc)

theorem loadEntry_keys (env : Environment) (enabled : Bool) (context : GesturesContext)
    (h : GesturesHash) (entry : QString × QString) (c : GesturesContext) (hc : c ∈ h.keys) :
    c ∈ (loadEntry env enabled context h entry).keys := by
  rw [loadEntry_eq]
  cases entryDefinition env enabled entry with
  | none => exact hc
  | some d => exact List.mem_cons_of_mem _ hc

theorem loadGroup_keys (env : Environment) (enabled : Bool) (h : GesturesHash)
    (group : ProfileGroup) (c : GesturesContext) (hc : c ∈ h.keys) :
    c ∈ (loadGroup env enabled h group).keys := by
  unfold loadGroup
  cases env.keyToValue (group.name ++ "Context".toList) with
  | none => exact hc
  | some context =>
    simp only []
    split_ifs
    · exact hc
    · exact foldl_keys_mono _ (loadEntry_keys env enabled context) _ h c hc

theorem loadProfiles_keys_of_real (env : Environment) (enabled : Bool)
    (profiles : List Profile) (c : GesturesContext) (hc : c.isReal) :
    c ∈ (loadProfiles env enabled profiles).keys := by
  unfold loadProfiles
  apply foldl_keys_mono
  · intro h profile c hc
    exact foldl_keys_mono _ (loadGroup_keys env enabled) _ h c hc
  · simp only [realContexts_eq, List.foldl_cons, List.foldl_nil, GesturesHash.append,
      GesturesHash.assignEmpty, GesturesHash.empty]
    cases c <;> simp [GesturesContext.isReal, GesturesContext.toInt] at hc ⊢

theorem loadProfiles_moveLeft_table (env : Environment)
    (hkey : env.keyToValue "GenericContext".toList = some GesturesContext.GenericContext)
    (haction : 0 ≤ env.getActionIdentifier "GoBack".toList) :
    (loadProfiles env true [exampleProfile "Generic" "moveLeft" "GoBack"]).value
        GesturesContext.GenericContext
      = [contextMenuGestureDefinition env,
          ⟨[GestureStep.ofDirection EventType.MouseMove MouseAction.MoveLeftMouseAction
              KeyboardModifiers.NoModifier],
            env.getActionIdentifier "GoBack".toList⟩] := by
  have hname : "Generic".toList ++ "Context".toList = "GenericContext".toList := by decide
  have hsteps : (split ',' "moveLeft".toList).map deserializeStep
      = [GestureStep.ofDirection EventType.MouseMove MouseAction.MoveLeftMouseAction
          KeyboardModifiers.NoModifier] := by decide
  have hentry : entryDefinition env true ("moveLeft".toList, "GoBack".toList)
      = some ⟨[GestureStep.ofDirection EventType.MouseMove MouseAction.MoveLeftMouseAction
          KeyboardModifiers.NoModifier], env.getActionIdentifier "GoBack".toList⟩ := by
    unfold entryDefinition
    simp only [hsteps]
    rw [if_pos haction, if_pos (Or.inr trivial)]
  have hgroup : groupDefinitions env true GesturesContext.GenericContext
      ⟨"Generic".toList, [("moveLeft".toList, "GoBack".toList)]⟩
      = [⟨[GestureStep.ofDirection EventType.MouseMove MouseAction.MoveLeftMouseAction
          KeyboardModifiers.NoModifier], env.getActionIdentifier "GoBack".toList⟩] := by
    unfold groupDefinitions
    simp only []
    rw [hname, if_pos ⟨hkey, by decide⟩, List.filterMap_cons, hentry]
    rfl
  rw [loadProfiles_value, if_pos (by decide)]
  unfold profileDefinitions exampleProfile
  simp only [List.flatMap_cons, List.flatMap_nil, List.append_nil, hgroup]
  rfl

theorem matchGesture_left_press (env : Environment) (table : GestureTable) (action : Int)
    (htable : table GesturesContext.GenericContext
      = [contextMenuGestureDefinition env,
          ⟨[GestureStep.ofDirection EventType.MouseMove MouseAction.MoveLeftMouseAction
            KeyboardModifiers.NoModifier], action⟩]) :
    matchGesture createInstanceNativeGestures table [GesturesContext.GenericContext]
        [GestureStep.ofButton EventType.MouseButtonPress Qt.LeftButton
          KeyboardModifiers.NoModifier]
      = UNKNOWN_GESTURE := by
  have hn : matchNativeLoop
      [GestureStep.ofButton EventType.MouseButtonPress Qt.LeftButton
        KeyboardModifiers.NoModifier]
      (createInstanceNativeGestures GesturesContext.GenericContext) ⟨0, intMax⟩
      = .ok ⟨0, intMax⟩ := rfl
  have hb : matchBoundLoop
      [GestureStep.ofButton EventType.MouseButtonPress Qt.LeftButton
        KeyboardModifiers.NoModifier]
      [contextMenuGestureDefinition env,
        ⟨[GestureStep.ofDirection EventType.MouseMove MouseAction.MoveLeftMouseAction
          KeyboardModifiers.NoModifier], action⟩] ⟨0, intMax⟩
      = .ok ⟨0, intMax⟩ := rfl
  unfold matchGesture matchContextLoop
  rw [hn]
  simp only []
  rw [htable, hb]
  rfl

theorem startGesture_left_press (env : Environment) (s : Session) (object : QObjectPtr)
    (address : Nat) (press : QInputEvent) (parameters : QVariantMap) (fresh : Nat)
    (hkey : env.keyToValue "GenericContext".toList = some GesturesContext.GenericContext)
    (haction : 0 ≤ env.getActionIdentifier "GoBack".toList)
    (hidle : s.m_trackedObject = none) (hrec : s.m_recognizer = none)
    (hsteps : s.m_steps = []) (hevents : s.m_events = [])
    (hnative : s.m_nativeGestures = createInstanceNativeGestures)
    (htable : s.m_gestures
      = loadProfiles env true [exampleProfile "Generic" "moveLeft" "GoBack"])
    (htype : press.type = EventType.MouseButtonPress) (hbutton : press.button = Qt.LeftButton)
    (hmod : press.modifiers = KeyboardModifiers.NoModifier)
    (hheld : press.buttons ≠ Qt.NoButton) :
    ∃ s₁, startGesture env s (some object) (some ⟨address, press⟩)
          [GesturesContext.GenericContext] parameters fresh = some (s₁, true)
      ∧ s₁.m_steps = [GestureStep.ofButton EventType.MouseButtonPress Qt.LeftButton
          KeyboardModifiers.NoModifier]
      ∧ s₁.m_events = [(⟨fresh, press⟩ : QEventPtr)]
      ∧ s₁.m_trackedObject = some object
      ∧ s₁.m_contexts = [GesturesContext.GenericContext]
      ∧ s₁.m_nativeGestures = createInstanceNativeGestures
      ∧ s₁.effects = s.effects
          ++ [Effect.installEventFilter object, Effect.connectDestroyed object] := by
  have hguard : (s.m_gestures.keys.filter
      (fun c => decide (c ∈ [GesturesContext.GenericContext]))).isEmpty = false := by
    have hmem : GesturesContext.GenericContext ∈ s.m_gestures.keys.filter
        (fun c => decide (c ∈ [GesturesContext.GenericContext])) := by
      rw [List.mem_filter, htable]
      exact ⟨loadProfiles_keys_of_real env true _ _ (by decide), by simp⟩
    cases hl : s.m_gestures.keys.filter
        (fun c => decide (c ∈ [GesturesContext.GenericContext])) with
    | nil => rw [hl] at hmem; cases hmem
    | cons a l => rfl
  have hm := matchGesture_left_press env s.m_gestures.value
    (env.getActionIdentifier "GoBack".toList)
    (by rw [htable]; exact loadProfiles_moveLeft_table env hkey haction)
  obtain ⟨t, m, b, bs, p, d⟩ := press
  simp only at htype hbutton hmod hheld
  subst htype hbutton hmod
  cases s with
  | mk recognizer tracked lastClick lastPosition paramaters gestures native events steps
      contexts releasing scroll effects =>
    simp only at hidle hrec hsteps hevents hnative hguard hm
    subst hidle hrec hsteps hevents hnative
    simp only [GestureStep.ofButton] at hm
    simp only [startGesture, hguard, List.any_nil, Bool.false_eq_true, or_self, if_false,
      Option.isNone_none, if_true, releaseObject, eventFilter, eventFilterButton,
      List.getLast?_nil, false_and, recognizeMoveStep, GestureStep.ofEvent, List.nil_append,
      Session.matchGesture, hm, triggerAction_of_unknown, Option.map_some', eventFilterFinish,
      hheld, and_false, List.isEmpty_cons, Bool.not_false, Bool.true_or]
    exact ⟨_, rfl, rfl, rfl, rfl, rfl, rfl, rfl⟩

theorem eventFilter_move_below_after_press (env : Environment) (s : Session)
    (object : QObjectPtr) (event : QInputEvent) (fresh : Nat)
    (hsteps : s.m_steps = [GestureStep.ofButton EventType.MouseButtonPress Qt.LeftButton
      KeyboardModifiers.NoModifier])
    (htracked : s.m_trackedObject = some object)
    (htype : event.type = EventType.MouseMove) (hheld : event.buttons ≠ Qt.NoButton)
    (hlt : calculateLastMoveDistance (s.m_events ++ [(⟨fresh, event⟩ : QEventPtr)]) false
      < env.startDragDistance) :
    ∃ s', eventFilter env s event fresh = some (s', true)
      ∧ s'.m_steps = s.m_steps ∧ s'.effects = s.effects
      ∧ s'.m_trackedObject = some object ∧ s'.m_contexts = s.m_contexts
      ∧ s'.m_nativeGestures = s.m_nativeGestures
      ∧ s'.m_events = s.m_events ++ [(⟨fresh, event⟩ : QEventPtr)] := by
  have hfilter : eventFilter env s event fresh
      = (eventFilterMove env s event fresh).map (eventFilterFinish event true) := by
    unfold eventFilter
    rw [htype]
  obtain ⟨s₁, heq, h1, h2, h3, h4, h5, h6⟩ :=
    eventFilterMove_below_distance env s event fresh hlt
  have hfin : eventFilterFinish event true (s₁, UNKNOWN_GESTURE) = (s₁, true) := by
    simp [eventFilterFinish, hheld, h1, hsteps]
  refine ⟨s₁, ?_, h1, h2, h3.trans htracked, h4, h5, h6⟩
  rw [hfilter, heq, Option.map_some', hfin]

theorem eventFilter_move_reaching_after_press (env : Environment) (s : Session)
    (object : QObjectPtr) (event : QInputEvent) (fresh : Nat)
    (hnative : s.m_nativeGestures = createInstanceNativeGestures)
    (hctx : s.m_contexts = [GesturesContext.GenericContext])
    (hsteps : s.m_steps = [GestureStep.ofButton EventType.MouseButtonPress Qt.LeftButton
      KeyboardModifiers.NoModifier])
    (htracked : s.m_trackedObject = some object)
    (htype : event.type = EventType.MouseMove)
    (hge : calculateLastMoveDistance (s.m_events ++ [(⟨fresh, event⟩ : QEventPtr)]) false
      ≥ env.startDragDistance) :
    ∃ s', eventFilter env s event fresh = some (s', true)
      ∧ s'.effects = s.effects ++ [Effect.removeEventFilter object]
          ++ (s.m_events ++ [(⟨fresh, event⟩ : QEventPtr)]).map (Effect.sendEvent object)
          ++ [Effect.removeEventFilter object, Effect.disconnectDestroyed object]
      ∧ s'.m_steps = [] ∧ s'.m_events = [] ∧ s'.m_trackedObject = none := by
  have hfilter : eventFilter env s event fresh
      = (eventFilterMove env s event fresh).map (eventFilterFinish event true) := by
    unfold eventFilter
    rw [htype]
  obtain ⟨s₁, heq, h1, h2, h3, h4⟩ :=
    eventFilterMove_of_press_drag env s object event fresh hnative hctx hsteps htracked hge
  have hfin : eventFilterFinish event true (s₁, NATIVE_GESTURE) = (s₁, true) := by
    simp [eventFilterFinish, h4, h2, NATIVE_GESTURE, UNKNOWN_GESTURE]
  refine ⟨s₁, ?_, h1, h2, h3, h4⟩
  rw [hfilter, heq, Option.map_some', hfin]

theorem bufferedCopies_append (l₁ : List QInputEvent) :
    ∀ (fresh : Nat) (l₂ : List QInputEvent),
      bufferedCopies fresh (l₁ ++ l₂)
        = bufferedCopies fresh l₁ ++ bufferedCopies (fresh + l₁.length) l₂ := by
  induction l₁ with
  | nil => intro fresh l₂; simp [bufferedCopies]
  | cons a l ih =>
    intro fresh l₂
    have hfresh : fresh + 1 + l.length = fresh + (l.length + 1) := by omega
    show (⟨fresh, a⟩ : QEventPtr) :: bufferedCopies (fresh + 1) (l ++ l₂)
      = (⟨fresh, a⟩ : QEventPtr)
        :: (bufferedCopies (fresh + 1) l ++ bufferedCopies (fresh + (l.length + 1)) l₂)
    rw [ih, hfresh]

theorem eventFilterAll_append (env : Environment) (l₁ : List QInputEvent) :
    ∀ (s : Session) (fresh : Nat) (l₂ : List QInputEvent),
      eventFilterAll env s (l₁ ++ l₂) fresh
        = (eventFilterAll env s l₁ fresh).bind
            (fun s' => eventFilterAll env s' l₂ (fresh + l₁.length)) := by
  induction l₁ with
  | nil => intro s fresh l₂; simp [eventFilterAll]
  | cons a l ih =>
    intro s fresh l₂
    simp only [List.cons_append, eventFilterAll, List.length_cons]
    cases eventFilter env s a fresh with
    | none => rfl
    | some r =>
      have hfresh : fresh + 1 + l.length = fresh + (l.length + 1) := by omega
      show eventFilterAll env r.1 (l ++ l₂) (fresh + 1) = _
      rw [ih, hfresh]

theorem eventFilterAll_below_after_press (env : Environment) (object : QObjectPtr) :
    ∀ (moves : List QInputEvent) (s : Session) (fresh : Nat),
      s.m_steps = [GestureStep.ofButton EventType.MouseButtonPress Qt.LeftButton
        KeyboardModifiers.NoModifier] →
      s.m_trackedObject = some object →
      (∀ e ∈ moves, e.type = EventType.MouseMove ∧ e.buttons ≠ Qt.NoButton) →
      (∀ k, k < moves.length →
        calculateLastMoveDistance (s.m_events ++ bufferedCopies fresh (moves.take (k + 1))) false
          < env.startDragDistance) →
      ∃ s', eventFilterAll env s moves fresh = some s'
        ∧ s'.m_steps = [GestureStep.ofButton EventType.MouseButtonPress Qt.LeftButton
            KeyboardModifiers.NoModifier]
        ∧ s'.m_trackedObject = some object ∧ s'.effects = s.effects
        ∧ s'.m_contexts = s.m_contexts ∧ s'.m_nativeGestures = s.m_nativeGestures
        ∧ s'.m_events = s.m_events ++ bufferedCopies fresh moves := by
  intro moves
  induction moves with
  | nil =>
    intro s fresh hsteps htracked _ _
    exact ⟨s, rfl, hsteps, htracked, rfl, rfl, rfl, by simp [bufferedCopies]⟩
  | cons m rest ih =>
    intro s fresh hsteps htracked hmoves hbelow
    have hm := hmoves m (List.mem_cons_self _ _)
    have h0 := hbelow 0 (by simp)
    simp only [List.take_succ_cons, List.take_zero, bufferedCopies] at h0
    obtain ⟨s₁, heq, h1, h2, h3, h4, h5, h6⟩ :=
      eventFilter_move_below_after_press env s object m fresh hsteps htracked hm.1 hm.2 h0
    obtain ⟨s', heq', g1, g2, g3, g4, g5, g6⟩ := ih s₁ (fresh + 1) (h1.trans hsteps) h3
      (fun e he => hmoves e (List.mem_cons_of_mem _ he))
      (by
        intro k hk
        have hk' := hbelow (k + 1) (by simp only [List.length_cons]; omega)
        simp only [List.take_succ_cons, bufferedCopies] at hk'
        rw [h6, List.append_assoc]
        exact hk')
    refine ⟨s', ?_, g1, g2, g3.trans h2, g4.trans h4, g5.trans h5, ?_⟩
    · simp only [eventFilterAll, heq]
      exact heq'
    · rw [g6, h6, List.append_assoc]
      rfl

/-- C21. End to end: mouse gestures are enabled and the one profile binds
`moveLeft` to GoBack under Generic, so the table of Generic holds the built-in
definition and `[Move(Left)]` with the identifier of GoBack. The engine is
idle, its buffers are empty and no recognizer is open. A session is started in
the contexts `[Generic]` by a left press without modifiers and pointer moves
with a button held follow. `startGesture` returns true with the press as the
only step. While the run of moves stays below the drag distance the step
buffer stays the press alone and nothing is sent or triggered. The first move
whose run reaches the drag distance resolves to the native sequence press,
move: the press and all the moves are sent to the target in order, no action
is called, and the step buffer and the event buffer are empty and no target is
tracked afterwards. -/
theorem press_then_drag_resolves_native (env : Environment) (s : Session)
    (object : QObjectPtr) (address : Nat) (press : QInputEvent) (parameters : QVariantMap)
    (fresh : Nat) (below : List QInputEvent) (hit : QInputEvent)
    (hkey : env.keyToValue "GenericContext".toList = some GesturesContext.GenericContext)
    (haction : 0 ≤ env.getActionIdentifier "GoBack".toList)
    (hidle : s.m_trackedObject = none) (hrec : s.m_recognizer = none)
    (hsteps : s.m_steps = []) (hevents : s.m_events = [])
    (hnative : s.m_nativeGestures = createInstanceNativeGestures)
    (htable : s.m_gestures
      = loadProfiles env true [exampleProfile "Generic" "moveLeft" "GoBack"])
    (htype : press.type = EventType.MouseButtonPress) (hbutton : press.button = Qt.LeftButton)
    (hmod : press.modifiers = KeyboardModifiers.NoModifier)
    (hheld : press.buttons ≠ Qt.NoButton)
    (hmoves : ∀ e ∈ below ++ [hit], e.type = EventType.MouseMove ∧ e.buttons ≠ Qt.NoButton)
    (hbelow : ∀ k, k < below.length →
      calculateLastMoveDistance (bufferedCopies fresh (press :: below.take (k + 1))) false
        < env.startDragDistance)
    (hhit : calculateLastMoveDistance (bufferedCopies fresh (press :: (below ++ [hit]))) false
      ≥ env.startDragDistance) :
    s.m_gestures.value GesturesContext.GenericContext
        = [contextMenuGestureDefinition env,
            ⟨[GestureStep.ofDirection EventType.MouseMove MouseAction.MoveLeftMouseAction
                KeyboardModifiers.NoModifier],
              env.getActionIdentifier "GoBack".toList⟩]
    ∧ (∃ s₁, startGesture env s (some object) (some ⟨address, press⟩)
            [GesturesContext.GenericContext] parameters fresh = some (s₁, true)
        ∧ s₁.m_steps = [GestureStep.ofButton EventType.MouseButtonPress Qt.LeftButton
            KeyboardModifiers.NoModifier]
        ∧ s₁.effects = s.effects
            ++ [Effect.installEventFilter object, Effect.connectDestroyed object])
    ∧ (∃ s₂, (startGesture env s (some object) (some ⟨address, press⟩)
            [GesturesContext.GenericContext] parameters fresh).bind
          (fun r => eventFilterAll env r.1 below (fresh + 1)) = some s₂
        ∧ s₂.m_steps = [GestureStep.ofButton EventType.MouseButtonPress Qt.LeftButton
            KeyboardModifiers.NoModifier]
        ∧ s₂.effects = s.effects
            ++ [Effect.installEventFilter object, Effect.connectDestroyed object])
    ∧ (∃ s₃, (startGesture env s (some object) (some ⟨address, press⟩)
            [GesturesContext.GenericContext] parameters fresh).bind
          (fun r => eventFilterAll env r.1 (below ++ [hit]) (fresh + 1)) = some s₃
        ∧ s₃.effects = s.effects
            ++ [Effect.installEventFilter object, Effect.connectDestroyed object]
            ++ [Effect.removeEventFilter object]
            ++ (bufferedCopies fresh (press :: (below ++ [hit]))).map (Effect.sendEvent object)
            ++ [Effect.removeEventFilter object, Effect.disconnectDestroyed object]
        ∧ s₃.m_steps = [] ∧ s₃.m_events = [] ∧ s₃.m_trackedObject = none) := by
  obtain ⟨s₁, hstart, a1, a2, a3, a4, a5, a6⟩ :=
    startGesture_left_press env s object address press parameters fresh hkey haction hidle hrec
      hsteps hevents hnative htable htype hbutton hmod hheld
  obtain ⟨s₂, hrun, b1, b2, b3, b4, b5, b6⟩ :=
    eventFilterAll_below_after_press env object below s₁ (fresh + 1) a1 a3
      (fun e he => hmoves e (List.mem_append_left _ he))
      (by
        intro k hk
        rw [a2]
        exact hbelow k hk)
  have hcopies : s₂.m_events ++ [(⟨fresh + 1 + below.length, hit⟩ : QEventPtr)]
      = bufferedCopies fresh (press :: (below ++ [hit])) := by
    rw [b6, a2]
    show (⟨fresh, press⟩ : QEventPtr)
        :: (bufferedCopies (fresh + 1) below
          ++ [(⟨fresh + 1 + below.length, hit⟩ : QEventPtr)])
      = (⟨fresh, press⟩ : QEventPtr) :: bufferedCopies (fresh + 1) (below ++ [hit])
    rw [bufferedCopies_append]
    rfl
  obtain ⟨s₃, hlast, c1, c2, c3, c4⟩ :=
    eventFilter_move_reaching_after_press env s₂ object hit (fresh + 1 + below.length)
      (b5.trans a5) (b4.trans a4) b1 b2 (hmoves hit (by simp)).1
      (by rw [hcopies]; exact hhit)
  refine ⟨?_, ⟨s₁, hstart, a1, a6⟩, ⟨s₂, ?_, b1, b3.trans a6⟩, ⟨s₃, ?_, ?_, c2, c3, c4⟩⟩
  · rw [htable]
    exact loadProfiles_moveLeft_table env hkey haction
  · rw [hstart]
    exact hrun
  · rw [hstart]
    show eventFilterAll env s₁ (below ++ [hit]) (fresh + 1) = some s₃
    rw [eventFilterAll_append, hrun]
    show eventFilterAll env s₂ [hit] (fresh + 1 + below.length) = some s₃
    simp only [eventFilterAll, hlast]
  · rw [c1, hcopies, b3, a6]

theorem press_then_drag_resolves_native_witness :
    ∃ s₃, (startGesture exampleEnvironment
            (exampleSessionOf [exampleProfile "Generic" "moveLeft" "GoBack"]) (some 7)
            (some ⟨1, exampleEvent EventType.MouseButtonPress Qt.LeftButton 1 50 5⟩)
            [GesturesContext.GenericContext] [] 2).bind
          (fun r => eventFilterAll exampleEnvironment r.1
            ([exampleEvent EventType.MouseMove Qt.NoButton 1 45 5]
              ++ [exampleEvent EventType.MouseMove Qt.NoButton 1 30 5]) (2 + 1)) = some s₃
        ∧ s₃.effects = (exampleSessionOf [exampleProfile "Generic" "moveLeft" "GoBack"]).effects
            ++ [Effect.installEventFilter 7, Effect.connectDestroyed 7]
            ++ [Effect.removeEventFilter 7]
            ++ (bufferedCopies 2
                (exampleEvent EventType.MouseButtonPress Qt.LeftButton 1 50 5
                  :: ([exampleEvent EventType.MouseMove Qt.NoButton 1 45 5]
                    ++ [exampleEvent EventType.MouseMove Qt.NoButton 1 30 5]))).map
              (Effect.sendEvent 7)
            ++ [Effect.removeEventFilter 7, Effect.disconnectDestroyed 7]
        ∧ s₃.m_steps = [] ∧ s₃.m_events = [] ∧ s₃.m_trackedObject = none :=
  (press_then_drag_resolves_native exampleEnvironment
    (exampleSessionOf [exampleProfile "Generic" "moveLeft" "GoBack"]) 7 1
    (exampleEvent EventType.MouseButtonPress Qt.LeftButton 1 50 5) [] 2
    [exampleEvent EventType.MouseMove Qt.NoButton 1 45 5]
    (exampleEvent EventType.MouseMove Qt.NoButton 1 30 5)
    (by decide) (by decide) rfl rfl rfl rfl rfl rfl rfl rfl rfl (by decide) (by decide)
    (by decide) (by decide)).2.2.2

end Otter
